import Mathlib

/-!
# climacell-go (package `climacell`, v4): optional values and JSON decoding

A shallow embedding of `climacell/v4/weather.go`.

Conventions of the embedding:

* a Go pointer `*T` is an `Option T` (`none` is the nil pointer);
* a Go `float64` is its IEEE 754 binary64 bit pattern (`Float64.bits`);
* a Go `int` is an `Int` in the 64-bit range;
* a Go `time.Time` is the pair of its instant (seconds and nanoseconds since
  January 1, year 1, 00:00:00 UTC, which is what `Time.IsZero` inspects) and the
  offset of its location east of UTC, in seconds;
* a method with a pointer receiver that may be nil takes an `Option`.
-/

namespace Climacell

/-! ## Scalars -/

/-- Go `float64`, as the IEEE 754 binary64 bit pattern (sign bit, 11 exponent bits,
52 fraction bits); only patterns below `2 ^ 64` occur. -/
structure Float64 where
  bits : Nat
  deriving DecidableEq, Repr

/-- The Go literal `0.0`, which is also the zero value of `float64`. -/
def Float64.zero : Float64 := ⟨0⟩

/-- Go `time.Time`: `sec` and `nsec` give the instant, counted from January 1, year 1,
00:00:00 UTC, and `offset` is the offset east of UTC, in seconds, of the location the
time is presented in. -/
structure Time where
  sec : Int
  nsec : Nat
  offset : Int
  deriving DecidableEq, Repr

/-- The Go value `time.Time{}`: January 1, year 1, 00:00:00 UTC. -/
def Time.zero : Time := ⟨0, 0, 0⟩

/-- Go `func (t Time) IsZero() bool`: `t.sec() == 0 && t.nsec() == 0`. -/
def Time.IsZero (t : Time) : Bool := t.sec == 0 && t.nsec == 0

/-! ## Optional value wrappers (weather.go, lines 222-292) -/

/-- Go `type StringValue struct { Value *string }`. -/
structure StringValue where
  Value : Option String
  deriving DecidableEq, Repr

/-- Go `type FloatValue struct { Value *float64; Units string }`. -/
structure FloatValue where
  Value : Option Float64
  Units : String
  deriving DecidableEq, Repr

/-- Go `type IntValue struct { Value *int; Units string }`. -/
structure IntValue where
  Value : Option Int
  Units : String
  deriving DecidableEq, Repr

/-- Go `type TimeValue struct { Value *time.Time; Units string }`. -/
structure TimeValue where
  Value : Option Time
  Units : String
  deriving DecidableEq, Repr

/-- Go `func (s *StringValue) GetValue() (val string, ok bool)`:
`if s == nil || s.Value == nil { return "", false }; return *s.Value, true`. -/
def StringValue.GetValue (s : Option StringValue) : String × Bool :=
  match s with
  | none => ("", false)
  | some w =>
    match w.Value with
    | none => ("", false)
    | some v => (v, true)

/-- Go `func (f *FloatValue) GetValue() (val float64, ok bool)`:
`if f == nil || f.Value == nil { return 0.0, false }; return *f.Value, true`. -/
def FloatValue.GetValue (f : Option FloatValue) : Float64 × Bool :=
  match f with
  | none => (Float64.zero, false)
  | some w =>
    match w.Value with
    | none => (Float64.zero, false)
    | some v => (v, true)

/-- Go `func (i *IntValue) GetValue() (val int, ok bool)`:
`if i == nil || i.Value == nil { return 0, false }; return *i.Value, true`. -/
def IntValue.GetValue (i : Option IntValue) : Int × Bool :=
  match i with
  | none => (0, false)
  | some w =>
    match w.Value with
    | none => (0, false)
    | some v => (v, true)

/-- Go `func (t *TimeValue) GetValue() (val time.Time, ok bool)`:
`if t == nil || t.Value == nil { return time.Time{}, false }; return *t.Value, true`. -/
def TimeValue.GetValue (t : Option TimeValue) : Time × Bool :=
  match t with
  | none => (Time.zero, false)
  | some w =>
    match w.Value with
    | none => (Time.zero, false)
    | some v => (v, true)

/-! ## JSON values and decode errors (Go packages `encoding/json`, `time`)

The decoders below work on parsed JSON values. A string node holds the text of the
string (strings are taken as written without escape sequences), a number node holds the
number literal as written, and an object node holds its members in the order of the
text, duplicates included. An `UnmarshalJSON` method receives from `encoding/json` the text
of one value without white space around it, so its test `string(b) == "null"` is the test
for the node `null`. -/

/-- A JSON value. -/
inductive JSON where
  | null
  | bool (b : Bool)
  | num (lit : String)
  | str (s : String)
  | arr (elems : List JSON)
  | obj (members : List (String × JSON))
  deriving Repr

/-- The name `encoding/json` gives a JSON value's kind in `UnmarshalTypeError.Value`. -/
def JSON.kind : JSON → String
  | .null => "null"
  | .bool _ => "bool"
  | .num _ => "number"
  | .str _ => "string"
  | .arr _ => "array"
  | .obj _ => "object"

/-- Go `time.ParseError`. -/
structure ParseError where
  Layout : String
  Value : String
  LayoutElem : String
  ValueElem : String
  Message : String
  deriving DecidableEq, Repr

/-- The errors the decoders return: `*json.UnmarshalTypeError` (its `Value`, the name of its
`Type`, `Struct` and `Field`), `*time.ParseError`, and errors made with `errors.New`. -/
inductive DecodeError where
  | unmarshalType (value : String) (goType : String) (struct : String) (field : String)
  | parse (e : ParseError)
  | other (msg : String)
  deriving DecidableEq, Repr

/-- The `errorContext` of a `json.decodeState`: the struct being decoded (`""` when
there is none) and the stack of field names that leads to the current value. -/
structure ErrorContext where
  Struct : String
  FieldStack : List String
  deriving DecidableEq, Repr

/-- The context of a fresh `json.Unmarshal` call. -/
def ErrorContext.top : ErrorContext := ⟨"", []⟩

/-- The context inside field `name` of struct `struct` (`d.object`: the field name is
pushed on `FieldStack` and `Struct` is set to the struct's type). -/
def ErrorContext.field (ctx : ErrorContext) (struct name : String) : ErrorContext :=
  ⟨struct, ctx.FieldStack ++ [name]⟩

/-- Go `decodeState.addErrorContext`: an `UnmarshalTypeError` receives the struct and the
dot-joined field path of the context, every other error passes unchanged. -/
def addErrorContext (ctx : ErrorContext) (err : DecodeError) : DecodeError :=
  match err with
  | .unmarshalType value goType _ _ =>
    if ctx.Struct ≠ "" ∨ ctx.FieldStack ≠ [] then
      .unmarshalType value goType ctx.Struct (".".intercalate ctx.FieldStack)
    else err
  | e => e

/-- A new `UnmarshalTypeError` as `decodeState.saveError` records it in context `ctx`. -/
def typeError (ctx : ErrorContext) (value goType : String) : DecodeError :=
  addErrorContext ctx (.unmarshalType value goType "" "")

/-- The state of a target after `decodeState.value` ran on it: the target's new value,
the `UnmarshalTypeError` recorded by `saveError` (decoding goes on after it), and the
error an `Unmarshaler` returned (decoding stops there). -/
structure Dec (α : Type) where
  val : α
  saved : Option DecodeError
  abort : Option DecodeError
  deriving DecidableEq, Repr

/-- What `json.Unmarshal(data, &target)` leaves: the target, which the call may have
written to also when it fails, and the returned error (`none` is Go's `nil`). -/
structure Unmarshaled (α : Type) where
  val : α
  err : Option DecodeError
  deriving DecidableEq, Repr

/-- Go `decodeState.unmarshal`: the `Unmarshaler` error if there is one, else the saved error. -/
def Dec.finish {α : Type} (r : Dec α) : Unmarshaled α :=
  ⟨r.val, match r.abort with
    | some e => some e
    | none => r.saved⟩

/-- The first saved error wins (`saveError` keeps `d.savedError` once set). -/
def keepFirst (saved new : Option DecodeError) : Option DecodeError :=
  match saved with
  | some e => some e
  | none => new

/-! ### Matching object keys to struct fields -/

/-- Go `json.foldRune` on the runes that can meet an ASCII field name: ASCII lower-case
letters fold to upper case, and the two non-ASCII runes that share a fold orbit with an
ASCII letter (U+017F, U+212A) fold to `S` and `K`. Other runes fold among non-ASCII runes
and are left as they are. -/
def foldRune (c : Char) : Char :=
  if 'a' ≤ c ∧ c ≤ 'z' then Char.ofNat (c.toNat - 32)
  else if c.toNat = 0x17F then 'S'
  else if c.toNat = 0x212A then 'K'
  else c

/-- Go `json.foldName`. -/
def foldName (s : String) : List Char := s.toList.map foldRune

/-- Whether object key `key` selects the struct field with JSON name `name`: an exact match
or, failing that, a case-insensitive one. No two fields of one struct in this package have
names that fold alike, so the two lookups of `d.object` amount to this test. -/
def fieldMatch (name key : String) : Bool := decide (foldName key = foldName name)

/-- Go `d.object` on a struct: the members are visited in order; the member's field, if
any, is decoded by `setField`; an `Unmarshaler` error stops the walk. -/
def decodeObject {α : Type} (setField : α → String → JSON → Dec α) :
    α → Option DecodeError → List (String × JSON) → Dec α
  | cur, saved, [] => ⟨cur, saved, none⟩
  | cur, saved, (k, v) :: ms =>
    let r := setField cur k v
    match r.abort with
    | some e => ⟨r.val, keepFirst saved r.saved, some e⟩
    | none => decodeObject setField r.val (keepFirst saved r.saved) ms

/-- Go `decodeState.value` on a target of struct type `goType` without an `Unmarshaler`:
`null` leaves the struct as it is, an object is decoded member by member, and any other
JSON value is recorded as an `UnmarshalTypeError`. -/
def decodeStruct {α : Type} (ctx : ErrorContext) (goType : String)
    (setField : α → String → JSON → Dec α) (cur : α) : JSON → Dec α
  | .null => ⟨cur, none, none⟩
  | .obj ms => decodeObject setField cur none ms
  | j => ⟨cur, some (typeError ctx j.kind goType), none⟩

/-! ### Numbers (Go package `strconv`) -/

/-- Go `isDigit` on one character. -/
def isDigit (c : Char) : Bool := decide ('0' ≤ c) && decide (c ≤ '9')

/-- The value of a decimal digit. -/
def digitVal (c : Char) : Nat := c.toNat - 48

/-- The value of a string of decimal digits. -/
def digitsVal (ds : List Char) : Nat := ds.foldl (fun acc c => 10 * acc + digitVal c) 0

/-- Go `strconv.ParseInt(s, 10, 64)`: an optional sign and decimal digits, within the range
of `int64`; `none` stands for the syntax and range errors. -/
def ParseInt (lit : String) : Option Int :=
  let s := lit.toList
  let neg := decide (s.head? = some '-')
  let ds := if s.head? = some '-' ∨ s.head? = some '+' then s.tail else s
  if ds = [] ∨ ds.all isDigit = false then none
  else
    let n := digitsVal ds
    if neg then (if n ≤ 2 ^ 63 then some (-(n : Int)) else none)
    else (if n < 2 ^ 63 then some (n : Int) else none)

/-- A JSON number literal read as sign, decimal mantissa and decimal exponent:
`-? digits (. digits)? ([eE] [+-]? digits)?` denotes `± mant * 10 ^ exp10`. -/
structure Decimal where
  neg : Bool
  mant : Nat
  exp10 : Int
  deriving DecidableEq, Repr

/-- The exponent part of a number literal: nothing, or `e`/`E`, an optional sign and digits. -/
def readExponent (s : List Char) : Option Int :=
  match s with
  | [] => some 0
  | c :: r =>
    if c = 'e' ∨ c = 'E' then
      let neg := decide (r.head? = some '-')
      let ds := if r.head? = some '-' ∨ r.head? = some '+' then r.tail else r
      if ds = [] ∨ ds.all isDigit = false then none
      else some (if neg then -(digitsVal ds : Int) else (digitsVal ds : Int))
    else none

/-- Reads a number literal of the JSON grammar. -/
def readDecimal (lit : String) : Option Decimal :=
  let s := lit.toList
  let neg := decide (s.head? = some '-')
  let s1 := if s.head? = some '-' then s.tail else s
  let ip := s1.span isDigit
  if ip.1 = [] then none
  else
    match ip.2 with
    | '.' :: r =>
      let fp := r.span isDigit
      if fp.1 = [] then none
      else (readExponent fp.2).map
        (fun e => ⟨neg, digitsVal (ip.1 ++ fp.1), e - (fp.1.length : Int)⟩)
    | r => (readExponent r).map (fun e => ⟨neg, digitsVal ip.1, e⟩)

/-- Rounds `num / den` to the nearest natural number, ties to even. -/
def roundHalfEven (num den : Nat) : Nat :=
  let q := num / den
  let r := num % den
  if 2 * r < den then q
  else if den < 2 * r then q + 1
  else if q % 2 = 0 then q else q + 1

/-- The number of binary digits of `n`; `fuel` bounds the number of halvings
(`fuel = n` is always enough). -/
def bitLength : Nat → Nat → Nat
  | 0, _ => 0
  | fuel + 1, n => if n = 0 then 0 else bitLength fuel (n / 2) + 1

/-- The floor of the binary logarithm, for `n > 0`. -/
def ilog2 (n : Nat) : Nat := bitLength n n - 1

/-- The binary64 value nearest to `± num / den` (IEEE 754 round to nearest, ties to even),
`none` when the rounded value is not finite. With `m * 2 ^ k` the rounded magnitude,
`2 ^ 52 ≤ m < 2 ^ 53` for a normal number and `k = -1074` for a subnormal one. -/
def roundToFloat64 (neg : Bool) (num den : Nat) : Option Float64 :=
  let sign := if neg then 2 ^ 63 else 0
  if num = 0 then some ⟨sign⟩
  else
    let l : Int := (ilog2 num : Int) - (ilog2 den : Int)
    let ge : Bool := if 0 ≤ l then decide (den * 2 ^ l.toNat ≤ num)
      else decide (den ≤ num * 2 ^ (-l).toNat)
    let e0 : Int := if ge then l else l - 1
    let k : Int := if e0 - 52 < -1074 then -1074 else e0 - 52
    let m := if 0 ≤ k then roundHalfEven num (den * 2 ^ k.toNat)
      else roundHalfEven (num * 2 ^ (-k).toNat) den
    let k1 : Int := if m = 2 ^ 53 then k + 1 else k
    let m1 := if m = 2 ^ 53 then 2 ^ 52 else m
    if m1 < 2 ^ 52 then some ⟨sign + m1⟩
    else if 2047 ≤ k1 + 1075 then none
    else some ⟨sign + (k1 + 1075).toNat * 2 ^ 52 + (m1 - 2 ^ 52)⟩

/-- Go `strconv.ParseFloat(s, 64)` on a JSON number literal: the nearest `float64`, and
`none` for the range error of a literal too large for a finite `float64`. -/
def ParseFloat (lit : String) : Option Float64 :=
  match readDecimal lit with
  | none => none
  | some d =>
    if 0 ≤ d.exp10 then roundToFloat64 d.neg (d.mant * 10 ^ d.exp10.toNat) 1
    else roundToFloat64 d.neg d.mant (10 ^ (-d.exp10).toNat)

/-- The exponent that `roundToFloat64` finds first: the whole part of the binary logarithm
of `num / den`, for `num` and `den` above zero. -/
def floorLog2 (num den : Nat) : Int :=
  let l : Int := (ilog2 num : Int) - (ilog2 den : Int)
  let ge : Bool := if 0 ≤ l then decide (den * 2 ^ l.toNat ≤ num)
    else decide (den ≤ num * 2 ^ (-l).toNat)
  if ge then l else l - 1

/-- The steps of `roundToFloat64` that follow once the exponent `e0` is known. -/
def roundAt (neg : Bool) (num den : Nat) (e0 : Int) : Option Float64 :=
  let sign := if neg then 2 ^ 63 else 0
  let k : Int := if e0 - 52 < -1074 then -1074 else e0 - 52
  let m := if 0 ≤ k then roundHalfEven num (den * 2 ^ k.toNat)
    else roundHalfEven (num * 2 ^ (-k).toNat) den
  let k1 : Int := if m = 2 ^ 53 then k + 1 else k
  let m1 := if m = 2 ^ 53 then 2 ^ 52 else m
  if m1 < 2 ^ 52 then some ⟨sign + m1⟩
  else if 2047 ≤ k1 + 1075 then none
  else some ⟨sign + (k1 + 1075).toNat * 2 ^ 52 + (m1 - 2 ^ 52)⟩

/-! ## Times (Go package `time`)

`time.Parse` is modelled for the two layouts the package uses, following the loop of the
unexported `parse`: the layout is cut into chunks (literal text before an element, then
the element), and each iteration skips the literal text and reads one element. The model
follows Go 1.20 and later; its fast path for RFC 3339 (`parseRFC3339`) accepts a subset of
what the loop accepts, with the same result, and is not modelled apart. A `Char` stands
for a byte of the Go string, which is exact on ASCII text. -/

/-- Go `isLeap`. -/
def isLeap (year : Int) : Bool :=
  decide (year % 4 = 0) && (decide (year % 100 ≠ 0) || decide (year % 400 = 0))

/-- Go `daysBefore[i]`: the days of a non-leap year before month `i + 1`. -/
def daysBefore (i : Nat) : Int :=
  [0, 31, 59, 90, 120, 151, 181, 212, 243, 273, 304, 334, 365].getD i 0

/-- Go `daysIn(m, year)`. -/
def daysIn (m : Int) (year : Int) : Int :=
  if m = 2 ∧ isLeap year = true then 29
  else daysBefore m.toNat - daysBefore (m.toNat - 1)

/-- Go `norm(hi, lo, base)`: brings `lo` into `[0, base)`, carrying into `hi`. -/
def norm (hi lo base : Int) : Int × Int :=
  let n1 := (-lo - 1) / base + 1
  let hi1 := if lo < 0 then hi - n1 else hi
  let lo1 := if lo < 0 then lo + n1 * base else lo
  let n2 := lo1 / base
  if base ≤ lo1 then (hi1 + n2, lo1 - n2 * base) else (hi1, lo1)

/-- The days from January 1 of year 1 to January 1 of `year` (Go `daysSinceEpoch`, counted
from year 1 instead of Go's absolute epoch). -/
def daysSinceYear1 (year : Int) : Int :=
  365 * (year - 1) + (year - 1) / 4 - (year - 1) / 100 + (year - 1) / 400

/-- Go `time.Date(year, month, day, hour, min, sec, nsec, time.UTC)`. -/
def Date (year month day hour min sec nsec : Int) : Time :=
  let ym := norm year (month - 1) 12
  let year := ym.1
  let month := ym.2 + 1
  let sn := norm sec nsec 1000000000
  let ms := norm min sn.1 60
  let hm := norm hour ms.1 60
  let dh := norm day hm.1 24
  let d := daysSinceYear1 year + daysBefore (month - 1).toNat
    + (if isLeap year = true ∧ 3 ≤ month then 1 else 0) + (dh.1 - 1)
  ⟨d * 86400 + (dh.2 * 3600 + hm.2 * 60 + ms.2), sn.2.toNat, 0⟩

/-- The layout elements of the two layouts (Go `stdLongYear`, `stdZeroMonth`, ...). -/
inductive Std where
  | stdLongYear
  | stdZeroMonth
  | stdZeroDay
  | stdHour
  | stdZeroMinute
  | stdZeroSecond
  | stdISO8601ColonTZ
  deriving DecidableEq, Repr

/-- One result of Go `nextStdChunk`: the literal text before the element, the element,
and the element's text in the layout. -/
structure Chunk where
  pre : List Char
  std : Std
  stdstr : String
  deriving Repr

/-- A layout with the chunks `nextStdChunk` cuts it into. -/
structure Layout where
  text : String
  chunks : List Chunk
  deriving Repr

/-- Go `time.RFC3339 = "2006-01-02T15:04:05Z07:00"`. -/
def RFC3339 : Layout :=
  ⟨"2006-01-02T15:04:05Z07:00",
   [⟨[], .stdLongYear, "2006"⟩, ⟨['-'], .stdZeroMonth, "01"⟩, ⟨['-'], .stdZeroDay, "02"⟩,
    ⟨['T'], .stdHour, "15"⟩, ⟨[':'], .stdZeroMinute, "04"⟩, ⟨[':'], .stdZeroSecond, "05"⟩,
    ⟨[], .stdISO8601ColonTZ, "Z07:00"⟩]⟩

/-- The layout `"2006-01-02"` of the second attempt in `timeOrDate.UnmarshalJSON`. -/
def dateLayout : Layout :=
  ⟨"2006-01-02",
   [⟨[], .stdLongYear, "2006"⟩, ⟨['-'], .stdZeroMonth, "01"⟩, ⟨['-'], .stdZeroDay, "02"⟩]⟩

/-- The variables of Go `parse` that the two layouts write: `month` and `day` start at
`-1`, `utc` records `z = UTC`, and `zoneOffset` starts at `-1`. -/
structure ParseState where
  year : Int
  month : Int
  day : Int
  hour : Int
  min : Int
  sec : Int
  nsec : Int
  utc : Bool
  zoneOffset : Int
  deriving DecidableEq, Repr

/-- The variables at the start of `parse`. -/
def ParseState.init : ParseState := ⟨0, -1, -1, 0, 0, 0, 0, false, -1⟩

/-- What reading one element gives: the new state and the rest of the value, or a range
error (`rangeErrString` with the rest of the value), or `errBad`. -/
inductive ElemResult where
  | ok (st : ParseState) (rest : List Char)
  | range (what : String) (rest : List Char)
  | bad
  deriving Repr

/-- Go `time.skip(value, pre)` for literal text without spaces: the rest of the value, or
the value where the text stopped matching. -/
def skip : List Char → List Char → Except (List Char) (List Char)
  | value, [] => .ok value
  | [], _ :: _ => .error []
  | v :: vs, p :: ps => if v = p then skip vs ps else .error (v :: vs)

/-- Go `time.getnum(s, fixed)`: one or two leading digits, two if `fixed`. -/
def getnum (s : List Char) (fixed : Bool) : Option (Nat × List Char) :=
  match s with
  | [] => none
  | c :: r =>
    if isDigit c = false then none
    else
      match r with
      | [] => if fixed then none else some (digitVal c, r)
      | d :: r2 =>
        if isDigit d then some (digitVal c * 10 + digitVal d, r2)
        else if fixed then none else some (digitVal c, r)

/-- Go `time.atoi` (at most nine digits reach it here, so `leadingInt` cannot overflow):
an optional sign, then digits up to the end of the string. -/
def atoi (s : List Char) : Option Int :=
  let neg := decide (s.head? = some '-')
  let s1 := if s.head? = some '-' ∨ s.head? = some '+' then s.tail else s
  if s1.all isDigit = false then none
  else some (if neg then -(digitsVal s1 : Int) else (digitsVal s1 : Int))

/-- Go `commaOrPeriod`. -/
def commaOrPeriod (c : Char) : Bool := decide (c = '.') || decide (c = ',')

/-- The time zone element `Z07:00`, after the test for `Z`: a sign, two digits, a colon
and two digits. Range errors override `errBad`, and the later range test overrides the
earlier one, as in Go. -/
def parseZone (st : ParseState) (value : List Char) : ElemResult :=
  match value with
  | sign :: h1 :: h2 :: c :: m1 :: m2 :: rest =>
    if c ≠ ':' then .bad
    else
      let hr := getnum [h1, h2] true
      let mm := if hr.isSome then getnum [m1, m2] true else none
      let hrv := (hr.map Prod.fst).getD 0
      let mmv := (mm.map Prod.fst).getD 0
      let zoneOffset : Int := ((hrv * 60 + mmv) * 60 : Nat)
      if 60 < mmv then .range "time zone offset minute" rest
      else if 24 < hrv then .range "time zone offset hour" rest
      else if mm.isNone then .bad
      else if sign = '+' then .ok { st with zoneOffset := zoneOffset } rest
      else if sign = '-' then .ok { st with zoneOffset := -zoneOffset } rest
      else .bad
  | _ => .bad

/-- The fraction of a second that may follow the seconds although the layout has none:
a period or comma and digits, of which the first nine count (Go `parseNanoseconds`). -/
def parseFraction (st : ParseState) (sec : Nat) (rest : List Char) : ElemResult :=
  match rest with
  | c :: d :: more =>
    if commaOrPeriod c && isDigit d then
      let digits := d :: more.takeWhile isDigit
      let used := digits.take 9
      .ok { st with sec := sec, nsec := (digitsVal used * 10 ^ (9 - used.length) : Nat) }
        (more.dropWhile isDigit)
    else .ok { st with sec := sec } rest
  | _ => .ok { st with sec := sec } rest

/-- One case of the `switch std & stdMask` in Go `parse`. -/
def parseElem (std : Std) (st : ParseState) (value : List Char) : ElemResult :=
  match std with
  | .stdLongYear =>
    if value.length < 4 ∨ (value.head?.map isDigit).getD false = false then .bad
    else
      match atoi (value.take 4) with
      | none => .bad
      | some y => .ok { st with year := y } (value.drop 4)
  | .stdZeroMonth =>
    match getnum value true with
    | none => .bad
    | some (m, rest) =>
      if m = 0 ∨ 12 < m then .range "month" rest else .ok { st with month := m } rest
  | .stdZeroDay =>
    match getnum value true with
    | none => .bad
    | some (d, rest) => .ok { st with day := d } rest
  | .stdHour =>
    match getnum value false with
    | none => .bad
    | some (h, rest) => if 24 ≤ h then .range "hour" rest else .ok { st with hour := h } rest
  | .stdZeroMinute =>
    match getnum value true with
    | none => .bad
    | some (m, rest) => if 60 ≤ m then .range "minute" rest else .ok { st with min := m } rest
  | .stdZeroSecond =>
    match getnum value true with
    | none => .bad
    | some (s, rest) => if 60 ≤ s then .range "second" rest else parseFraction st s rest
  | .stdISO8601ColonTZ =>
    match value with
    | 'Z' :: rest => .ok { st with utc := true } rest
    | _ => parseZone st value

/-- The hexadecimal digit of `n < 16`, lower case. -/
def lowerhex (n : Nat) : Char := "0123456789abcdef".toList.getD n '0'

/-- Go `time.quote`: double quotes around the text, a backslash before `"` and `\`, and
every byte of a control or non-ASCII character as `\xHH`. -/
def quote (s : String) : String :=
  String.mk ([Char.ofNat 34] ++ s.toList.flatMap (fun c =>
    if 128 ≤ c.toNat ∨ c.toNat < 32 then
      (String.utf8EncodeChar c).flatMap (fun b =>
        [Char.ofNat 92, 'x', lowerhex (b.toNat / 16), lowerhex (b.toNat % 16)])
    else if c.toNat = 34 ∨ c.toNat = 92 then [Char.ofNat 92, c]
    else [c]) ++ [Char.ofNat 34])

/-- One iteration of the loop of Go `parse`: the literal text before the element is
skipped, the element is read, and a range error or `errBad` ends the parse. -/
def parseStep (alayout avalue : String) (c : Chunk) (st : ParseState) (value : List Char) :
    Except ParseError (ParseState × List Char) :=
  match skip value c.pre with
  | .error at_ => .error ⟨alayout, avalue, String.mk c.pre, String.mk at_, ""⟩
  | .ok value1 =>
    match parseElem c.std st value1 with
    | .range what rest =>
      .error ⟨alayout, avalue, c.stdstr, String.mk rest, ": " ++ what ++ " out of range"⟩
    | .bad => .error ⟨alayout, avalue, c.stdstr, String.mk value1, ""⟩
    | .ok st1 rest => .ok (st1, rest)

/-- The loop of Go `parse` over the chunks of the layout; after the last chunk the value
must be used up. -/
def parseLoop (alayout avalue : String) :
    List Chunk → ParseState → List Char → Except ParseError ParseState
  | [], st, value =>
    if value ≠ [] then
      .error ⟨alayout, avalue, "", String.mk value, ": extra text: " ++ quote (String.mk value)⟩
    else .ok st
  | c :: cs, st, value =>
    match parseStep alayout avalue c st value with
    | .error e => .error e
    | .ok r => parseLoop alayout avalue cs r.1 r.2

/-- The end of Go `parse`: the defaults for an unset month and day, the test of the day
against the month, and the time in UTC (for `Z`, or with no zone in the layout) or at the
offset read from the value. -/
def finishParse (alayout avalue : String) (st : ParseState) : Except ParseError Time :=
  let month := if st.month < 0 then 1 else st.month
  let day := if st.day < 0 then 1 else st.day
  if day < 1 ∨ daysIn month st.year < day then
    .error ⟨alayout, avalue, "", "", ": day out of range"⟩
  else
    let t := Date st.year month day st.hour st.min st.sec st.nsec
    if st.utc then .ok t
    else if st.zoneOffset ≠ -1 then .ok ⟨t.sec - st.zoneOffset, t.nsec, st.zoneOffset⟩
    else .ok t

/-- Go `time.Parse(layout, value)` for the two layouts above. -/
def Parse (layout : Layout) (value : String) : Except ParseError Time :=
  match parseLoop layout.text value layout.chunks ParseState.init value.toList with
  | .error e => .error e
  | .ok st => finishParse layout.text value st

/-- Go `func (e *ParseError) Error() string`. -/
def ParseError.Error (e : ParseError) : String :=
  if e.Message = "" then
    "parsing time " ++ quote e.Value ++ " as " ++ quote e.Layout ++ ": cannot parse "
      ++ quote e.ValueElem ++ " as " ++ quote e.LayoutElem
  else "parsing time " ++ quote e.Value ++ e.Message

/-- Go `Error()` of the three kinds of error. -/
def DecodeError.Error : DecodeError → String
  | .unmarshalType value goType struct field =>
    if struct ≠ "" ∨ field ≠ "" then
      "json: cannot unmarshal " ++ value ++ " into Go struct field " ++ struct ++ "." ++ field
        ++ " of type " ++ goType
    else "json: cannot unmarshal " ++ value ++ " into Go value of type " ++ goType
  | .parse e => e.Error
  | .other msg => msg

/-! ## Decoding the optional value wrappers (`encoding/json` on the struct types)

A target of pointer type is set to nil by `null`; for any other JSON value a nil pointer
is first made to point to a new zero value (`indirect`), also when the value then turns
out to have the wrong kind. -/

/-- Decoding into a `*string`. -/
def decodeStringPtr (ctx : ErrorContext) (cur : Option String) : JSON → Dec (Option String)
  | .null => ⟨none, none, none⟩
  | .str s => ⟨some s, none, none⟩
  | j => ⟨some (cur.getD ""), some (typeError ctx j.kind "string"), none⟩

/-- Decoding into a `string` of type `goType` (a `Units` field, a `LocationID`). -/
def decodeString (ctx : ErrorContext) (goType : String) (cur : String) : JSON → Dec String
  | .null => ⟨cur, none, none⟩
  | .str s => ⟨s, none, none⟩
  | j => ⟨cur, some (typeError ctx j.kind goType), none⟩

/-- Decoding into a `float64`. -/
def decodeFloat (ctx : ErrorContext) (cur : Float64) : JSON → Dec Float64
  | .null => ⟨cur, none, none⟩
  | .num lit =>
    match ParseFloat lit with
    | some x => ⟨x, none, none⟩
    | none => ⟨cur, some (typeError ctx ("number " ++ lit) "float64"), none⟩
  | j => ⟨cur, some (typeError ctx j.kind "float64"), none⟩

/-- Decoding into a `*float64`. -/
def decodeFloatPtr (ctx : ErrorContext) (cur : Option Float64) : JSON → Dec (Option Float64)
  | .null => ⟨none, none, none⟩
  | j =>
    let r := decodeFloat ctx (cur.getD Float64.zero) j
    ⟨some r.val, r.saved, r.abort⟩

/-- Decoding into an `int`. -/
def decodeInt (ctx : ErrorContext) (cur : Int) : JSON → Dec Int
  | .null => ⟨cur, none, none⟩
  | .num lit =>
    match ParseInt lit with
    | some n => ⟨n, none, none⟩
    | none => ⟨cur, some (typeError ctx ("number " ++ lit) "int"), none⟩
  | j => ⟨cur, some (typeError ctx j.kind "int"), none⟩

/-- Decoding into a `*int`. -/
def decodeIntPtr (ctx : ErrorContext) (cur : Option Int) : JSON → Dec (Option Int)
  | .null => ⟨none, none, none⟩
  | j =>
    let r := decodeInt ctx (cur.getD 0) j
    ⟨some r.val, r.saved, r.abort⟩

/-- Decoding into a `*time.Time`: any value but `null` goes to `Time.UnmarshalJSON`, which
wants a JSON string and reads it with the RFC 3339 layout (`*t, err = ...`, so the time is
overwritten also when the string does not parse). The string is read as `time.Parse`
reads it; on `YYYY-MM-DDThh:mm:ss` followed by `Z` or a numeric offset every Go version
agrees with that. -/
def decodeTimePtr (cur : Option Time) : JSON → Dec (Option Time)
  | .null => ⟨none, none, none⟩
  | .str s =>
    match Parse RFC3339 s with
    | .ok t => ⟨some t, none, none⟩
    | .error e => ⟨some Time.zero, none, some (.parse e)⟩
  | _ => ⟨some (cur.getD Time.zero), none,
      some (.other "Time.UnmarshalJSON: input is not a JSON string")⟩

/-- Decoding into a field of type pointer to struct. -/
def decodePtr {α : Type} (zero : α) (decode : α → JSON → Dec α) (cur : Option α) :
    JSON → Dec (Option α)
  | .null => ⟨none, none, none⟩
  | j =>
    let r := decode (cur.getD zero) j
    ⟨some r.val, r.saved, r.abort⟩

/-- The result of decoding a field, put back into the struct that holds the field. -/
def Dec.map {α β : Type} (f : α → β) (r : Dec α) : Dec β := ⟨f r.val, r.saved, r.abort⟩

/-- The zero value of `StringValue`. -/
def StringValue.zero : StringValue := ⟨none⟩

/-- The zero value of `FloatValue`. -/
def FloatValue.zero : FloatValue := ⟨none, ""⟩

/-- The zero value of `IntValue`. -/
def IntValue.zero : IntValue := ⟨none, ""⟩

/-- The zero value of `TimeValue`. -/
def TimeValue.zero : TimeValue := ⟨none, ""⟩

/-- One member of an object decoded into a `StringValue` (its only field is `value`). -/
def StringValue.setField (ctx : ErrorContext) (w : StringValue) (key : String) (v : JSON) :
    Dec StringValue :=
  if fieldMatch "value" key then
    (decodeStringPtr (ctx.field "StringValue" "value") w.Value v).map (fun x => ⟨x⟩)
  else ⟨w, none, none⟩

/-- One member of an object decoded into a `FloatValue`. -/
def FloatValue.setField (ctx : ErrorContext) (w : FloatValue) (key : String) (v : JSON) :
    Dec FloatValue :=
  if fieldMatch "value" key then
    (decodeFloatPtr (ctx.field "FloatValue" "value") w.Value v).map
      (fun x => { w with Value := x })
  else if fieldMatch "units" key then
    (decodeString (ctx.field "FloatValue" "units") "string" w.Units v).map
      (fun x => { w with Units := x })
  else ⟨w, none, none⟩

/-- One member of an object decoded into an `IntValue`. -/
def IntValue.setField (ctx : ErrorContext) (w : IntValue) (key : String) (v : JSON) :
    Dec IntValue :=
  if fieldMatch "value" key then
    (decodeIntPtr (ctx.field "IntValue" "value") w.Value v).map
      (fun x => { w with Value := x })
  else if fieldMatch "units" key then
    (decodeString (ctx.field "IntValue" "units") "string" w.Units v).map
      (fun x => { w with Units := x })
  else ⟨w, none, none⟩

/-- One member of an object decoded into a `TimeValue`. -/
def TimeValue.setField (ctx : ErrorContext) (w : TimeValue) (key : String) (v : JSON) :
    Dec TimeValue :=
  if fieldMatch "value" key then
    (decodeTimePtr w.Value v).map (fun x => { w with Value := x })
  else if fieldMatch "units" key then
    (decodeString (ctx.field "TimeValue" "units") "string" w.Units v).map
      (fun x => { w with Units := x })
  else ⟨w, none, none⟩

/-- Decoding a JSON value into a `StringValue`, inside context `ctx`. -/
def StringValue.decode (ctx : ErrorContext) (w : StringValue) (j : JSON) : Dec StringValue :=
  decodeStruct ctx "climacell.StringValue" (StringValue.setField ctx) w j

/-- Decoding a JSON value into a `FloatValue`, inside context `ctx`. -/
def FloatValue.decode (ctx : ErrorContext) (w : FloatValue) (j : JSON) : Dec FloatValue :=
  decodeStruct ctx "climacell.FloatValue" (FloatValue.setField ctx) w j

/-- Decoding a JSON value into an `IntValue`, inside context `ctx`. -/
def IntValue.decode (ctx : ErrorContext) (w : IntValue) (j : JSON) : Dec IntValue :=
  decodeStruct ctx "climacell.IntValue" (IntValue.setField ctx) w j

/-- Decoding a JSON value into a `TimeValue`, inside context `ctx`. -/
def TimeValue.decode (ctx : ErrorContext) (w : TimeValue) (j : JSON) : Dec TimeValue :=
  decodeStruct ctx "climacell.TimeValue" (TimeValue.setField ctx) w j

/-- Go `var w StringValue; err := json.Unmarshal(data, &w)`. -/
def StringValue.Unmarshal (j : JSON) : Unmarshaled StringValue :=
  (StringValue.decode ErrorContext.top StringValue.zero j).finish

/-- Go `var w FloatValue; err := json.Unmarshal(data, &w)`. -/
def FloatValue.Unmarshal (j : JSON) : Unmarshaled FloatValue :=
  (FloatValue.decode ErrorContext.top FloatValue.zero j).finish

/-- Go `var w IntValue; err := json.Unmarshal(data, &w)`. -/
def IntValue.Unmarshal (j : JSON) : Unmarshaled IntValue :=
  (IntValue.decode ErrorContext.top IntValue.zero j).finish

/-- Go `var w TimeValue; err := json.Unmarshal(data, &w)`. -/
def TimeValue.Unmarshal (j : JSON) : Unmarshaled TimeValue :=
  (TimeValue.decode ErrorContext.top TimeValue.zero j).finish

/-! ## The anchor timestamp (weather.go, lines 294-342) -/

/-- Go `type DateValue struct{ Value time.Time }`. -/
structure DateValue where
  Value : Time
  deriving DecidableEq, Repr

/-- Go `type jsonDateValue struct { Value timeOrDate }`, with `type timeOrDate time.Time`. -/
structure jsonDateValue where
  Value : Time
  deriving DecidableEq, Repr

/-- Go `func (t *timeOrDate) UnmarshalJSON(b []byte) error`: the receiver after the call and
the returned error. `null` returns at once; `json.Unmarshal(b, &timeStr)` fails on a value
that is no string; the RFC 3339 layout is tried, then the date layout, and the receiver
is written only when one of them parses. -/
def timeOrDate.UnmarshalJSON (t : Time) (b : JSON) : Unmarshaled Time :=
  match b with
  | .null => ⟨t, none⟩
  | .str timeStr =>
    match Parse RFC3339 timeStr with
    | .ok tm => ⟨tm, none⟩
    | .error _ =>
      match Parse dateLayout timeStr with
      | .ok tm => ⟨tm, none⟩
      | .error err => ⟨t, some (.parse err)⟩
  | j => ⟨t, some (typeError ErrorContext.top j.kind "string")⟩

/-- One member of an object decoded into a `jsonDateValue`: the field `value` is decoded by
`timeOrDate.UnmarshalJSON`, whose error stops the decoding. -/
def jsonDateValue.setField (w : jsonDateValue) (key : String) (v : JSON) : Dec jsonDateValue :=
  if fieldMatch "value" key then
    let r := timeOrDate.UnmarshalJSON w.Value v
    ⟨⟨r.val⟩, none,
      r.err.map (addErrorContext (ErrorContext.top.field "jsonDateValue" "value"))⟩
  else ⟨w, none, none⟩

/-- Go `func (d *DateValue) UnmarshalJSON(b []byte) error`: the receiver after the call and
the returned error.

    if string(b) == "null" { return nil }
    var jsonDate jsonDateValue
    if err := json.Unmarshal(b, &jsonDate); err != nil { return err }
    *d = DateValue{Value: time.Time(jsonDate.Value)}
    return nil -/
def DateValue.UnmarshalJSON (d : DateValue) (b : JSON) : Unmarshaled DateValue :=
  match b with
  | .null => ⟨d, none⟩
  | b =>
    let r := (decodeStruct ErrorContext.top "climacell.jsonDateValue" jsonDateValue.setField
      (⟨Time.zero⟩ : jsonDateValue) b).finish
    match r.err with
    | some err => ⟨d, some err⟩
    | none => ⟨⟨r.val.Value⟩, none⟩

/-- The bytes a caller hands to an `UnmarshalJSON` method, as far as the decoders tell them
apart. Bytes that are not the text of one JSON value: `json.Unmarshal` runs `checkValid`
first and returns its `*json.SyntaxError`, held here by its message, before it writes to
the target. The text of the JSON value `j`: `bare` when the bytes are the value and
nothing else, as `encoding/json` passes them to an `Unmarshaler`, and not `bare` when
white space stands before or after the value. -/
inductive Input where
  | invalid (msg : String)
  | text (j : JSON) (bare : Bool)
  deriving Repr

/-- Go `string(b) == "null"`. -/
def Input.isNull : Input → Bool
  | .text .null true => true
  | _ => false

/-- Go `var timeStr string; err := json.Unmarshal(b, &timeStr)` on the text of `j`: a string
is stored, `null` leaves the empty string, and any other value is an
`UnmarshalTypeError`. -/
def unmarshalString (j : JSON) : Unmarshaled String :=
  match j with
  | .null => ⟨"", none⟩
  | .str s => ⟨s, none⟩
  | j => ⟨"", some (typeError ErrorContext.top j.kind "string")⟩

/-- Go `func (t *timeOrDate) UnmarshalJSON(b []byte) error` on the bytes `b` of a direct
call: the receiver after the call and the returned error.

    if string(b) == "null" { return nil }
    var timeStr string
    if err := json.Unmarshal(b, &timeStr); err != nil { return err }
    if tm, err := time.Parse(time.RFC3339, timeStr); err == nil { *t = timeOrDate(tm); return nil }
    tm, err := time.Parse("2006-01-02", timeStr)
    if err == nil { *t = timeOrDate(tm) }
    return err -/
def timeOrDate.UnmarshalJSONRaw (t : Time) (b : Input) : Unmarshaled Time :=
  if b.isNull then ⟨t, none⟩
  else
    match b with
    | .invalid msg => ⟨t, some (.other msg)⟩
    | .text j _ =>
      let r := unmarshalString j
      match r.err with
      | some err => ⟨t, some err⟩
      | none =>
        match Parse RFC3339 r.val with
        | .ok tm => ⟨tm, none⟩
        | .error _ =>
          match Parse dateLayout r.val with
          | .ok tm => ⟨tm, none⟩
          | .error err => ⟨t, some (.parse err)⟩

/-- Go `func (d *DateValue) UnmarshalJSON(b []byte) error` on the bytes `b` of a direct call:
the receiver after the call and the returned error. -/
def DateValue.UnmarshalJSONRaw (d : DateValue) (b : Input) : Unmarshaled DateValue :=
  if b.isNull then ⟨d, none⟩
  else
    match b with
    | .invalid msg => ⟨d, some (.other msg)⟩
    | .text j _ =>
      let r := (decodeStruct ErrorContext.top "climacell.jsonDateValue" jsonDateValue.setField
        (⟨Time.zero⟩ : jsonDateValue) j).finish
      match r.err with
      | some err => ⟨d, some err⟩
      | none => ⟨⟨r.val.Value⟩, none⟩

/-- Whether `text` starts with `pat`. -/
def startsWith : List Char → List Char → Bool
  | _, [] => true
  | [], _ :: _ => false
  | c :: cs, p :: ps => decide (c = p) && startsWith cs ps

/-- Whether `pat` occurs in `text`. -/
def occursIn (pat : List Char) : List Char → Bool
  | [] => pat.isEmpty
  | c :: cs => startsWith (c :: cs) pat || occursIn pat cs

/-- Whether the message of error `e` names `field`. -/
def DecodeError.names (e : DecodeError) (field : String) : Bool :=
  occursIn field.toList e.Error.toList

/-! ## Samples (weather.go, lines 11-215)

A field of type pointer to wrapper is nil after decoding when its key is missing or maps
to `null`. The fields of embedded structs are promoted into the struct that embeds them. -/

/-- Go `type LatLon struct { Lat float64; Lon float64 }`. -/
structure LatLon where
  Lat : Float64
  Lon : Float64
  deriving DecidableEq, Repr

/-- Go `type BaseResponseType struct { LatLon; LocationId LocationID; ObservationTime DateValue }`,
with `type LocationID string`. -/
structure BaseResponseType where
  LatLon : LatLon
  LocationId : String
  ObservationTime : DateValue
  deriving DecidableEq, Repr

/-- The zero value of `BaseResponseType`. -/
def BaseResponseType.zero : BaseResponseType :=
  ⟨⟨Float64.zero, Float64.zero⟩, "", ⟨Time.zero⟩⟩

/-- One member of an object decoded into the fields that `BaseResponseType` contributes to
the struct `struct` that embeds it; `none` when the key selects none of them. The field
`observation_time` has an `Unmarshaler`, which receives every JSON value, `null` included,
and whose error stops the decoding. -/
def BaseResponseType.setField (ctx : ErrorContext) (struct : String) (w : BaseResponseType)
    (key : String) (v : JSON) : Option (Dec BaseResponseType) :=
  if fieldMatch "lat" key then
    some ((decodeFloat (ctx.field struct "lat") w.LatLon.Lat v).map
      (fun x => { w with LatLon := { w.LatLon with Lat := x } }))
  else if fieldMatch "lon" key then
    some ((decodeFloat (ctx.field struct "lon") w.LatLon.Lon v).map
      (fun x => { w with LatLon := { w.LatLon with Lon := x } }))
  else if fieldMatch "location_id" key then
    some ((decodeString (ctx.field struct "location_id") "climacell.LocationID"
      w.LocationId v).map
      (fun x => { w with LocationId := x }))
  else if fieldMatch "observation_time" key then
    let r := DateValue.UnmarshalJSON w.ObservationTime v
    some ⟨{ w with ObservationTime := r.val }, none,
      r.err.map (addErrorContext (ctx.field struct "observation_time"))⟩
  else none

/-- Go `type WeatherType struct`: the optional values of the core weather group. -/
structure WeatherType where
  Temp : Option FloatValue
  FeelsLike : Option FloatValue
  DewPoint : Option FloatValue
  Humidity : Option FloatValue
  WindSpeed : Option FloatValue
  WindDirection : Option FloatValue
  WindGust : Option FloatValue
  BaroSurfacePressure : Option FloatValue
  BaroSeaPressure : Option FloatValue
  Precipitation : Option FloatValue
  PrecipitationType : Option StringValue
  PrecipitationProbability : Option FloatValue
  Sunrise : Option TimeValue
  Sunset : Option TimeValue
  SurfaceShortwaveRadiation : Option FloatValue
  Visibility : Option FloatValue
  CloudCover : Option FloatValue
  CloudBase : Option FloatValue
  CloudCeiling : Option FloatValue
  MoonPhase : Option StringValue
  WeatherCode : Option StringValue
  deriving DecidableEq, Repr

/-- The zero value of `WeatherType`: every pointer is nil. -/
def WeatherType.zero : WeatherType :=
  ⟨none, none, none, none, none, none, none, none, none, none, none, none, none, none, none,
    none, none, none, none, none, none⟩

/-- One member of an object decoded into the fields that `WeatherType` contributes to the
struct `struct` that embeds it; `none` when the key selects none of them. -/
def WeatherType.setField (ctx : ErrorContext) (struct : String) (w : WeatherType) (key : String)
    (v : JSON) : Option (Dec WeatherType) :=
  if fieldMatch "temperature" key then
    some ((decodePtr FloatValue.zero
      (FloatValue.decode (ctx.field struct "temperature")) w.Temp v).map
      (fun x => { w with Temp := x }))
  else if fieldMatch "temperatureApparent" key then
    some ((decodePtr FloatValue.zero
      (FloatValue.decode (ctx.field struct "temperatureApparent")) w.FeelsLike v).map
      (fun x => { w with FeelsLike := x }))
  else if fieldMatch "dewPoint" key then
    some ((decodePtr FloatValue.zero
      (FloatValue.decode (ctx.field struct "dewPoint")) w.DewPoint v).map
      (fun x => { w with DewPoint := x }))
  else if fieldMatch "humidity" key then
    some ((decodePtr FloatValue.zero
      (FloatValue.decode (ctx.field struct "humidity")) w.Humidity v).map
      (fun x => { w with Humidity := x }))
  else if fieldMatch "windSpeed" key then
    some ((decodePtr FloatValue.zero
      (FloatValue.decode (ctx.field struct "windSpeed")) w.WindSpeed v).map
      (fun x => { w with WindSpeed := x }))
  else if fieldMatch "windDirection" key then
    some ((decodePtr FloatValue.zero
      (FloatValue.decode (ctx.field struct "windDirection")) w.WindDirection v).map
      (fun x => { w with WindDirection := x }))
  else if fieldMatch "windGust" key then
    some ((decodePtr FloatValue.zero
      (FloatValue.decode (ctx.field struct "windGust")) w.WindGust v).map
      (fun x => { w with WindGust := x }))
  else if fieldMatch "pressureSurfaceLevel" key then
    some ((decodePtr FloatValue.zero
      (FloatValue.decode (ctx.field struct "pressureSurfaceLevel")) w.BaroSurfacePressure v).map
      (fun x => { w with BaroSurfacePressure := x }))
  else if fieldMatch "pressureSeaLevel" key then
    some ((decodePtr FloatValue.zero
      (FloatValue.decode (ctx.field struct "pressureSeaLevel")) w.BaroSeaPressure v).map
      (fun x => { w with BaroSeaPressure := x }))
  else if fieldMatch "precipitationIntensity" key then
    some ((decodePtr FloatValue.zero
      (FloatValue.decode (ctx.field struct "precipitationIntensity")) w.Precipitation v).map
      (fun x => { w with Precipitation := x }))
  else if fieldMatch "precipitationType" key then
    some ((decodePtr StringValue.zero
      (StringValue.decode (ctx.field struct "precipitationType")) w.PrecipitationType v).map
      (fun x => { w with PrecipitationType := x }))
  else if fieldMatch "precipitationProbability" key then
    some ((decodePtr FloatValue.zero
      (FloatValue.decode (ctx.field struct "precipitationProbability")) w.PrecipitationProbability v).map
      (fun x => { w with PrecipitationProbability := x }))
  else if fieldMatch "sunriseTime" key then
    some ((decodePtr TimeValue.zero
      (TimeValue.decode (ctx.field struct "sunriseTime")) w.Sunrise v).map
      (fun x => { w with Sunrise := x }))
  else if fieldMatch "sunsetTime" key then
    some ((decodePtr TimeValue.zero
      (TimeValue.decode (ctx.field struct "sunsetTime")) w.Sunset v).map
      (fun x => { w with Sunset := x }))
  else if fieldMatch "solarGHI" key then
    some ((decodePtr FloatValue.zero
      (FloatValue.decode (ctx.field struct "solarGHI")) w.SurfaceShortwaveRadiation v).map
      (fun x => { w with SurfaceShortwaveRadiation := x }))
  else if fieldMatch "visibility" key then
    some ((decodePtr FloatValue.zero
      (FloatValue.decode (ctx.field struct "visibility")) w.Visibility v).map
      (fun x => { w with Visibility := x }))
  else if fieldMatch "cloudCover" key then
    some ((decodePtr FloatValue.zero
      (FloatValue.decode (ctx.field struct "cloudCover")) w.CloudCover v).map
      (fun x => { w with CloudCover := x }))
  else if fieldMatch "cloudBase" key then
    some ((decodePtr FloatValue.zero
      (FloatValue.decode (ctx.field struct "cloudBase")) w.CloudBase v).map
      (fun x => { w with CloudBase := x }))
  else if fieldMatch "cloudCeiling" key then
    some ((decodePtr FloatValue.zero
      (FloatValue.decode (ctx.field struct "cloudCeiling")) w.CloudCeiling v).map
      (fun x => { w with CloudCeiling := x }))
  else if fieldMatch "moonPhase" key then
    some ((decodePtr StringValue.zero
      (StringValue.decode (ctx.field struct "moonPhase")) w.MoonPhase v).map
      (fun x => { w with MoonPhase := x }))
  else if fieldMatch "weatherCode" key then
    some ((decodePtr StringValue.zero
      (StringValue.decode (ctx.field struct "weatherCode")) w.WeatherCode v).map
      (fun x => { w with WeatherCode := x }))
  else none

/-- Go `type AirQualityType struct`: the optional values of the air quality group. -/
structure AirQualityType where
  PMTwoPointFive : Option FloatValue
  PMTen : Option FloatValue
  O3 : Option FloatValue
  NO2 : Option FloatValue
  CO : Option FloatValue
  SO2 : Option FloatValue
  EpaAQI : Option IntValue
  EPAPrimaryPollutant : Option StringValue
  EPAHealthConcern : Option StringValue
  ChinaAQI : Option IntValue
  ChinaPrimaryPollutant : Option StringValue
  ChinaHealthConcern : Option StringValue
  deriving DecidableEq, Repr

/-- The zero value of `AirQualityType`: every pointer is nil. -/
def AirQualityType.zero : AirQualityType :=
  ⟨none, none, none, none, none, none, none, none, none, none, none, none⟩

/-- One member of an object decoded into the fields that `AirQualityType` contributes to the
struct `struct` that embeds it; `none` when the key selects none of them. -/
def AirQualityType.setField (ctx : ErrorContext) (struct : String) (w : AirQualityType) (key : String)
    (v : JSON) : Option (Dec AirQualityType) :=
  if fieldMatch "pm25" key then
    some ((decodePtr FloatValue.zero
      (FloatValue.decode (ctx.field struct "pm25")) w.PMTwoPointFive v).map
      (fun x => { w with PMTwoPointFive := x }))
  else if fieldMatch "pm10" key then
    some ((decodePtr FloatValue.zero
      (FloatValue.decode (ctx.field struct "pm10")) w.PMTen v).map
      (fun x => { w with PMTen := x }))
  else if fieldMatch "o3" key then
    some ((decodePtr FloatValue.zero
      (FloatValue.decode (ctx.field struct "o3")) w.O3 v).map
      (fun x => { w with O3 := x }))
  else if fieldMatch "no2" key then
    some ((decodePtr FloatValue.zero
      (FloatValue.decode (ctx.field struct "no2")) w.NO2 v).map
      (fun x => { w with NO2 := x }))
  else if fieldMatch "co" key then
    some ((decodePtr FloatValue.zero
      (FloatValue.decode (ctx.field struct "co")) w.CO v).map
      (fun x => { w with CO := x }))
  else if fieldMatch "so2" key then
    some ((decodePtr FloatValue.zero
      (FloatValue.decode (ctx.field struct "so2")) w.SO2 v).map
      (fun x => { w with SO2 := x }))
  else if fieldMatch "epa_aqi" key then
    some ((decodePtr IntValue.zero
      (IntValue.decode (ctx.field struct "epa_aqi")) w.EpaAQI v).map
      (fun x => { w with EpaAQI := x }))
  else if fieldMatch "epa_primary_pollutant" key then
    some ((decodePtr StringValue.zero
      (StringValue.decode (ctx.field struct "epa_primary_pollutant")) w.EPAPrimaryPollutant v).map
      (fun x => { w with EPAPrimaryPollutant := x }))
  else if fieldMatch "epa_health_concern" key then
    some ((decodePtr StringValue.zero
      (StringValue.decode (ctx.field struct "epa_health_concern")) w.EPAHealthConcern v).map
      (fun x => { w with EPAHealthConcern := x }))
  else if fieldMatch "china_aqi" key then
    some ((decodePtr IntValue.zero
      (IntValue.decode (ctx.field struct "china_aqi")) w.ChinaAQI v).map
      (fun x => { w with ChinaAQI := x }))
  else if fieldMatch "china_primary_pollutant" key then
    some ((decodePtr StringValue.zero
      (StringValue.decode (ctx.field struct "china_primary_pollutant")) w.ChinaPrimaryPollutant v).map
      (fun x => { w with ChinaPrimaryPollutant := x }))
  else if fieldMatch "china_health_concern" key then
    some ((decodePtr StringValue.zero
      (StringValue.decode (ctx.field struct "china_health_concern")) w.ChinaHealthConcern v).map
      (fun x => { w with ChinaHealthConcern := x }))
  else none

/-- Go `type FireIndexType struct`: the optional fire index. -/
structure FireIndexType where
  FireIndex : Option FloatValue
  deriving DecidableEq, Repr

/-- The zero value of `FireIndexType`: every pointer is nil. -/
def FireIndexType.zero : FireIndexType :=
  ⟨none⟩

/-- One member of an object decoded into the fields that `FireIndexType` contributes to the
struct `struct` that embeds it; `none` when the key selects none of them. -/
def FireIndexType.setField (ctx : ErrorContext) (struct : String) (w : FireIndexType) (key : String)
    (v : JSON) : Option (Dec FireIndexType) :=
  if fieldMatch "fire_index" key then
    some ((decodePtr FloatValue.zero
      (FloatValue.decode (ctx.field struct "fire_index")) w.FireIndex v).map
      (fun x => { w with FireIndex := x }))
  else none

/-- Go `type RoadRiskType struct`: the optional values of the road risk group. -/
structure RoadRiskType where
  RoadRisk : Option StringValue
  RoadRiskScore : Option StringValue
  RoadRiskConfidence : Option IntValue
  RoadRiskConditions : Option StringValue
  deriving DecidableEq, Repr

/-- The zero value of `RoadRiskType`: every pointer is nil. -/
def RoadRiskType.zero : RoadRiskType :=
  ⟨none, none, none, none⟩

/-- One member of an object decoded into the fields that `RoadRiskType` contributes to the
struct `struct` that embeds it; `none` when the key selects none of them. -/
def RoadRiskType.setField (ctx : ErrorContext) (struct : String) (w : RoadRiskType) (key : String)
    (v : JSON) : Option (Dec RoadRiskType) :=
  if fieldMatch "road_risk" key then
    some ((decodePtr StringValue.zero
      (StringValue.decode (ctx.field struct "road_risk")) w.RoadRisk v).map
      (fun x => { w with RoadRisk := x }))
  else if fieldMatch "road_risk_score" key then
    some ((decodePtr StringValue.zero
      (StringValue.decode (ctx.field struct "road_risk_score")) w.RoadRiskScore v).map
      (fun x => { w with RoadRiskScore := x }))
  else if fieldMatch "road_risk_confidence" key then
    some ((decodePtr IntValue.zero
      (IntValue.decode (ctx.field struct "road_risk_confidence")) w.RoadRiskConfidence v).map
      (fun x => { w with RoadRiskConfidence := x }))
  else if fieldMatch "road_risk_conditions" key then
    some ((decodePtr StringValue.zero
      (StringValue.decode (ctx.field struct "road_risk_conditions")) w.RoadRiskConditions v).map
      (fun x => { w with RoadRiskConditions := x }))
  else none

/-- Go `type RealTime struct { BaseResponseType; WeatherType; AirQualityType; RoadRiskType;
FireIndexType }`. -/
structure RealTime where
  BaseResponseType : BaseResponseType
  WeatherType : WeatherType
  AirQualityType : AirQualityType
  RoadRiskType : RoadRiskType
  FireIndexType : FireIndexType
  deriving DecidableEq, Repr

/-- The zero value of `RealTime`. -/
def RealTime.zero : RealTime :=
  ⟨BaseResponseType.zero, WeatherType.zero, AirQualityType.zero, RoadRiskType.zero,
    FireIndexType.zero⟩

/-- One member of an object decoded into a `RealTime`: the key is looked up among the
promoted fields of the five embedded structs; a key that selects no field is skipped. -/
def RealTime.setField (ctx : ErrorContext) (s : RealTime) (key : String) (v : JSON) :
    Dec RealTime :=
  match BaseResponseType.setField ctx "RealTime" s.BaseResponseType key v with
  | some r => r.map (fun x => { s with BaseResponseType := x })
  | none =>
  match WeatherType.setField ctx "RealTime" s.WeatherType key v with
  | some r => r.map (fun x => { s with WeatherType := x })
  | none =>
  match AirQualityType.setField ctx "RealTime" s.AirQualityType key v with
  | some r => r.map (fun x => { s with AirQualityType := x })
  | none =>
  match RoadRiskType.setField ctx "RealTime" s.RoadRiskType key v with
  | some r => r.map (fun x => { s with RoadRiskType := x })
  | none =>
  match FireIndexType.setField ctx "RealTime" s.FireIndexType key v with
  | some r => r.map (fun x => { s with FireIndexType := x })
  | none => ⟨s, none, none⟩

/-- Go `var sample RealTime; err := json.Unmarshal(data, &sample)`. -/
def RealTime.Unmarshal (j : JSON) : Unmarshaled RealTime :=
  (decodeStruct ErrorContext.top "climacell.RealTime" (RealTime.setField ErrorContext.top)
    RealTime.zero j).finish

/-! ## The optional fields of a sample, by name -/

/-- The optional fields of `WeatherType`. -/
inductive WeatherField where
  | Temp
  | FeelsLike
  | DewPoint
  | Humidity
  | WindSpeed
  | WindDirection
  | WindGust
  | BaroSurfacePressure
  | BaroSeaPressure
  | Precipitation
  | PrecipitationType
  | PrecipitationProbability
  | Sunrise
  | Sunset
  | SurfaceShortwaveRadiation
  | Visibility
  | CloudCover
  | CloudBase
  | CloudCeiling
  | MoonPhase
  | WeatherCode
  deriving DecidableEq, Repr

/-- The JSON name of the field (its `json` tag). -/
def WeatherField.name : WeatherField → String
  | .Temp => "temperature"
  | .FeelsLike => "temperatureApparent"
  | .DewPoint => "dewPoint"
  | .Humidity => "humidity"
  | .WindSpeed => "windSpeed"
  | .WindDirection => "windDirection"
  | .WindGust => "windGust"
  | .BaroSurfacePressure => "pressureSurfaceLevel"
  | .BaroSeaPressure => "pressureSeaLevel"
  | .Precipitation => "precipitationIntensity"
  | .PrecipitationType => "precipitationType"
  | .PrecipitationProbability => "precipitationProbability"
  | .Sunrise => "sunriseTime"
  | .Sunset => "sunsetTime"
  | .SurfaceShortwaveRadiation => "solarGHI"
  | .Visibility => "visibility"
  | .CloudCover => "cloudCover"
  | .CloudBase => "cloudBase"
  | .CloudCeiling => "cloudCeiling"
  | .MoonPhase => "moonPhase"
  | .WeatherCode => "weatherCode"

/-- The `ok` that the field's `GetValue` returns. -/
def WeatherField.present : WeatherField → WeatherType → Bool
  | .Temp, w => (FloatValue.GetValue w.Temp).2
  | .FeelsLike, w => (FloatValue.GetValue w.FeelsLike).2
  | .DewPoint, w => (FloatValue.GetValue w.DewPoint).2
  | .Humidity, w => (FloatValue.GetValue w.Humidity).2
  | .WindSpeed, w => (FloatValue.GetValue w.WindSpeed).2
  | .WindDirection, w => (FloatValue.GetValue w.WindDirection).2
  | .WindGust, w => (FloatValue.GetValue w.WindGust).2
  | .BaroSurfacePressure, w => (FloatValue.GetValue w.BaroSurfacePressure).2
  | .BaroSeaPressure, w => (FloatValue.GetValue w.BaroSeaPressure).2
  | .Precipitation, w => (FloatValue.GetValue w.Precipitation).2
  | .PrecipitationType, w => (StringValue.GetValue w.PrecipitationType).2
  | .PrecipitationProbability, w => (FloatValue.GetValue w.PrecipitationProbability).2
  | .Sunrise, w => (TimeValue.GetValue w.Sunrise).2
  | .Sunset, w => (TimeValue.GetValue w.Sunset).2
  | .SurfaceShortwaveRadiation, w => (FloatValue.GetValue w.SurfaceShortwaveRadiation).2
  | .Visibility, w => (FloatValue.GetValue w.Visibility).2
  | .CloudCover, w => (FloatValue.GetValue w.CloudCover).2
  | .CloudBase, w => (FloatValue.GetValue w.CloudBase).2
  | .CloudCeiling, w => (FloatValue.GetValue w.CloudCeiling).2
  | .MoonPhase, w => (StringValue.GetValue w.MoonPhase).2
  | .WeatherCode, w => (StringValue.GetValue w.WeatherCode).2

/-- The optional fields of `AirQualityType`. -/
inductive AirQualityField where
  | PMTwoPointFive
  | PMTen
  | O3
  | NO2
  | CO
  | SO2
  | EpaAQI
  | EPAPrimaryPollutant
  | EPAHealthConcern
  | ChinaAQI
  | ChinaPrimaryPollutant
  | ChinaHealthConcern
  deriving DecidableEq, Repr

/-- The JSON name of the field (its `json` tag). -/
def AirQualityField.name : AirQualityField → String
  | .PMTwoPointFive => "pm25"
  | .PMTen => "pm10"
  | .O3 => "o3"
  | .NO2 => "no2"
  | .CO => "co"
  | .SO2 => "so2"
  | .EpaAQI => "epa_aqi"
  | .EPAPrimaryPollutant => "epa_primary_pollutant"
  | .EPAHealthConcern => "epa_health_concern"
  | .ChinaAQI => "china_aqi"
  | .ChinaPrimaryPollutant => "china_primary_pollutant"
  | .ChinaHealthConcern => "china_health_concern"

/-- The `ok` that the field's `GetValue` returns. -/
def AirQualityField.present : AirQualityField → AirQualityType → Bool
  | .PMTwoPointFive, w => (FloatValue.GetValue w.PMTwoPointFive).2
  | .PMTen, w => (FloatValue.GetValue w.PMTen).2
  | .O3, w => (FloatValue.GetValue w.O3).2
  | .NO2, w => (FloatValue.GetValue w.NO2).2
  | .CO, w => (FloatValue.GetValue w.CO).2
  | .SO2, w => (FloatValue.GetValue w.SO2).2
  | .EpaAQI, w => (IntValue.GetValue w.EpaAQI).2
  | .EPAPrimaryPollutant, w => (StringValue.GetValue w.EPAPrimaryPollutant).2
  | .EPAHealthConcern, w => (StringValue.GetValue w.EPAHealthConcern).2
  | .ChinaAQI, w => (IntValue.GetValue w.ChinaAQI).2
  | .ChinaPrimaryPollutant, w => (StringValue.GetValue w.ChinaPrimaryPollutant).2
  | .ChinaHealthConcern, w => (StringValue.GetValue w.ChinaHealthConcern).2

/-- The optional fields of `RoadRiskType`. -/
inductive RoadRiskField where
  | RoadRisk
  | RoadRiskScore
  | RoadRiskConfidence
  | RoadRiskConditions
  deriving DecidableEq, Repr

/-- The JSON name of the field (its `json` tag). -/
def RoadRiskField.name : RoadRiskField → String
  | .RoadRisk => "road_risk"
  | .RoadRiskScore => "road_risk_score"
  | .RoadRiskConfidence => "road_risk_confidence"
  | .RoadRiskConditions => "road_risk_conditions"

/-- The `ok` that the field's `GetValue` returns. -/
def RoadRiskField.present : RoadRiskField → RoadRiskType → Bool
  | .RoadRisk, w => (StringValue.GetValue w.RoadRisk).2
  | .RoadRiskScore, w => (StringValue.GetValue w.RoadRiskScore).2
  | .RoadRiskConfidence, w => (IntValue.GetValue w.RoadRiskConfidence).2
  | .RoadRiskConditions, w => (StringValue.GetValue w.RoadRiskConditions).2

/-- The optional fields of `FireIndexType`. -/
inductive FireIndexField where
  | FireIndex
  deriving DecidableEq, Repr

/-- The JSON name of the field (its `json` tag). -/
def FireIndexField.name : FireIndexField → String
  | .FireIndex => "fire_index"

/-- The `ok` that the field's `GetValue` returns. -/
def FireIndexField.present : FireIndexField → FireIndexType → Bool
  | .FireIndex, w => (FloatValue.GetValue w.FireIndex).2

/-- The optional fields of a `RealTime` sample: those of its four groups of values. -/
inductive OptionalField where
  | weather (f : WeatherField)
  | airQuality (f : AirQualityField)
  | roadRisk (f : RoadRiskField)
  | fireIndex (f : FireIndexField)
  deriving DecidableEq, Repr

/-- The JSON name of the field. -/
def OptionalField.name : OptionalField → String
  | .weather f => f.name
  | .airQuality f => f.name
  | .roadRisk f => f.name
  | .fireIndex f => f.name

/-- The `ok` that the field's `GetValue` returns on sample `s`. -/
def OptionalField.present : OptionalField → RealTime → Bool
  | .weather f, s => f.present s.WeatherType
  | .airQuality f, s => f.present s.AirQualityType
  | .roadRisk f, s => f.present s.RoadRiskType
  | .fireIndex f, s => f.present s.FireIndexType

/-- The scalar kinds of the optional value wrappers. -/
inductive ScalarKind where
  | string
  | float
  | int
  | time
  deriving DecidableEq, Repr

/-- The wrapper the field points to: `StringValue`, `FloatValue` or `TimeValue`. -/
def WeatherField.kind : WeatherField → ScalarKind
  | .PrecipitationType => .string
  | .Sunrise => .time
  | .Sunset => .time
  | .MoonPhase => .string
  | .WeatherCode => .string
  | _ => .float

/-- The wrapper the field points to: `FloatValue`, `IntValue` or `StringValue`. -/
def AirQualityField.kind : AirQualityField → ScalarKind
  | .EpaAQI => .int
  | .EPAPrimaryPollutant => .string
  | .EPAHealthConcern => .string
  | .ChinaAQI => .int
  | .ChinaPrimaryPollutant => .string
  | .ChinaHealthConcern => .string
  | _ => .float

/-- The wrapper the field points to: `StringValue` or `IntValue`. -/
def RoadRiskField.kind : RoadRiskField → ScalarKind
  | .RoadRiskConfidence => .int
  | _ => .string

/-- The wrapper the field points to: `FloatValue`. -/
def FireIndexField.kind : FireIndexField → ScalarKind
  | .FireIndex => .float

/-- The scalar kind of the wrapper the field points to. -/
def OptionalField.kind : OptionalField → ScalarKind
  | .weather f => f.kind
  | .airQuality f => f.kind
  | .roadRisk f => f.kind
  | .fireIndex f => f.kind

/-- A JSON value of the wrong kind for a wrapper: neither `null` nor the kind the wrapper
reads, which is a JSON string for `StringValue` and `TimeValue` and a JSON number for
`FloatValue` and `IntValue`. -/
def wrongKind : ScalarKind → JSON → Bool
  | _, .null => false
  | .string, .str _ => false
  | .time, .str _ => false
  | .float, .num _ => false
  | .int, .num _ => false
  | _, _ => true

/-- Modelled from the spec: the step of the client's endpoint operations that turns the
body of a response into the result handed to the caller. The client is not among the
source files. Section 7 of the specification says of a decode error that "the call fails
entirely rather than returning a partially populated sample": the operation returns the
error of `json.Unmarshal` and no sample, or the decoded sample. -/
def decodeResponse (body : JSON) : Except DecodeError RealTime :=
  match RealTime.Unmarshal body with
  | ⟨_, some err⟩ => .error err
  | ⟨sample, none⟩ => .ok sample

/-! ## The optional-scalar fragments of the specification -/

/-- An object whose `value` is `null` or missing: every member under a key that selects the
field `value` (Go decides this without regard to case) holds `null`. -/
def valueAbsent (ms : List (String × JSON)) : Prop :=
  ∀ m ∈ ms, fieldMatch "value" m.1 = true → m.2 = .null

/-- An object whose `units`, where present, is a string (or `null`), as in the fragments
`{"value": ..., "units": "U"}` of the specification. -/
def unitsWellFormed (ms : List (String × JSON)) : Prop :=
  ∀ m ∈ ms, fieldMatch "units" m.1 = true → m.2 = .null ∨ ∃ u, m.2 = .str u

/-- The fragment `{"value": X, "units": "U"}`. -/
def valueFragment (x : JSON) (u : String) : JSON :=
  .obj [("value", x), ("units", .str u)]

/-- The sample of the end-to-end scenario of the specification: `temperature` is
`{"value": 72.5, "units": "F"}` and `humidity` is `null`. -/
def scenarioSample : JSON :=
  .obj [("temperature", .obj [("value", .num "72.5"), ("units", .str "F")]),
    ("humidity", .null)]

/-- A sample with a location, an anchor timestamp and values of the four kinds, in which
`humidity` is `null` and the key `dewPoint`, among others, is missing. -/
def stationSample : JSON :=
  .obj [("lat", .num "35.816735"), ("lon", .num "-78.613375"),
    ("observation_time", .obj [("value", .str "2021-03-04T05:06:07Z")]),
    ("temperature", .obj [("value", .num "72.5"), ("units", .str "F")]),
    ("humidity", .null),
    ("sunriseTime", .obj [("value", .str "2021-03-04T11:40:00Z")]),
    ("moonPhase", .obj [("value", .str "full")]),
    ("epa_aqi", .obj [("value", .num "42")])]

/-! ## The text of dates and times, as the specification writes them -/

/-- The decimal digit for `n % 10`. -/
def digitChar (n : Nat) : Char := Char.ofNat (48 + n % 10)

/-- Two decimal digits (`MM`, `DD`, `hh`, `mm`, `ss`). -/
def pad2 (n : Nat) : List Char := [digitChar (n / 10), digitChar n]

/-- Four decimal digits (`YYYY`). -/
def pad4 (n : Nat) : List Char :=
  [digitChar (n / 1000), digitChar (n / 100), digitChar (n / 10), digitChar n]

/-- The text `YYYY-MM-DD`. -/
def dateText (y mo d : Nat) : List Char := pad4 y ++ '-' :: pad2 mo ++ '-' :: pad2 d

/-- The text `YYYY-MM-DDThh:mm:ss`. -/
def dateTimeText (y mo d h mi s : Nat) : List Char :=
  dateText y mo d ++ 'T' :: pad2 h ++ ':' :: pad2 mi ++ ':' :: pad2 s

/-- The text `+hh:mm` or `-hh:mm` of a numeric offset. -/
def offsetText (west : Bool) (oh om : Nat) : List Char :=
  (if west then '-' else '+') :: pad2 oh ++ ':' :: pad2 om

/-- The offset east of UTC, in seconds, that `+hh:mm` or `-hh:mm` denotes. -/
def offsetSeconds (west : Bool) (oh om : Nat) : Int :=
  if west then -(((oh * 60 + om) * 60 : Nat) : Int) else (((oh * 60 + om) * 60 : Nat) : Int)

/-- Whether year, month and day denote a date of the calendar, with a four-digit year. -/
abbrev validDate (y mo d : Nat) : Prop :=
  y ≤ 9999 ∧ 1 ≤ mo ∧ mo ≤ 12 ∧ 1 ≤ d ∧ (d : Int) ≤ daysIn mo y

/-- Whether hour, minute and second denote a time of the day. -/
abbrev validClock (h mi s : Nat) : Prop := h ≤ 23 ∧ mi ≤ 59 ∧ s ≤ 59

/-- The seconds from January 1, year 1, 00:00:00 to the given date and time of day, in the
proleptic Gregorian calendar. -/
def civilSeconds (y mo d h mi s : Nat) : Int :=
  (daysSinceYear1 y + daysBefore (mo - 1) + (if isLeap y = true ∧ 3 ≤ mo then 1 else 0)
    + ((d : Int) - 1)) * 86400 + ((h : Int) * 3600 + (mi : Int) * 60 + (s : Int))

/-! ## Formatting numbers and times (Go packages `strconv`, `time`) -/

/-- The decimal digits of `n`, most significant first, in front of `acc`; `fuel` bounds
the number of digits (`fuel = n + 1` is always enough). -/
def natDigitsAux : Nat → Nat → List Char → List Char
  | 0, _, acc => acc
  | fuel + 1, n, acc =>
    if n < 10 then digitChar n :: acc else natDigitsAux fuel (n / 10) (digitChar n :: acc)

/-- The decimal digits of `n`, without leading zeros (`0` for zero). -/
def natDigits (n : Nat) : List Char := natDigitsAux (n + 1) n []

/-- Go `strconv.Itoa(i)`: the base-10 text of `i`, with `-` in front of a negative one. -/
def Itoa (i : Int) : String :=
  if i < 0 then String.mk ('-' :: natDigits (-i).toNat) else String.mk (natDigits i.toNat)

/-- Go `time.appendInt(b, x, width)`: the decimal text of `x`, padded with zeros on the
left to `width` digits, after `-` when `x` is negative. -/
def appendInt (x : Int) (width : Nat) : List Char :=
  let ds := natDigits x.natAbs
  (if x < 0 then ['-'] else []) ++ List.replicate (width - ds.length) '0' ++ ds

/-- Go `absDate(abs, true)`: year, month and day of the month of the day that lies `days`
days after January 1 of year 1. Cycles of 400, 100 and 4 years are cut off, then the
years within a 4-year cycle; the month is first estimated with 31 days per month. -/
def absDate (days : Int) : Int × Int × Int :=
  let n400 := days / 146097
  let d1 := days - 146097 * n400
  let n100a := d1 / 36524
  let n100 := n100a - n100a / 4
  let d2 := d1 - 36524 * n100
  let n4 := d2 / 1461
  let d3 := d2 - 1461 * n4
  let n1a := d3 / 365
  let n1 := n1a - n1a / 4
  let yday := d3 - 365 * n1
  let year := 400 * n400 + 100 * n100 + 4 * n4 + n1 + 1
  if isLeap year = true ∧ yday = 31 + 29 - 1 then (year, 2, 29)
  else
    let day := if isLeap year = true ∧ 31 + 29 - 1 < yday then yday - 1 else yday
    let month := day / 31
    let pastEnd := daysBefore (month.toNat + 1) ≤ day
    let begin := if pastEnd then daysBefore (month.toNat + 1) else daysBefore month.toNat
    ((year, (if pastEnd then month + 1 else month) + 1, day - begin + 1))

/-- Go `absClock(abs)`: hour, minute and second within the day. -/
def absClock (abs : Int) : Int × Int × Int :=
  let sec := abs % 86400
  let hour := sec / 3600
  let min := (sec - hour * 3600) / 60
  (hour, min, sec - hour * 3600 - min * 60)

/-- One case of the `switch std & stdMask` in Go `Time.appendFormat`, for the elements of the
two layouts: the text of the element for the time whose wall clock reads `abs` seconds
after the start of year 1 at `offset` seconds east of UTC. For the zone, offset zero
gives `Z`, and any other offset its sign, hours and minutes. -/
def formatElem (std : Std) (abs offset : Int) : List Char :=
  match std with
  | .stdLongYear => appendInt (absDate (abs / 86400)).1 4
  | .stdZeroMonth => appendInt (absDate (abs / 86400)).2.1 2
  | .stdZeroDay => appendInt (absDate (abs / 86400)).2.2 2
  | .stdHour => appendInt (absClock abs).1 2
  | .stdZeroMinute => appendInt (absClock abs).2.1 2
  | .stdZeroSecond => appendInt (absClock abs).2.2 2
  | .stdISO8601ColonTZ =>
    if offset = 0 then ['Z']
    else
      let zone := Int.tdiv offset 60
      (if zone < 0 then ['-'] else ['+']) ++ appendInt (zone.natAbs / 60 : Nat) 2
        ++ ':' :: appendInt (zone.natAbs % 60 : Nat) 2

/-- Go `func (t Time) Format(layout string) string` for the two layouts: the literal text
of each chunk, then its element. -/
def Time.Format (t : Time) (layout : Layout) : String :=
  String.mk (layout.chunks.flatMap
    (fun c => c.pre ++ formatElem c.std (t.sec + t.offset) t.offset))

/-- Go `func (t Time) Year() int`: the year of the date that `t` shows in its location. -/
def Time.Year (t : Time) : Int := (absDate ((t.sec + t.offset) / 86400)).1

/-- Strips the trailing zeros of the decimal `q * 10 ^ p`, for `q > 0`; `fuel` bounds the
number of zeros. -/
def trimZeros : Nat → Nat → Int → Nat × Int
  | 0, q, p => (q, p)
  | fuel + 1, q, p => if q % 10 = 0 ∧ 0 < q then trimZeros fuel (q / 10) (p + 1) else (q, p)

/-- Whether `a * 2 ^ s < b * 10 ^ p`, for integers `s` and `p`. -/
def dyadicLtDecimal (a : Nat) (s : Int) (b : Nat) (p : Int) : Bool :=
  decide (a * 2 ^ s.toNat * 10 ^ (-p).toNat < b * 10 ^ p.toNat * 2 ^ (-s).toNat)

/-- Whether `b * 10 ^ p < a * 2 ^ s`, for integers `s` and `p`. -/
def decimalLtDyadic (b : Nat) (p : Int) (a : Nat) (s : Int) : Bool :=
  decide (b * 10 ^ p.toNat * 2 ^ (-s).toNat < a * 2 ^ s.toNat * 10 ^ (-p).toNat)

/-- The number of whole multiples of `10 ^ p` in `a * 2 ^ s`. -/
def decimalFloor (a : Nat) (s : Int) (p : Int) : Nat :=
  (a * 2 ^ s.toNat * 10 ^ (-p).toNat) / (10 ^ p.toNat * 2 ^ (-s).toNat)

/-- The bounds and the choice of Go `roundShortest` at the digit position of weight
`10 ^ p`, for the number `mant * 2 ^ e2` whose neighbours round at `lo * 2 ^ (e2 - 2)`
below and `hi * 2 ^ (e2 - 2)` above: `none` when neither cutting the digits after this
position nor rounding them up stays within the bounds, else the digits `q` of
`q * 10 ^ p`. When both stay within, the nearer one is taken, the even one on a tie. -/
def shortestAt (mant : Nat) (e2 : Int) (lo hi : Nat) (inclusive : Bool) (p : Int) :
    Option Nat :=
  let q := decimalFloor mant e2 p
  let okdown := decimalLtDyadic q p lo (e2 - 2) = false ∧
    (inclusive = true ∨ dyadicLtDecimal lo (e2 - 2) q p = true)
  let okup := dyadicLtDecimal hi (e2 - 2) (q + 1) p = false ∧
    (inclusive = true ∨ decimalLtDyadic (q + 1) p hi (e2 - 2) = true)
  let upNearer := dyadicLtDecimal (2 * mant) e2 (2 * q + 1) p = false ∧
    (decimalLtDyadic (2 * q + 1) p (2 * mant) e2 = true ∨ q % 2 = 1)
  if okdown ∧ okup then some (if upNearer then q + 1 else q)
  else if okdown then some q
  else if okup then some (q + 1)
  else none

/-- The walk of Go `roundShortest` down the digit positions, from weight `10 ^ p`: the
first position at which `shortestAt` has a result gives the decimal `q * 10 ^ p`. When
`fuel` runs out, at the position where `mant * 2 ^ e2` has no further digits, all its
digits are kept. -/
def shortestFrom (mant : Nat) (e2 : Int) (lo hi : Nat) (inclusive : Bool) :
    Nat → Int → Nat × Int
  | 0, p => (decimalFloor mant e2 p, p)
  | fuel + 1, p =>
    match shortestAt mant e2 lo hi inclusive p with
    | some q => (q, p)
    | none => shortestFrom mant e2 lo hi inclusive fuel (p - 1)

/-- The shortest decimal `q * 10 ^ p` that rounds to the finite, non-zero `float64` with
exponent bits `e` and fraction bits `f` (Go `ryuFtoaShortest`, which gives the digits of
`roundShortest`): the number is `mant * 2 ^ e2`; the bounds are halfway to the next
`float64` above and below, and belong to the interval when `mant` is even; the walk
starts above the first digit of the upper bound and `q` has no trailing zeros. -/
def shortestDecimal (e f : Nat) : Nat × Int :=
  let mant := if e = 0 then f else f + 2 ^ 52
  let e2 : Int := (if e = 0 then 1 else (e : Int)) - 1075
  let hi := 4 * mant + 2
  let lo := if 2 ^ 52 < mant ∨ e ≤ 1 then 4 * mant - 2 else 4 * mant - 1
  let top : Int := (natDigits (decimalFloor hi (e2 - 2) 0)).length
  let low : Int := if e2 < 0 then e2 else 0
  let r := shortestFrom mant e2 lo hi (decide (mant % 2 = 0)) (top - low).toNat top
  trimZeros r.1 r.1 r.2

/-- Go `strconv.fmtF` (`%f`) with the precision of the shortest form, `max(nd - dp, 0)`,
for the digits of `q` with the decimal point `p` places to the right of them: the whole
part, padded with zeros up to the point (`0` when it is empty), then a period and the
fraction, if there is one. -/
def fmtF (neg : Bool) (q : Nat) (p : Int) : List Char :=
  let d := natDigits q
  let dp : Int := (d.length : Int) + p
  let prec := (-p).toNat
  (if neg then ['-'] else [])
    ++ (if 0 < dp then d.take dp.toNat ++ List.replicate (dp.toNat - d.length) '0' else ['0'])
    ++ (if 0 < prec then
        '.' :: (List.range prec).map
          (fun i => if 0 ≤ dp + i ∧ dp + i < d.length then d.getD (dp + i).toNat '0' else '0')
      else [])

/-- Go `strconv.FormatFloat(x, 'f', -1, 64)`: `NaN`, `+Inf` and `-Inf` for the values that
are no numbers, `0` or `-0` for the zeros, and for every other value the shortest decimal
that rounds to `x`, written without exponent. -/
def FormatFloat (x : Float64) : String :=
  let neg := decide (x.bits / 2 ^ 63 % 2 = 1)
  let e := x.bits / 2 ^ 52 % 2048
  let f := x.bits % 2 ^ 52
  if e = 2047 then
    (if f ≠ 0 then "NaN" else if neg then "-Inf" else "+Inf")
  else if f = 0 ∧ e = 0 then String.mk ((if neg then ['-'] else []) ++ ['0'])
  else
    let r := shortestDecimal e f
    String.mk (fmtF neg r.1 r.2)

/-- Whether the number `v` lies between the bounds `lo * 2 ^ s` and `hi * 2 ^ s` of Go
`roundShortest`; the bounds themselves count when `inclusive` holds. -/
def withinBounds (lo hi : Nat) (s : Int) (inclusive : Bool) (v : ℚ) : Prop :=
  (lo : ℚ) * 2 ^ s ≤ v ∧ v ≤ (hi : ℚ) * 2 ^ s ∧
    (inclusive = false → (lo : ℚ) * 2 ^ s < v ∧ v < (hi : ℚ) * 2 ^ s)

/-- Whether `x` is a finite `float64`: a bit pattern below `2 ^ 64` whose exponent bits are
not all ones, as they are in `NaN` and in the two infinities. -/
def Float64.isFinite (x : Float64) : Bool :=
  decide (x.bits < 2 ^ 64) && decide (x.bits / 2 ^ 52 % 2048 ≠ 2047)

/-- The text of a decimal in fixed-point form: a minus sign when `neg` holds, the digits `w`
before the point and, unless `fr` is empty, a period and the digits `fr` after it. -/
def fixedPoint (neg : Bool) (w fr : List Char) : String :=
  String.mk ((if neg then ['-'] else []) ++ w ++ (if fr = [] then [] else '.' :: fr))

/-- The rendering the specification asks of a coordinate: `s` is a fixed-point decimal
without exponent, it has no zero at the end of its fraction, `ParseFloat` reads it
back as `x`, and no fixed-point decimal with fewer digits after the point is read
back as `x`. -/
def isShortestFixedPoint (x : Float64) (s : String) : Prop :=
  ∃ (neg : Bool) (w fr : List Char),
    s = fixedPoint neg w fr ∧ w ≠ [] ∧ (∀ c ∈ w, isDigit c = true) ∧
    (∀ c ∈ fr, isDigit c = true) ∧ fr.getLast? ≠ some '0' ∧
    ParseFloat s = some x ∧
    ∀ (neg2 : Bool) (w2 fr2 : List Char), w2 ≠ [] → (∀ c ∈ w2, isDigit c = true) →
      (∀ c ∈ fr2, isDigit c = true) → fr2.length < fr.length →
      ParseFloat (fixedPoint neg2 w2 fr2) ≠ some x

/-! ## Query parameters (weather.go, lines 344-440; Go package `net/url`) -/

/-- Go `url.Values`, a `map[string][]string`, as the list of its keys with their values;
a key occurs once. -/
abbrev Values := List (String × List String)

/-- The map index `vs, ok := q[key]`: the values under `key`, `none` when the key is
missing. -/
def Values.get (q : Values) (key : String) : Option (List String) :=
  match q with
  | [] => none
  | (k, vs) :: rest => if k = key then some vs else Values.get rest key

/-- The assignment `q[key] = vs`. -/
def Values.set (q : Values) (key : String) (vs : List String) : Values :=
  match q with
  | [] => [(key, vs)]
  | (k, v) :: rest => if k = key then (k, vs) :: rest else (k, v) :: Values.set rest key vs

/-- Go `func (v Values) Add(key, value string)`: `v[key] = append(v[key], value)`. -/
def Values.Add (q : Values) (key value : String) : Values :=
  q.set key ((q.get key).getD [] ++ [value])

/-- Go `func (l LatLon) LocationQueryParams() url.Values`:
`url.Values{"lat": {strconv.FormatFloat(l.Lat, 'f', -1, 64)},
"lon": {strconv.FormatFloat(l.Lon, 'f', -1, 64)}}`. -/
def LatLon.LocationQueryParams (l : LatLon) : Values :=
  [("lat", [FormatFloat l.Lat]), ("lon", [FormatFloat l.Lon])]

/-- Go `type LocationID string`. -/
abbrev LocationID := String

/-- Go `func (l LocationID) LocationQueryParams() url.Values`:
`url.Values{"location_id": []string{string(l)}}`. -/
def LocationID.LocationQueryParams (l : LocationID) : Values :=
  [("location_id", [l])]

/-- Go `type Location interface { LocationQueryParams() url.Values }`, as the two types of
the package that implement it. -/
inductive Location where
  | LatLon (l : LatLon)
  | LocationID (l : LocationID)
  deriving DecidableEq, Repr

/-- The method `LocationQueryParams` of the value held by the interface. -/
def Location.LocationQueryParams : Location → Values
  | .LatLon l => l.LocationQueryParams
  | .LocationID l => LocationID.LocationQueryParams l

/-- Go `type ForecastArgs struct`; `Location` is `none` for the nil interface, `Fields` is
empty for a nil slice as for an empty one. -/
structure ForecastArgs where
  Location : Option Location
  Start : Time
  End : Time
  Timestep : Int
  UnitSystem : String
  Fields : List String
  deriving DecidableEq, Repr

/-- The first loop of `QueryParams`: `for k, v := range loc { q[k] = v }`. -/
def copyValues (loc : Values) (q : Values) : Values :=
  loc.foldl (fun acc kv => acc.set kv.1 kv.2) q

/-- The map after the first statement of `QueryParams`: empty when the location is nil,
else the parameters of the location, copied key by key. -/
def locationValues (loc : Option Location) : Values :=
  match loc with
  | some l => copyValues l.LocationQueryParams []
  | none => []

/-- Go `func (args ForecastArgs) QueryParams() url.Values`:

    q := make(url.Values)
    if args.Location != nil {
      for k, v := range args.Location.LocationQueryParams() { q[k] = v }
    }
    if !args.Start.IsZero() { q.Add("start_time", args.Start.Format(time.RFC3339)) }
    if !args.End.IsZero() { q.Add("end_time", args.End.Format(time.RFC3339)) }
    if args.Timestep > 0 { q.Add("timestep", strconv.Itoa(args.Timestep)) }
    if args.UnitSystem != "" { q.Add("unit_system", args.UnitSystem) }
    if len(args.Fields) > 0 { q.Add("fields", strings.Join(args.Fields, ",")) }
    return q -/
def ForecastArgs.QueryParams (args : ForecastArgs) : Values :=
  let q1 := locationValues args.Location
  let q2 := if args.Start.IsZero = false then q1.Add "start_time" (args.Start.Format RFC3339)
    else q1
  let q3 := if args.End.IsZero = false then q2.Add "end_time" (args.End.Format RFC3339) else q2
  let q4 := if 0 < args.Timestep then q3.Add "timestep" (Itoa args.Timestep) else q3
  let q5 := if args.UnitSystem ≠ "" then q4.Add "unit_system" args.UnitSystem else q4
  if 0 < args.Fields.length then q5.Add "fields" (",".intercalate args.Fields) else q5

/-- The keys of a `url.Values`. -/
def Values.keys (q : Values) : List String := q.map Prod.fst

/-- The request of the round-trip scenario of the specification: latitude 35.816735 and
longitude -78.613375 (the `float64` with bit patterns `0x4041E88AC5C13FD1` and
`0xC053A74189374BC7`), the fields `temperature` and `humidity`, the unit system `us`. -/
def scenarioArgs : ForecastArgs :=
  { Location := some (.LatLon ⟨⟨0x4041E88AC5C13FD1⟩, ⟨0xC053A74189374BC7⟩⟩)
    Start := Time.zero
    End := Time.zero
    Timestep := 0
    UnitSystem := "us"
    Fields := ["temperature", "humidity"] }

/-! ## Theorems: parsing the text of dates and times -/

theorem digitChar_spec (n : Nat) :
    isDigit (digitChar n) = true ∧ digitVal (digitChar n) = n % 10 := by
  have h : n % 10 < 10 := Nat.mod_lt _ (by decide)
  unfold digitChar
  generalize n % 10 = m at h
  interval_cases m <;> decide

theorem isDigit_digitChar (n : Nat) : isDigit (digitChar n) = true := (digitChar_spec n).1

theorem digitVal_digitChar (n : Nat) : digitVal (digitChar n) = n % 10 := (digitChar_spec n).2

theorem getnum_pad2 (n : Nat) (rest : List Char) (fixed : Bool) (h : n < 100) :
    getnum (pad2 n ++ rest) fixed = some (n, rest) := by
  simp only [pad2, getnum, List.cons_append, List.nil_append, isDigit_digitChar,
    digitVal_digitChar]
  simp
  omega

theorem digitChar_ne_sign (n : Nat) : digitChar n ≠ '-' ∧ digitChar n ≠ '+' ∧ digitChar n ≠ 'Z' := by
  have h : n % 10 < 10 := Nat.mod_lt _ (by decide)
  unfold digitChar
  generalize n % 10 = m at h
  interval_cases m <;> decide

theorem parseElem_year (st : ParseState) (y : Nat) (rest : List Char) (h : y ≤ 9999) :
    parseElem .stdLongYear st (pad4 y ++ rest) = .ok { st with year := (y : Int) } rest := by
  have hs := digitChar_ne_sign (y / 1000)
  simp [parseElem, pad4, atoi, isDigit_digitChar, hs.1, hs.2.1, digitsVal, digitVal_digitChar]
  rw [if_neg (by omega)]
  congr 2
  omega

theorem norm_inRange (hi lo base : Int) (h0 : 0 ≤ lo) (h1 : lo < base) :
    norm hi lo base = (hi, lo) := by
  unfold norm
  simp only [if_neg (not_lt.mpr h0), if_neg (not_le.mpr h1)]

theorem Date_inRange (y mo d h mi s : Nat) (hmo : 1 ≤ mo ∧ mo ≤ 12) (hc : validClock h mi s) :
    Date y mo d h mi s 0 = ⟨civilSeconds y mo d h mi s, 0, 0⟩ := by
  obtain ⟨hh, hmi, hs⟩ := hc
  unfold Date civilSeconds
  rw [norm_inRange (y : Int) ((mo : Int) - 1) 12 (by omega) (by omega),
    norm_inRange (s : Int) 0 1000000000 (by omega) (by omega)]
  simp only []
  rw [norm_inRange (mi : Int) (s : Int) 60 (by omega) (by omega)]
  simp only []
  rw [norm_inRange (h : Int) (mi : Int) 60 (by omega) (by omega)]
  simp only []
  rw [norm_inRange (d : Int) (h : Int) 24 (by omega) (by omega)]
  have e1 : ((mo : Int) - 1 + 1) = (mo : Int) := by omega
  have e2 : ((mo : Int) - 1).toNat = mo - 1 := by omega
  simp only [e1, e2, Int.toNat_zero]
  have e3 : ((3 : Int) ≤ (mo : Int)) ↔ 3 ≤ mo := by omega
  simp only [e3]

theorem parseElem_month (st : ParseState) (mo : Nat) (rest : List Char)
    (h : 1 ≤ mo ∧ mo ≤ 12) :
    parseElem .stdZeroMonth st (pad2 mo ++ rest) = .ok { st with month := (mo : Int) } rest := by
  simp only [parseElem, getnum_pad2 mo rest true (by omega)]
  rw [if_neg (by omega)]

theorem parseElem_day (st : ParseState) (d : Nat) (rest : List Char) (h : d < 100) :
    parseElem .stdZeroDay st (pad2 d ++ rest) = .ok { st with day := (d : Int) } rest := by
  simp only [parseElem, getnum_pad2 d rest true h]

theorem parseElem_hour (st : ParseState) (h : Nat) (rest : List Char) (hh : h ≤ 23) :
    parseElem .stdHour st (pad2 h ++ rest) = .ok { st with hour := (h : Int) } rest := by
  simp only [parseElem, getnum_pad2 h rest false (by omega)]
  rw [if_neg (by omega)]

theorem parseElem_minute (st : ParseState) (mi : Nat) (rest : List Char) (h : mi ≤ 59) :
    parseElem .stdZeroMinute st (pad2 mi ++ rest) = .ok { st with min := (mi : Int) } rest := by
  simp only [parseElem, getnum_pad2 mi rest true (by omega)]
  rw [if_neg (by omega)]

theorem parseFraction_none (st : ParseState) (s : Nat) (c : Char) (rest : List Char)
    (hc : commaOrPeriod c = false) :
    parseFraction st s (c :: rest) = .ok { st with sec := (s : Int) } (c :: rest) := by
  cases rest <;> simp [parseFraction, hc]

theorem parseElem_second (st : ParseState) (s : Nat) (c : Char) (rest : List Char)
    (h : s ≤ 59) (hc : commaOrPeriod c = false) :
    parseElem .stdZeroSecond st (pad2 s ++ c :: rest)
      = .ok { st with sec := (s : Int) } (c :: rest) := by
  simp only [parseElem, getnum_pad2 s (c :: rest) true (by omega)]
  rw [if_neg (by omega), parseFraction_none st s c rest hc]

theorem parseElem_zone_Z (st : ParseState) (rest : List Char) :
    parseElem .stdISO8601ColonTZ st ('Z' :: rest) = .ok { st with utc := true } rest := by
  simp [parseElem]

theorem parseElem_zone_offset (st : ParseState) (west : Bool) (oh om : Nat) (rest : List Char)
    (h : oh ≤ 23 ∧ om ≤ 59) :
    parseElem .stdISO8601ColonTZ st (offsetText west oh om ++ rest)
      = .ok { st with zoneOffset := offsetSeconds west oh om } rest := by
  have e1 := getnum_pad2 oh [] true (by omega)
  have e2 := getnum_pad2 om [] true (by omega)
  simp only [pad2, List.cons_append, List.nil_append] at e1 e2
  cases west <;>
    simp [offsetText, parseElem, parseZone, pad2, e1, e2, offsetSeconds] <;>
    rw [if_neg (by omega), if_neg (by omega)]

theorem skip_nil (value : List Char) : skip value [] = .ok value := by
  cases value <;> rfl

theorem skip_one (c : Char) (value : List Char) : skip (c :: value) [c] = .ok value := by
  simp [skip, skip_nil]

theorem parseStep_ok (al av : String) (c : Chunk) (st st1 : ParseState)
    (value value1 rest : List Char) (h1 : skip value c.pre = .ok value1)
    (h2 : parseElem c.std st value1 = .ok st1 rest) :
    parseStep al av c st value = .ok (st1, rest) := by
  unfold parseStep
  rw [h1]
  simp only []
  rw [h2]

theorem parseLoop_cons_ok (al av : String) (c : Chunk) (cs : List Chunk) (st st1 : ParseState)
    (value rest : List Char) (h : parseStep al av c st value = .ok (st1, rest)) :
    parseLoop al av (c :: cs) st value = parseLoop al av cs st1 rest := by
  rw [parseLoop, h]

theorem parseLoop_date (al av : String) (a b c : String) (cs : List Chunk) (st : ParseState)
    (y mo d : Nat) (rest : List Char) (hy : y ≤ 9999) (hmo : 1 ≤ mo ∧ mo ≤ 12) (hd : d < 100) :
    parseLoop al av (⟨[], .stdLongYear, a⟩ :: ⟨['-'], .stdZeroMonth, b⟩ ::
        ⟨['-'], .stdZeroDay, c⟩ :: cs) st (dateText y mo d ++ rest)
      = parseLoop al av cs { st with year := (y : Int), month := (mo : Int), day := (d : Int) }
          rest := by
  have e : dateText y mo d ++ rest = pad4 y ++ ('-' :: (pad2 mo ++ ('-' :: (pad2 d ++ rest)))) := by
    simp [dateText]
  rw [e,
    parseLoop_cons_ok _ _ _ _ _ _ _ _
      (parseStep_ok _ _ _ _ _ _ _ _ (skip_nil _) (parseElem_year _ y _ hy)),
    parseLoop_cons_ok _ _ _ _ _ _ _ _
      (parseStep_ok _ _ _ _ _ _ _ _ (skip_one _ _) (parseElem_month _ mo _ hmo)),
    parseLoop_cons_ok _ _ _ _ _ _ _ _
      (parseStep_ok _ _ _ _ _ _ _ _ (skip_one _ _) (parseElem_day _ d _ hd))]

theorem parseLoop_clock (al av : String) (a b c : String) (cs : List Chunk) (st : ParseState)
    (h mi s : Nat) (z : Char) (rest : List Char) (hc : validClock h mi s)
    (hz : commaOrPeriod z = false) :
    parseLoop al av (⟨['T'], .stdHour, a⟩ :: ⟨[':'], .stdZeroMinute, b⟩ ::
        ⟨[':'], .stdZeroSecond, c⟩ :: cs) st
        ('T' :: (pad2 h ++ (':' :: (pad2 mi ++ (':' :: (pad2 s ++ z :: rest))))))
      = parseLoop al av cs { st with hour := (h : Int), min := (mi : Int), sec := (s : Int) }
          (z :: rest) := by
  obtain ⟨hh, hmi, hs⟩ := hc
  rw [parseLoop_cons_ok _ _ _ _ _ _ _ _
      (parseStep_ok _ _ _ _ _ _ _ _ (skip_one _ _) (parseElem_hour _ h _ hh)),
    parseLoop_cons_ok _ _ _ _ _ _ _ _
      (parseStep_ok _ _ _ _ _ _ _ _ (skip_one _ _) (parseElem_minute _ mi _ hmi)),
    parseLoop_cons_ok _ _ _ _ _ _ _ _
      (parseStep_ok _ _ _ _ _ _ _ _ (skip_one _ _) (parseElem_second _ s z rest hs hz))]

theorem finishParse_valid (al av : String) (y mo d h mi s : Nat) (utc : Bool) (off : Int)
    (hd : validDate y mo d) (hc : validClock h mi s) :
    finishParse al av ⟨y, mo, d, h, mi, s, 0, utc, off⟩
      = .ok (if utc = true ∨ off = -1 then ⟨civilSeconds y mo d h mi s, 0, 0⟩
          else ⟨civilSeconds y mo d h mi s - off, 0, off⟩) := by
  obtain ⟨hy, hm1, hm2, hd1, hd2⟩ := hd
  unfold finishParse
  simp only [if_neg (show ¬ ((mo : Int) < 0) by omega), if_neg (show ¬ ((d : Int) < 0) by omega)]
  rw [if_neg (by omega), Date_inRange y mo d h mi s ⟨hm1, hm2⟩ hc]
  cases utc <;> by_cases ho : off = -1 <;> simp [ho]

theorem daysIn_le (mo : Nat) (y : Int) (h : 1 ≤ mo ∧ mo ≤ 12) : daysIn mo y ≤ 31 := by
  obtain ⟨h1, h2⟩ := h
  unfold daysIn
  split
  · omega
  · interval_cases mo <;> simp [daysBefore]

theorem validDate_day_lt (y mo d : Nat) (hd : validDate y mo d) : d < 100 := by
  obtain ⟨_, hm1, hm2, _, hd2⟩ := hd
  have := daysIn_le mo y ⟨hm1, hm2⟩
  omega

theorem parseLoop_RFC3339_utc (al av : String) (y mo d h mi s : Nat)
    (hd : validDate y mo d) (hc : validClock h mi s) :
    parseLoop al av RFC3339.chunks ParseState.init (dateTimeText y mo d h mi s ++ ['Z'])
      = .ok ⟨y, mo, d, h, mi, s, 0, true, -1⟩ := by
  have e : dateTimeText y mo d h mi s ++ ['Z']
      = dateText y mo d ++ ('T' :: (pad2 h ++ (':' :: (pad2 mi ++ (':' :: (pad2 s ++ 'Z' :: [])))))) := by
    simp [dateTimeText]
  rw [e]
  unfold RFC3339
  simp only []
  rw [parseLoop_date _ _ _ _ _ _ _ y mo d _ hd.1 ⟨hd.2.1, hd.2.2.1⟩ (validDate_day_lt y mo d hd),
    parseLoop_clock _ _ _ _ _ _ _ h mi s 'Z' [] hc (by decide),
    parseLoop_cons_ok _ _ _ _ _ _ _ _
      (parseStep_ok _ _ _ _ _ _ _ _ (skip_nil _) (parseElem_zone_Z _ _))]
  simp [parseLoop, ParseState.init]

theorem parseLoop_RFC3339_offset (al av : String) (y mo d h mi s : Nat) (west : Bool)
    (oh om : Nat) (hd : validDate y mo d) (hc : validClock h mi s) (ho : oh ≤ 23 ∧ om ≤ 59) :
    parseLoop al av RFC3339.chunks ParseState.init
        (dateTimeText y mo d h mi s ++ offsetText west oh om)
      = .ok ⟨y, mo, d, h, mi, s, 0, false, offsetSeconds west oh om⟩ := by
  have e : dateTimeText y mo d h mi s ++ offsetText west oh om
      = dateText y mo d ++ ('T' :: (pad2 h ++ (':' :: (pad2 mi ++ (':' :: (pad2 s ++
          (if west = true then '-' else '+') :: (pad2 oh ++ ':' :: pad2 om))))))) := by
    simp [dateTimeText, offsetText]
  have e2 : (if west = true then '-' else '+') :: (pad2 oh ++ ':' :: pad2 om)
      = offsetText west oh om ++ [] := by simp [offsetText]
  rw [e]
  unfold RFC3339
  simp only []
  rw [parseLoop_date _ _ _ _ _ _ _ y mo d _ hd.1 ⟨hd.2.1, hd.2.2.1⟩ (validDate_day_lt y mo d hd),
    parseLoop_clock _ _ _ _ _ _ _ h mi s _ _ hc (by cases west <;> decide), e2,
    parseLoop_cons_ok _ _ _ _ _ _ _ _
      (parseStep_ok _ _ _ _ _ _ _ _ (skip_nil _) (parseElem_zone_offset _ west oh om [] ho))]
  simp [parseLoop, ParseState.init]

theorem offsetSeconds_ne (west : Bool) (oh om : Nat) : offsetSeconds west oh om ≠ -1 := by
  unfold offsetSeconds
  cases west <;> simp <;> omega

theorem Parse_of_loop_ok (layout : Layout) (chars : List Char) (st : ParseState)
    (h : parseLoop layout.text (String.mk chars) layout.chunks ParseState.init chars = .ok st) :
    Parse layout (String.mk chars) = finishParse layout.text (String.mk chars) st := by
  unfold Parse
  show (match parseLoop layout.text (String.mk chars) layout.chunks ParseState.init chars with
    | Except.error e => Except.error e
    | Except.ok st => finishParse layout.text (String.mk chars) st) = _
  rw [h]

theorem Parse_of_loop_error (layout : Layout) (chars : List Char) (e : ParseError)
    (h : parseLoop layout.text (String.mk chars) layout.chunks ParseState.init chars
      = .error e) :
    Parse layout (String.mk chars) = .error e := by
  unfold Parse
  show (match parseLoop layout.text (String.mk chars) layout.chunks ParseState.init chars with
    | Except.error e => Except.error e
    | Except.ok st => finishParse layout.text (String.mk chars) st) = _
  rw [h]

/-- `time.Parse(time.RFC3339, s)` on `YYYY-MM-DDThh:mm:ssZ`. -/
theorem Parse_RFC3339_utc (y mo d h mi s : Nat) (hd : validDate y mo d)
    (hc : validClock h mi s) :
    Parse RFC3339 (String.mk (dateTimeText y mo d h mi s ++ ['Z']))
      = .ok ⟨civilSeconds y mo d h mi s, 0, 0⟩ := by
  rw [Parse_of_loop_ok _ _ _ (parseLoop_RFC3339_utc _ _ y mo d h mi s hd hc),
    finishParse_valid _ _ y mo d h mi s true (-1) hd hc]
  simp

/-- `time.Parse(time.RFC3339, s)` on `YYYY-MM-DDThh:mm:ss+hh:mm` and `...-hh:mm`. -/
theorem Parse_RFC3339_offset (y mo d h mi s : Nat) (west : Bool) (oh om : Nat)
    (hd : validDate y mo d) (hc : validClock h mi s) (ho : oh ≤ 23 ∧ om ≤ 59) :
    Parse RFC3339 (String.mk (dateTimeText y mo d h mi s ++ offsetText west oh om))
      = .ok ⟨civilSeconds y mo d h mi s - offsetSeconds west oh om, 0,
          offsetSeconds west oh om⟩ := by
  rw [Parse_of_loop_ok _ _ _ (parseLoop_RFC3339_offset _ _ y mo d h mi s west oh om hd hc ho),
    finishParse_valid _ _ y mo d h mi s false _ hd hc]
  simp [offsetSeconds_ne]

theorem parseLoop_dateLayout (al av : String) (y mo d : Nat) (hd : validDate y mo d) :
    parseLoop al av dateLayout.chunks ParseState.init (dateText y mo d)
      = .ok ⟨y, mo, d, 0, 0, 0, 0, false, -1⟩ := by
  have e : dateText y mo d = dateText y mo d ++ [] := by simp
  rw [e]
  unfold dateLayout
  simp only []
  rw [parseLoop_date _ _ _ _ _ _ _ y mo d _ hd.1 ⟨hd.2.1, hd.2.2.1⟩ (validDate_day_lt y mo d hd)]
  simp [parseLoop, ParseState.init]

/-- `time.Parse("2006-01-02", s)` on `YYYY-MM-DD`. -/
theorem Parse_dateLayout (y mo d : Nat) (hd : validDate y mo d) :
    Parse dateLayout (String.mk (dateText y mo d)) = .ok ⟨civilSeconds y mo d 0 0 0, 0, 0⟩ := by
  rw [Parse_of_loop_ok _ _ _ (parseLoop_dateLayout _ _ y mo d hd)]
  have := finishParse_valid dateLayout.text (String.mk (dateText y mo d)) y mo d 0 0 0 false (-1)
    hd ⟨by omega, by omega, by omega⟩
  simpa using this

/-- `time.Parse(time.RFC3339, s)` on `YYYY-MM-DD`: the text ends where the layout wants `T`. -/
theorem Parse_RFC3339_date (y mo d : Nat) (hd : validDate y mo d) :
    Parse RFC3339 (String.mk (dateText y mo d))
      = .error ⟨RFC3339.text, String.mk (dateText y mo d), "T", "", ""⟩ := by
  apply Parse_of_loop_error
  have e : dateText y mo d = dateText y mo d ++ [] := by simp
  conv_lhs => rw [e]
  unfold RFC3339
  simp only []
  rw [parseLoop_date _ _ _ _ _ _ _ y mo d _ hd.1 ⟨hd.2.1, hd.2.2.1⟩ (validDate_day_lt y mo d hd)]
  simp [parseLoop, parseStep, skip]

/-! ## Theorems: decoding -/

theorem fieldMatch_value : fieldMatch "value" "value" = true := by decide

theorem DateValue_value_str (d0 : DateValue) (s : String) :
    DateValue.UnmarshalJSON d0 (.obj [("value", .str s)])
      = match Parse RFC3339 s with
        | .ok tm => ⟨⟨tm⟩, none⟩
        | .error _ =>
          match Parse dateLayout s with
          | .ok tm => ⟨⟨tm⟩, none⟩
          | .error err => ⟨d0, some (.parse err)⟩ := by
  simp only [DateValue.UnmarshalJSON, decodeStruct, decodeObject, jsonDateValue.setField,
    fieldMatch_value, if_true, timeOrDate.UnmarshalJSON]
  cases h1 : Parse RFC3339 s with
  | ok tm => simp [Dec.finish, keepFirst]
  | error e1 =>
    cases h2 : Parse dateLayout s with
    | ok tm => simp [Dec.finish, keepFirst]
    | error e2 => simp [Dec.finish, keepFirst, addErrorContext]

theorem parseStep_error_fields (al av : String) (c : Chunk) (st : ParseState)
    (value : List Char) (e : ParseError) (h : parseStep al av c st value = .error e) :
    e.Layout = al ∧ e.Value = av := by
  unfold parseStep at h
  split at h
  · cases h; exact ⟨rfl, rfl⟩
  · split at h
    · cases h; exact ⟨rfl, rfl⟩
    · cases h; exact ⟨rfl, rfl⟩
    · cases h

theorem parseLoop_error_fields (al av : String) (cs : List Chunk) (st : ParseState)
    (value : List Char) (e : ParseError) (h : parseLoop al av cs st value = .error e) :
    e.Layout = al ∧ e.Value = av := by
  induction cs generalizing st value with
  | nil =>
    unfold parseLoop at h
    split at h
    · cases h; exact ⟨rfl, rfl⟩
    · cases h
  | cons c cs ih =>
    unfold parseLoop at h
    split at h
    · next e1 h1 =>
      cases h
      exact parseStep_error_fields al av c st value _ h1
    · exact ih _ _ h

theorem finishParse_error_fields (al av : String) (st : ParseState) (e : ParseError)
    (h : finishParse al av st = .error e) : e.Layout = al ∧ e.Value = av := by
  simp only [finishParse] at h
  split_ifs at h <;> (injection h with h; subst h; exact ⟨rfl, rfl⟩)

theorem Parse_error_fields (layout : Layout) (s : String) (e : ParseError)
    (h : Parse layout s = .error e) : e.Layout = layout.text ∧ e.Value = s := by
  unfold Parse at h
  cases hl : parseLoop layout.text s layout.chunks ParseState.init s.toList with
  | error e1 =>
    rw [hl] at h
    cases h
    exact parseLoop_error_fields _ _ _ _ _ _ hl
  | ok st =>
    rw [hl] at h
    exact finishParse_error_fields _ _ _ _ h

theorem decodeObject_invariant {α : Type} (setField : α → String → JSON → Dec α)
    (P : α → Prop) (ms : List (String × JSON))
    (h : ∀ m ∈ ms, ∀ c, P c →
      P (setField c m.1 m.2).val ∧ (setField c m.1 m.2).saved = none ∧
        (setField c m.1 m.2).abort = none)
    (cur : α) (hc : P cur) :
    P (decodeObject setField cur none ms).val ∧ (decodeObject setField cur none ms).saved = none ∧
      (decodeObject setField cur none ms).abort = none := by
  induction ms generalizing cur with
  | nil => exact ⟨hc, rfl, rfl⟩
  | cons m ms ih =>
    obtain ⟨k, v⟩ := m
    obtain ⟨h1, h2, h3⟩ := h (k, v) (List.mem_cons_self _ _) cur hc
    simp only at h1 h2 h3
    simp only [decodeObject, h3, h2, keepFirst]
    exact ih (fun m hm => h m (List.mem_cons_of_mem _ hm)) _ h1

theorem decodeObject_val_invariant {α : Type} (setField : α → String → JSON → Dec α)
    (P : α → Prop) (ms : List (String × JSON))
    (h : ∀ m ∈ ms, ∀ c, P c → P (setField c m.1 m.2).val)
    (cur : α) (saved : Option DecodeError) (hc : P cur) :
    P (decodeObject setField cur saved ms).val := by
  induction ms generalizing cur saved with
  | nil => exact hc
  | cons m ms ih =>
    obtain ⟨k, v⟩ := m
    have h1 := h (k, v) (List.mem_cons_self _ _) cur hc
    simp only at h1
    simp only [decodeObject]
    split
    · exact h1
    · exact ih (fun m hm => h m (List.mem_cons_of_mem _ hm)) _ _ h1

theorem FloatValue_setField_value_absent (w : FloatValue) (m : String × JSON)
    (h : fieldMatch "value" m.1 = true → m.2 = .null) (hw : w.Value = none) :
    (FloatValue.setField ErrorContext.top w m.1 m.2).val.Value = none := by
  unfold FloatValue.setField
  by_cases hv : fieldMatch "value" m.1 = true
  · simp [hv, h hv, decodeFloatPtr, Dec.map]
  · by_cases hu : fieldMatch "units" m.1 = true
    · simp [hv, hu, Dec.map, hw]
    · simp [hv, hu, hw]

theorem IntValue_setField_value_absent (w : IntValue) (m : String × JSON)
    (h : fieldMatch "value" m.1 = true → m.2 = .null) (hw : w.Value = none) :
    (IntValue.setField ErrorContext.top w m.1 m.2).val.Value = none := by
  unfold IntValue.setField
  by_cases hv : fieldMatch "value" m.1 = true
  · simp [hv, h hv, decodeIntPtr, Dec.map]
  · by_cases hu : fieldMatch "units" m.1 = true
    · simp [hv, hu, Dec.map, hw]
    · simp [hv, hu, hw]

theorem TimeValue_setField_value_absent (w : TimeValue) (m : String × JSON)
    (h : fieldMatch "value" m.1 = true → m.2 = .null) (hw : w.Value = none) :
    (TimeValue.setField ErrorContext.top w m.1 m.2).val.Value = none := by
  unfold TimeValue.setField
  by_cases hv : fieldMatch "value" m.1 = true
  · simp [hv, h hv, decodeTimePtr, Dec.map]
  · by_cases hu : fieldMatch "units" m.1 = true
    · simp [hv, hu, Dec.map, hw]
    · simp [hv, hu, hw]

theorem StringValue_setField_absent (w : StringValue) (m : String × JSON)
    (h : fieldMatch "value" m.1 = true → m.2 = .null) (hw : w.Value = none) :
    (StringValue.setField ErrorContext.top w m.1 m.2).val.Value = none ∧
      (StringValue.setField ErrorContext.top w m.1 m.2).saved = none ∧
      (StringValue.setField ErrorContext.top w m.1 m.2).abort = none := by
  unfold StringValue.setField
  by_cases hv : fieldMatch "value" m.1 = true
  · simp [hv, h hv, decodeStringPtr, Dec.map]
  · simp [hv, hw]

theorem FloatValue_setField_absent (w : FloatValue) (m : String × JSON)
    (h : (fieldMatch "value" m.1 = true → m.2 = .null) ∧
      (fieldMatch "units" m.1 = true → m.2 = .null ∨ ∃ u, m.2 = .str u))
    (hw : w.Value = none) :
    (FloatValue.setField ErrorContext.top w m.1 m.2).val.Value = none ∧
      (FloatValue.setField ErrorContext.top w m.1 m.2).saved = none ∧
      (FloatValue.setField ErrorContext.top w m.1 m.2).abort = none := by
  unfold FloatValue.setField
  by_cases hv : fieldMatch "value" m.1 = true
  · simp [hv, h.1 hv, decodeFloatPtr, Dec.map]
  · by_cases hu : fieldMatch "units" m.1 = true
    · rcases h.2 hu with hn | ⟨u, hs⟩
      · simp [hv, hu, hn, decodeString, Dec.map, hw]
      · simp [hv, hu, hs, decodeString, Dec.map, hw]
    · simp [hv, hu, hw]

theorem IntValue_setField_absent (w : IntValue) (m : String × JSON)
    (h : (fieldMatch "value" m.1 = true → m.2 = .null) ∧
      (fieldMatch "units" m.1 = true → m.2 = .null ∨ ∃ u, m.2 = .str u))
    (hw : w.Value = none) :
    (IntValue.setField ErrorContext.top w m.1 m.2).val.Value = none ∧
      (IntValue.setField ErrorContext.top w m.1 m.2).saved = none ∧
      (IntValue.setField ErrorContext.top w m.1 m.2).abort = none := by
  unfold IntValue.setField
  by_cases hv : fieldMatch "value" m.1 = true
  · simp [hv, h.1 hv, decodeIntPtr, Dec.map]
  · by_cases hu : fieldMatch "units" m.1 = true
    · rcases h.2 hu with hn | ⟨u, hs⟩
      · simp [hv, hu, hn, decodeString, Dec.map, hw]
      · simp [hv, hu, hs, decodeString, Dec.map, hw]
    · simp [hv, hu, hw]

theorem TimeValue_setField_absent (w : TimeValue) (m : String × JSON)
    (h : (fieldMatch "value" m.1 = true → m.2 = .null) ∧
      (fieldMatch "units" m.1 = true → m.2 = .null ∨ ∃ u, m.2 = .str u))
    (hw : w.Value = none) :
    (TimeValue.setField ErrorContext.top w m.1 m.2).val.Value = none ∧
      (TimeValue.setField ErrorContext.top w m.1 m.2).saved = none ∧
      (TimeValue.setField ErrorContext.top w m.1 m.2).abort = none := by
  unfold TimeValue.setField
  by_cases hv : fieldMatch "value" m.1 = true
  · simp [hv, h.1 hv, decodeTimePtr, Dec.map]
  · by_cases hu : fieldMatch "units" m.1 = true
    · rcases h.2 hu with hn | ⟨u, hs⟩
      · simp [hv, hu, hn, decodeString, Dec.map, hw]
      · simp [hv, hu, hs, decodeString, Dec.map, hw]
    · simp [hv, hu, hw]

theorem fieldMatch_units : fieldMatch "units" "units" = true := by decide

theorem fieldMatch_value_units : fieldMatch "value" "units" = false := by decide

theorem jsonDateValue_setField_skip (w : jsonDateValue) (m : String × JSON)
    (h : fieldMatch "value" m.1 = false) :
    (jsonDateValue.setField w m.1 m.2).val = w ∧ (jsonDateValue.setField w m.1 m.2).saved = none ∧
      (jsonDateValue.setField w m.1 m.2).abort = none := by
  simp [jsonDateValue.setField, h]

/-! ## Theorems: fields that are absent from a sample -/

theorem WeatherType_setField_absent (ctx : ErrorContext) (struct : String) (f : WeatherField)
    (w : WeatherType) (k : String) (v : JSON) (r : Dec WeatherType)
    (h : fieldMatch f.name k = true → v = .null) (hw : f.present w = false)
    (hr : WeatherType.setField ctx struct w k v = some r) : f.present r.val = false := by
  unfold WeatherType.setField at hr
  cases f <;>
    (by_cases h0 : fieldMatch "temperature" k = true
     · rw [if_pos h0] at hr
       injection hr with hr
       subst hr
       first
         | exact hw
         | (have hv := h h0
            subst hv
            rfl)
     rw [if_neg h0] at hr
     by_cases h1 : fieldMatch "temperatureApparent" k = true
     · rw [if_pos h1] at hr
       injection hr with hr
       subst hr
       first
         | exact hw
         | (have hv := h h1
            subst hv
            rfl)
     rw [if_neg h1] at hr
     by_cases h2 : fieldMatch "dewPoint" k = true
     · rw [if_pos h2] at hr
       injection hr with hr
       subst hr
       first
         | exact hw
         | (have hv := h h2
            subst hv
            rfl)
     rw [if_neg h2] at hr
     by_cases h3 : fieldMatch "humidity" k = true
     · rw [if_pos h3] at hr
       injection hr with hr
       subst hr
       first
         | exact hw
         | (have hv := h h3
            subst hv
            rfl)
     rw [if_neg h3] at hr
     by_cases h4 : fieldMatch "windSpeed" k = true
     · rw [if_pos h4] at hr
       injection hr with hr
       subst hr
       first
         | exact hw
         | (have hv := h h4
            subst hv
            rfl)
     rw [if_neg h4] at hr
     by_cases h5 : fieldMatch "windDirection" k = true
     · rw [if_pos h5] at hr
       injection hr with hr
       subst hr
       first
         | exact hw
         | (have hv := h h5
            subst hv
            rfl)
     rw [if_neg h5] at hr
     by_cases h6 : fieldMatch "windGust" k = true
     · rw [if_pos h6] at hr
       injection hr with hr
       subst hr
       first
         | exact hw
         | (have hv := h h6
            subst hv
            rfl)
     rw [if_neg h6] at hr
     by_cases h7 : fieldMatch "pressureSurfaceLevel" k = true
     · rw [if_pos h7] at hr
       injection hr with hr
       subst hr
       first
         | exact hw
         | (have hv := h h7
            subst hv
            rfl)
     rw [if_neg h7] at hr
     by_cases h8 : fieldMatch "pressureSeaLevel" k = true
     · rw [if_pos h8] at hr
       injection hr with hr
       subst hr
       first
         | exact hw
         | (have hv := h h8
            subst hv
            rfl)
     rw [if_neg h8] at hr
     by_cases h9 : fieldMatch "precipitationIntensity" k = true
     · rw [if_pos h9] at hr
       injection hr with hr
       subst hr
       first
         | exact hw
         | (have hv := h h9
            subst hv
            rfl)
     rw [if_neg h9] at hr
     by_cases h10 : fieldMatch "precipitationType" k = true
     · rw [if_pos h10] at hr
       injection hr with hr
       subst hr
       first
         | exact hw
         | (have hv := h h10
            subst hv
            rfl)
     rw [if_neg h10] at hr
     by_cases h11 : fieldMatch "precipitationProbability" k = true
     · rw [if_pos h11] at hr
       injection hr with hr
       subst hr
       first
         | exact hw
         | (have hv := h h11
            subst hv
            rfl)
     rw [if_neg h11] at hr
     by_cases h12 : fieldMatch "sunriseTime" k = true
     · rw [if_pos h12] at hr
       injection hr with hr
       subst hr
       first
         | exact hw
         | (have hv := h h12
            subst hv
            rfl)
     rw [if_neg h12] at hr
     by_cases h13 : fieldMatch "sunsetTime" k = true
     · rw [if_pos h13] at hr
       injection hr with hr
       subst hr
       first
         | exact hw
         | (have hv := h h13
            subst hv
            rfl)
     rw [if_neg h13] at hr
     by_cases h14 : fieldMatch "solarGHI" k = true
     · rw [if_pos h14] at hr
       injection hr with hr
       subst hr
       first
         | exact hw
         | (have hv := h h14
            subst hv
            rfl)
     rw [if_neg h14] at hr
     by_cases h15 : fieldMatch "visibility" k = true
     · rw [if_pos h15] at hr
       injection hr with hr
       subst hr
       first
         | exact hw
         | (have hv := h h15
            subst hv
            rfl)
     rw [if_neg h15] at hr
     by_cases h16 : fieldMatch "cloudCover" k = true
     · rw [if_pos h16] at hr
       injection hr with hr
       subst hr
       first
         | exact hw
         | (have hv := h h16
            subst hv
            rfl)
     rw [if_neg h16] at hr
     by_cases h17 : fieldMatch "cloudBase" k = true
     · rw [if_pos h17] at hr
       injection hr with hr
       subst hr
       first
         | exact hw
         | (have hv := h h17
            subst hv
            rfl)
     rw [if_neg h17] at hr
     by_cases h18 : fieldMatch "cloudCeiling" k = true
     · rw [if_pos h18] at hr
       injection hr with hr
       subst hr
       first
         | exact hw
         | (have hv := h h18
            subst hv
            rfl)
     rw [if_neg h18] at hr
     by_cases h19 : fieldMatch "moonPhase" k = true
     · rw [if_pos h19] at hr
       injection hr with hr
       subst hr
       first
         | exact hw
         | (have hv := h h19
            subst hv
            rfl)
     rw [if_neg h19] at hr
     by_cases h20 : fieldMatch "weatherCode" k = true
     · rw [if_pos h20] at hr
       injection hr with hr
       subst hr
       first
         | exact hw
         | (have hv := h h20
            subst hv
            rfl)
     rw [if_neg h20] at hr
     cases hr)

theorem AirQualityType_setField_absent (ctx : ErrorContext) (struct : String) (f : AirQualityField)
    (w : AirQualityType) (k : String) (v : JSON) (r : Dec AirQualityType)
    (h : fieldMatch f.name k = true → v = .null) (hw : f.present w = false)
    (hr : AirQualityType.setField ctx struct w k v = some r) : f.present r.val = false := by
  unfold AirQualityType.setField at hr
  cases f <;>
    (by_cases h0 : fieldMatch "pm25" k = true
     · rw [if_pos h0] at hr
       injection hr with hr
       subst hr
       first
         | exact hw
         | (have hv := h h0
            subst hv
            rfl)
     rw [if_neg h0] at hr
     by_cases h1 : fieldMatch "pm10" k = true
     · rw [if_pos h1] at hr
       injection hr with hr
       subst hr
       first
         | exact hw
         | (have hv := h h1
            subst hv
            rfl)
     rw [if_neg h1] at hr
     by_cases h2 : fieldMatch "o3" k = true
     · rw [if_pos h2] at hr
       injection hr with hr
       subst hr
       first
         | exact hw
         | (have hv := h h2
            subst hv
            rfl)
     rw [if_neg h2] at hr
     by_cases h3 : fieldMatch "no2" k = true
     · rw [if_pos h3] at hr
       injection hr with hr
       subst hr
       first
         | exact hw
         | (have hv := h h3
            subst hv
            rfl)
     rw [if_neg h3] at hr
     by_cases h4 : fieldMatch "co" k = true
     · rw [if_pos h4] at hr
       injection hr with hr
       subst hr
       first
         | exact hw
         | (have hv := h h4
            subst hv
            rfl)
     rw [if_neg h4] at hr
     by_cases h5 : fieldMatch "so2" k = true
     · rw [if_pos h5] at hr
       injection hr with hr
       subst hr
       first
         | exact hw
         | (have hv := h h5
            subst hv
            rfl)
     rw [if_neg h5] at hr
     by_cases h6 : fieldMatch "epa_aqi" k = true
     · rw [if_pos h6] at hr
       injection hr with hr
       subst hr
       first
         | exact hw
         | (have hv := h h6
            subst hv
            rfl)
     rw [if_neg h6] at hr
     by_cases h7 : fieldMatch "epa_primary_pollutant" k = true
     · rw [if_pos h7] at hr
       injection hr with hr
       subst hr
       first
         | exact hw
         | (have hv := h h7
            subst hv
            rfl)
     rw [if_neg h7] at hr
     by_cases h8 : fieldMatch "epa_health_concern" k = true
     · rw [if_pos h8] at hr
       injection hr with hr
       subst hr
       first
         | exact hw
         | (have hv := h h8
            subst hv
            rfl)
     rw [if_neg h8] at hr
     by_cases h9 : fieldMatch "china_aqi" k = true
     · rw [if_pos h9] at hr
       injection hr with hr
       subst hr
       first
         | exact hw
         | (have hv := h h9
            subst hv
            rfl)
     rw [if_neg h9] at hr
     by_cases h10 : fieldMatch "china_primary_pollutant" k = true
     · rw [if_pos h10] at hr
       injection hr with hr
       subst hr
       first
         | exact hw
         | (have hv := h h10
            subst hv
            rfl)
     rw [if_neg h10] at hr
     by_cases h11 : fieldMatch "china_health_concern" k = true
     · rw [if_pos h11] at hr
       injection hr with hr
       subst hr
       first
         | exact hw
         | (have hv := h h11
            subst hv
            rfl)
     rw [if_neg h11] at hr
     cases hr)

theorem RoadRiskType_setField_absent (ctx : ErrorContext) (struct : String) (f : RoadRiskField)
    (w : RoadRiskType) (k : String) (v : JSON) (r : Dec RoadRiskType)
    (h : fieldMatch f.name k = true → v = .null) (hw : f.present w = false)
    (hr : RoadRiskType.setField ctx struct w k v = some r) : f.present r.val = false := by
  unfold RoadRiskType.setField at hr
  cases f <;>
    (by_cases h0 : fieldMatch "road_risk" k = true
     · rw [if_pos h0] at hr
       injection hr with hr
       subst hr
       first
         | exact hw
         | (have hv := h h0
            subst hv
            rfl)
     rw [if_neg h0] at hr
     by_cases h1 : fieldMatch "road_risk_score" k = true
     · rw [if_pos h1] at hr
       injection hr with hr
       subst hr
       first
         | exact hw
         | (have hv := h h1
            subst hv
            rfl)
     rw [if_neg h1] at hr
     by_cases h2 : fieldMatch "road_risk_confidence" k = true
     · rw [if_pos h2] at hr
       injection hr with hr
       subst hr
       first
         | exact hw
         | (have hv := h h2
            subst hv
            rfl)
     rw [if_neg h2] at hr
     by_cases h3 : fieldMatch "road_risk_conditions" k = true
     · rw [if_pos h3] at hr
       injection hr with hr
       subst hr
       first
         | exact hw
         | (have hv := h h3
            subst hv
            rfl)
     rw [if_neg h3] at hr
     cases hr)

theorem FireIndexType_setField_absent (ctx : ErrorContext) (struct : String) (f : FireIndexField)
    (w : FireIndexType) (k : String) (v : JSON) (r : Dec FireIndexType)
    (h : fieldMatch f.name k = true → v = .null) (hw : f.present w = false)
    (hr : FireIndexType.setField ctx struct w k v = some r) : f.present r.val = false := by
  unfold FireIndexType.setField at hr
  cases f
  · (by_cases h0 : fieldMatch "fire_index" k = true
     · rw [if_pos h0] at hr
       injection hr with hr
       subst hr
       first
         | exact hw
         | (have hv := h h0
            subst hv
            rfl)
     rw [if_neg h0] at hr
     cases hr)

theorem RealTime_setField_absent (ctx : ErrorContext) (f : OptionalField) (s : RealTime)
    (m : String × JSON) (h : fieldMatch f.name m.1 = true → m.2 = .null)
    (hs : f.present s = false) : f.present (RealTime.setField ctx s m.1 m.2).val = false := by
  unfold RealTime.setField
  cases hb : BaseResponseType.setField ctx "RealTime" s.BaseResponseType m.1 m.2 with
  | some r => cases f <;> exact hs
  | none =>
    cases hw : WeatherType.setField ctx "RealTime" s.WeatherType m.1 m.2 with
    | some r =>
      cases f with
      | weather f => exact WeatherType_setField_absent ctx "RealTime" f _ _ _ r h hs hw
      | airQuality f => exact hs
      | roadRisk f => exact hs
      | fireIndex f => exact hs
    | none =>
      cases ha : AirQualityType.setField ctx "RealTime" s.AirQualityType m.1 m.2 with
      | some r =>
        cases f with
        | weather f => exact hs
        | airQuality f => exact AirQualityType_setField_absent ctx "RealTime" f _ _ _ r h hs ha
        | roadRisk f => exact hs
        | fireIndex f => exact hs
      | none =>
        cases hr : RoadRiskType.setField ctx "RealTime" s.RoadRiskType m.1 m.2 with
        | some r =>
          cases f with
          | weather f => exact hs
          | airQuality f => exact hs
          | roadRisk f => exact RoadRiskType_setField_absent ctx "RealTime" f _ _ _ r h hs hr
          | fireIndex f => exact hs
        | none =>
          cases hf : FireIndexType.setField ctx "RealTime" s.FireIndexType m.1 m.2 with
          | some r =>
            cases f with
            | weather f => exact hs
            | airQuality f => exact hs
            | roadRisk f => exact hs
            | fireIndex f => exact FireIndexType_setField_absent ctx "RealTime" f _ _ _ r h hs hf
          | none => exact hs

theorem RealTime_zero_absent (f : OptionalField) : f.present RealTime.zero = false := by
  cases f with
  | weather f => cases f <;> rfl
  | airQuality f => cases f <;> rfl
  | roadRisk f => cases f <;> rfl
  | fireIndex f =>
    cases f
    rfl

theorem RealTime_Unmarshal_absent (f : OptionalField) (ms : List (String × JSON))
    (h : ∀ m ∈ ms, fieldMatch f.name m.1 = true → m.2 = .null) :
    f.present (RealTime.Unmarshal (.obj ms)).val = false := by
  have := decodeObject_val_invariant (RealTime.setField ErrorContext.top)
    (fun s => f.present s = false) ms
    (fun m hm c hc => RealTime_setField_absent ErrorContext.top f c m (h m hm) hc)
    RealTime.zero none (RealTime_zero_absent f)
  simpa [RealTime.Unmarshal, decodeStruct, Dec.finish] using this

/-! ## Theorems: query parameters -/

theorem Values_get_set (q : Values) (key : String) (vs : List String) (k : String) :
    (q.set key vs).get k = if k = key then some vs else q.get k := by
  induction q with
  | nil =>
    by_cases h : k = key
    · simp [Values.set, Values.get, h]
    · have h2 : ¬ key = k := fun e => h e.symm
      simp [Values.set, Values.get, h, h2]
  | cons kv rest ih =>
    obtain ⟨k0, v0⟩ := kv
    by_cases h0 : k0 = key
    · by_cases h : k = key
      · simp [Values.set, Values.get, h0, h]
      · have h2 : ¬ key = k := fun e => h e.symm
        simp [Values.set, Values.get, h0, h, h2]
    · by_cases h : k = key
      · subst h
        simpa [Values.set, Values.get, h0] using ih
      · by_cases h3 : k0 = k
        · simp [Values.set, Values.get, h0, h, h3]
        · simp [Values.set, Values.get, h0, h, h3, ih]

theorem Values_get_Add (q : Values) (key value : String) (k : String) :
    (q.Add key value).get k
      = if k = key then some ((q.get key).getD [] ++ [value]) else q.get k := by
  unfold Values.Add
  rw [Values_get_set]

theorem locationValues_LatLon (l : LatLon) :
    locationValues (some (.LatLon l)) = [("lat", [FormatFloat l.Lat]), ("lon", [FormatFloat l.Lon])] := by
  simp [locationValues, Location.LocationQueryParams, LatLon.LocationQueryParams, copyValues,
    Values.set]

theorem locationValues_LocationID (l : LocationID) :
    locationValues (some (.LocationID l)) = [("location_id", [l])] := by
  simp [locationValues, Location.LocationQueryParams, LocationID.LocationQueryParams, copyValues,
    Values.set]

theorem locationValues_get_other (loc : Option Location) (k : String)
    (h : k ≠ "lat" ∧ k ≠ "lon" ∧ k ≠ "location_id") : (locationValues loc).get k = none := by
  obtain ⟨h1, h2, h3⟩ := h
  have h1' : ¬ "lat" = k := fun e => h1 e.symm
  have h2' : ¬ "lon" = k := fun e => h2 e.symm
  have h3' : ¬ "location_id" = k := fun e => h3 e.symm
  cases loc with
  | none => rfl
  | some l =>
    cases l with
    | LatLon l => simp [locationValues_LatLon, Values.get, h1', h2']
    | LocationID l => simp [locationValues_LocationID, Values.get, h3']

theorem Values_get_ite_Add (c : Prop) [Decidable c] (q : Values) (key value : String)
    (k : String) :
    (if c then q.Add key value else q).get k
      = if k = key then (if c then some ((q.get key).getD [] ++ [value]) else q.get key)
        else q.get k := by
  by_cases hc : c
  · simp only [if_pos hc, Values_get_Add]
  · by_cases hk : k = key
    · simp [hc, hk]
    · simp [hc, hk]

theorem QueryParams_get (args : ForecastArgs) (k : String) :
    args.QueryParams.get k =
      if k = "fields" then
        (if 0 < args.Fields.length then some [",".intercalate args.Fields] else none)
      else if k = "unit_system" then
        (if args.UnitSystem ≠ "" then some [args.UnitSystem] else none)
      else if k = "timestep" then
        (if 0 < args.Timestep then some [Itoa args.Timestep] else none)
      else if k = "end_time" then
        (if args.End.IsZero = false then some [args.End.Format RFC3339] else none)
      else if k = "start_time" then
        (if args.Start.IsZero = false then some [args.Start.Format RFC3339] else none)
      else (locationValues args.Location).get k := by
  have n1 := locationValues_get_other args.Location "start_time" (by decide)
  have n2 := locationValues_get_other args.Location "end_time" (by decide)
  have n3 := locationValues_get_other args.Location "timestep" (by decide)
  have n4 := locationValues_get_other args.Location "unit_system" (by decide)
  have n5 := locationValues_get_other args.Location "fields" (by decide)
  unfold ForecastArgs.QueryParams
  simp only [Values_get_ite_Add]
  by_cases h5 : k = "fields"
  · subst h5
    simp [n5]
  · by_cases h4 : k = "unit_system"
    · subst h4
      simp [n4]
    · by_cases h3 : k = "timestep"
      · subst h3
        simp [n3]
      · by_cases h2 : k = "end_time"
        · subst h2
          simp [n2]
        · by_cases h1 : k = "start_time"
          · subst h1
            simp [n1]
          · simp only [if_neg h1, if_neg h2, if_neg h3, if_neg h4, if_neg h5]

theorem natDigitsAux_spec (fuel n : Nat) (acc : List Char) (h : n < fuel) :
    ∃ ds : List Char, natDigitsAux fuel n acc = ds ++ acc ∧ ds ≠ [] ∧
      (∀ c ∈ ds, isDigit c = true) ∧
      (∀ a : Nat, ds.foldl (fun acc c => 10 * acc + digitVal c) a = a * 10 ^ ds.length + n) := by
  induction fuel generalizing n acc with
  | zero => omega
  | succ fuel ih =>
    by_cases hn : n < 10
    · refine ⟨[digitChar n], by simp [natDigitsAux, hn], by simp, ?_, ?_⟩
      · intro c hc
        simp only [List.mem_singleton] at hc
        subst hc
        exact isDigit_digitChar n
      · intro a
        simp [digitVal_digitChar]
        omega
    · obtain ⟨ds, e, hne, hd, hv⟩ := ih (n / 10) (digitChar n :: acc) (by omega)
      refine ⟨ds ++ [digitChar n], by simp [natDigitsAux, hn, e], by simp, ?_, ?_⟩
      · intro c hc
        simp only [List.mem_append, List.mem_singleton] at hc
        rcases hc with hc | hc
        · exact hd c hc
        · subst hc
          exact isDigit_digitChar n
      · intro a
        simp only [List.foldl_append, List.foldl_cons, List.foldl_nil, hv, digitVal_digitChar,
          List.length_append, List.length_singleton, pow_succ]
        have := Nat.div_add_mod n 10
        nlinarith [this]

theorem natDigits_spec (n : Nat) :
    natDigits n ≠ [] ∧ (∀ c ∈ natDigits n, isDigit c = true) ∧ digitsVal (natDigits n) = n := by
  obtain ⟨ds, e, hne, hd, hv⟩ := natDigitsAux_spec (n + 1) n [] (by omega)
  simp only [List.append_nil] at e
  unfold natDigits
  rw [e]
  refine ⟨hne, hd, ?_⟩
  have := hv 0
  simpa [digitsVal] using this

theorem isDigit_ne_sign (c : Char) (h : isDigit c = true) : c ≠ '-' ∧ c ≠ '+' := by
  constructor
  · intro e
    subst e
    exact absurd h (by decide)
  · intro e
    subst e
    exact absurd h (by decide)

theorem natDigits_cons (n : Nat) :
    ∃ c rest, natDigits n = c :: rest ∧ isDigit c = true ∧ (c :: rest).all isDigit = true := by
  obtain ⟨hne, hd, _⟩ := natDigits_spec n
  cases hds : natDigits n with
  | nil => exact absurd hds hne
  | cons c rest =>
    rw [hds] at hd
    refine ⟨c, rest, rfl, hd c (List.mem_cons_self _ _), ?_⟩
    rw [List.all_eq_true]
    exact hd

theorem ParseInt_Itoa (i : Int) (h1 : -(2 : Int) ^ 63 ≤ i) (h2 : i < (2 : Int) ^ 63) :
    ParseInt (Itoa i) = some i := by
  unfold Itoa
  by_cases hneg : i < 0
  · obtain ⟨c, rest, e, hc, hall⟩ := natDigits_cons (-i).toNat
    have hv := (natDigits_spec (-i).toNat).2.2
    rw [e] at hv
    have hle : (-i).toNat ≤ 2 ^ 63 := by omega
    simp only [if_pos hneg, e]
    simp [ParseInt, hall, hv, hle]
    omega
  · obtain ⟨c, rest, e, hc, hall⟩ := natDigits_cons i.toNat
    have hv := (natDigits_spec i.toNat).2.2
    rw [e] at hv
    have hs := isDigit_ne_sign c hc
    have hlt : i.toNat < 2 ^ 63 := by omega
    simp only [if_neg hneg, e]
    simp [ParseInt, hs.1, hs.2, hall, hv, hlt]
    omega

/-! ## Theorems: members that make a sample fail to decode -/

theorem keepFirst_left (saved new : Option DecodeError) (h : saved ≠ none) :
    keepFirst saved new ≠ none := by
  cases saved with
  | none => exact absurd rfl h
  | some e => simp [keepFirst]

theorem keepFirst_right (saved new : Option DecodeError) (h : new ≠ none) :
    keepFirst saved new ≠ none := by
  cases saved with
  | none => simpa [keepFirst] using h
  | some e => simp [keepFirst]

theorem decodeObject_saved_mono {α : Type} (setField : α → String → JSON → Dec α)
    (ms : List (String × JSON)) :
    ∀ (cur : α) (saved : Option DecodeError), saved ≠ none →
      (decodeObject setField cur saved ms).saved ≠ none := by
  induction ms with
  | nil =>
    intro cur saved h
    simpa [decodeObject] using h
  | cons m rest ih =>
    intro cur saved h
    obtain ⟨k, v⟩ := m
    unfold decodeObject
    simp only
    split
    · exact keepFirst_left _ _ h
    · exact ih _ _ (keepFirst_left _ _ h)

theorem decodeObject_fails {α : Type} (setField : α → String → JSON → Dec α)
    (m : String × JSON)
    (hbad : ∀ cur : α, (setField cur m.1 m.2).saved ≠ none ∨ (setField cur m.1 m.2).abort ≠ none)
    (ms : List (String × JSON)) (hm : m ∈ ms) :
    ∀ (cur : α) (saved : Option DecodeError),
      (decodeObject setField cur saved ms).saved ≠ none ∨
        (decodeObject setField cur saved ms).abort ≠ none := by
  induction ms with
  | nil => exact absurd hm (List.not_mem_nil _)
  | cons m0 rest ih =>
    intro cur saved
    obtain ⟨k, v⟩ := m0
    unfold decodeObject
    simp only
    split
    · exact Or.inr (by simp)
    · rename_i hab
      rcases List.mem_cons.mp hm with h0 | h0
      · subst h0
        rcases hbad cur with hs | ha
        · exact Or.inl (decodeObject_saved_mono _ _ _ _ (keepFirst_right _ _ hs))
        · exact absurd hab ha
      · exact ih h0 _ _

theorem finish_err {α : Type} (r : Dec α) (h : r.saved ≠ none ∨ r.abort ≠ none) :
    r.finish.err ≠ none := by
  unfold Dec.finish
  cases ha : r.abort with
  | some e => simp
  | none =>
    rcases h with h | h
    · simpa using h
    · exact absurd ha h

theorem fieldMatch_congr (name k k2 : String) (h : foldName k = foldName k2) :
    fieldMatch name k = fieldMatch name k2 := by
  simp only [fieldMatch, h]

theorem RealTime_setField_congr (ctx : ErrorContext) (s : RealTime) (k k2 : String) (v : JSON)
    (h : foldName k = foldName k2) :
    RealTime.setField ctx s k v = RealTime.setField ctx s k2 v := by
  unfold RealTime.setField BaseResponseType.setField WeatherType.setField
    AirQualityType.setField RoadRiskType.setField FireIndexType.setField
  simp only [fieldMatch_congr _ k k2 h]



theorem StringValue_member_wrong (ctx : ErrorContext) (vk : String) (x : JSON)
    (hk : fieldMatch "value" vk = true) (hx : wrongKind .string x = true) (cur : StringValue) :
    (StringValue.setField ctx cur vk x).saved ≠ none ∨
      (StringValue.setField ctx cur vk x).abort ≠ none := by
  cases x <;> simp_all [StringValue.setField, wrongKind, decodeStringPtr, Dec.map]

theorem FloatValue_member_wrong (ctx : ErrorContext) (vk : String) (x : JSON)
    (hk : fieldMatch "value" vk = true) (hx : wrongKind .float x = true) (cur : FloatValue) :
    (FloatValue.setField ctx cur vk x).saved ≠ none ∨
      (FloatValue.setField ctx cur vk x).abort ≠ none := by
  cases x <;> simp_all [FloatValue.setField, wrongKind, decodeFloatPtr, decodeFloat, Dec.map]

theorem IntValue_member_wrong (ctx : ErrorContext) (vk : String) (x : JSON)
    (hk : fieldMatch "value" vk = true) (hx : wrongKind .int x = true) (cur : IntValue) :
    (IntValue.setField ctx cur vk x).saved ≠ none ∨
      (IntValue.setField ctx cur vk x).abort ≠ none := by
  cases x <;> simp_all [IntValue.setField, wrongKind, decodeIntPtr, decodeInt, Dec.map]

theorem TimeValue_member_wrong (ctx : ErrorContext) (vk : String) (x : JSON)
    (hk : fieldMatch "value" vk = true) (hx : wrongKind .time x = true) (cur : TimeValue) :
    (TimeValue.setField ctx cur vk x).saved ≠ none ∨
      (TimeValue.setField ctx cur vk x).abort ≠ none := by
  cases x <;> simp_all [TimeValue.setField, wrongKind, decodeTimePtr, Dec.map]

theorem RealTime_setField_wrong (f : OptionalField) (s : RealTime) (k : String)
    (vs : List (String × JSON)) (vk : String) (x : JSON)
    (hk : fieldMatch f.name k = true) (hvk : fieldMatch "value" vk = true)
    (hx : wrongKind f.kind x = true) (hm : (vk, x) ∈ vs) :
    (RealTime.setField ErrorContext.top s k (.obj vs)).saved ≠ none ∨
      (RealTime.setField ErrorContext.top s k (.obj vs)).abort ≠ none := by
  have hf : foldName k = foldName f.name := by simpa [fieldMatch] using hk
  rw [RealTime_setField_congr _ s k f.name _ hf]
  rcases f with f | f | f | f <;> cases f <;> first
    | exact decodeObject_fails (StringValue.setField _) (vk, x)
        (fun cur => StringValue_member_wrong _ vk x hvk hx cur) vs hm _ none
    | exact decodeObject_fails (FloatValue.setField _) (vk, x)
        (fun cur => FloatValue_member_wrong _ vk x hvk hx cur) vs hm _ none
    | exact decodeObject_fails (IntValue.setField _) (vk, x)
        (fun cur => IntValue_member_wrong _ vk x hvk hx cur) vs hm _ none
    | exact decodeObject_fails (TimeValue.setField _) (vk, x)
        (fun cur => TimeValue_member_wrong _ vk x hvk hx cur) vs hm _ none




theorem DateValue_err_obj (d : DateValue) (vs : List (String × JSON)) :
    (DateValue.UnmarshalJSON d (.obj vs)).err
      = (decodeObject jsonDateValue.setField (⟨Time.zero⟩ : jsonDateValue) none vs).finish.err := by
  simp only [DateValue.UnmarshalJSON, decodeStruct]
  split <;> simp_all

theorem jsonDateValue_member_bad (vk s : String) (e1 e2 : ParseError)
    (hvk : fieldMatch "value" vk = true) (h1 : Parse RFC3339 s = .error e1)
    (h2 : Parse dateLayout s = .error e2) (cur : jsonDateValue) :
    (jsonDateValue.setField cur vk (.str s)).saved ≠ none ∨
      (jsonDateValue.setField cur vk (.str s)).abort ≠ none := by
  simp [jsonDateValue.setField, hvk, timeOrDate.UnmarshalJSON, h1, h2]

theorem RealTime_setField_badTime (s : RealTime) (k : String) (vs : List (String × JSON))
    (vk str : String) (e1 e2 : ParseError) (hk : fieldMatch "observation_time" k = true)
    (hvk : fieldMatch "value" vk = true) (h1 : Parse RFC3339 str = .error e1)
    (h2 : Parse dateLayout str = .error e2) (hm : (vk, .str str) ∈ vs) :
    (RealTime.setField ErrorContext.top s k (.obj vs)).saved ≠ none ∨
      (RealTime.setField ErrorContext.top s k (.obj vs)).abort ≠ none := by
  have hf : foldName k = foldName "observation_time" := by simpa [fieldMatch] using hk
  rw [RealTime_setField_congr _ s k "observation_time" _ hf]
  have e : (RealTime.setField ErrorContext.top s "observation_time" (.obj vs)).abort
      = (DateValue.UnmarshalJSON s.BaseResponseType.ObservationTime (.obj vs)).err.map
        (addErrorContext (ErrorContext.top.field "RealTime" "observation_time")) := rfl
  have h := finish_err _ (decodeObject_fails jsonDateValue.setField (vk, .str str)
    (fun cur => jsonDateValue_member_bad vk str e1 e2 hvk h1 h2 cur) vs hm ⟨Time.zero⟩ none)
  rw [← DateValue_err_obj s.BaseResponseType.ObservationTime] at h
  right
  rw [e]
  cases hh : (DateValue.UnmarshalJSON s.BaseResponseType.ObservationTime (.obj vs)).err with
  | none => exact absurd hh h
  | some err => simp

theorem RealTime_Unmarshal_fails (ms : List (String × JSON)) (m : String × JSON)
    (hm : m ∈ ms)
    (hbad : ∀ cur : RealTime, (RealTime.setField ErrorContext.top cur m.1 m.2).saved ≠ none ∨
      (RealTime.setField ErrorContext.top cur m.1 m.2).abort ≠ none) :
    (RealTime.Unmarshal (.obj ms)).err ≠ none :=
  finish_err _ (decodeObject_fails _ m hbad ms hm RealTime.zero none)

theorem decodeResponse_error (body : JSON) (h : (RealTime.Unmarshal body).err ≠ none) :
    ∃ e, decodeResponse body = .error e ∧ (RealTime.Unmarshal body).err = some e := by
  unfold decodeResponse
  cases hu : RealTime.Unmarshal body with
  | mk val err =>
    rw [hu] at h
    cases err with
    | none => exact absurd rfl h
    | some e => exact ⟨e, rfl, rfl⟩

/-! ## Theorems: reading back the decimal of a float64 -/

theorem zpow_split (b : ℚ) (s : ℤ) :
    b ^ s = b ^ s.toNat / b ^ (-s).toNat := by
  rcases le_or_lt 0 s with h | h
  · obtain ⟨n, rfl⟩ := Int.eq_ofNat_of_zero_le h
    simp
  · obtain ⟨n, rfl⟩ : ∃ n : ℕ, s = -(n : ℤ) := ⟨(-s).toNat, by omega⟩
    simp [zpow_neg]

theorem dyadicLtDecimal_iff (a : Nat) (s : Int) (b : Nat) (p : Int) :
    dyadicLtDecimal a s b p = true ↔ (a : ℚ) * 2 ^ s < b * 10 ^ p := by
  unfold dyadicLtDecimal
  rw [decide_eq_true_iff, zpow_split 2 s, zpow_split 10 p,
    ← mul_div_assoc, ← mul_div_assoc, div_lt_div_iff₀ (by positivity) (by positivity)]
  exact_mod_cast Iff.rfl

theorem decimalLtDyadic_iff (b : Nat) (p : Int) (a : Nat) (s : Int) :
    decimalLtDyadic b p a s = true ↔ (b : ℚ) * 10 ^ p < a * 2 ^ s := by
  unfold decimalLtDyadic
  rw [decide_eq_true_iff, zpow_split 2 s, zpow_split 10 p,
    ← mul_div_assoc, ← mul_div_assoc, div_lt_div_iff₀ (by positivity) (by positivity)]
  exact_mod_cast Iff.rfl

theorem decimalFloor_spec (a : Nat) (s : Int) (p : Int) :
    (decimalFloor a s p : ℚ) * 10 ^ p ≤ a * 2 ^ s ∧
      (a : ℚ) * 2 ^ s < (decimalFloor a s p + 1 : ℕ) * 10 ^ p := by
  unfold decimalFloor
  have hD : 0 < 10 ^ p.toNat * 2 ^ (-s).toNat := by positivity
  have h1 := Nat.div_mul_le_self (a * 2 ^ s.toNat * 10 ^ (-p).toNat) (10 ^ p.toNat * 2 ^ (-s).toNat)
  have h2 := Nat.lt_div_mul_add (a := a * 2 ^ s.toNat * 10 ^ (-p).toNat) hD
  rw [zpow_split 2 s, zpow_split 10 p]
  constructor
  · rw [← mul_div_assoc, ← mul_div_assoc, div_le_div_iff₀ (by positivity) (by positivity)]
    have : ((a * 2 ^ s.toNat * 10 ^ (-p).toNat / (10 ^ p.toNat * 2 ^ (-s).toNat)
        * (10 ^ p.toNat * 2 ^ (-s).toNat) : ℕ) : ℚ) ≤ ((a * 2 ^ s.toNat * 10 ^ (-p).toNat : ℕ) : ℚ) :=
      by exact_mod_cast h1
    push_cast at this ⊢
    linarith
  · rw [← mul_div_assoc, ← mul_div_assoc, div_lt_div_iff₀ (by positivity) (by positivity)]
    have : ((a * 2 ^ s.toNat * 10 ^ (-p).toNat : ℕ) : ℚ)
        < ((a * 2 ^ s.toNat * 10 ^ (-p).toNat / (10 ^ p.toNat * 2 ^ (-s).toNat)
        * (10 ^ p.toNat * 2 ^ (-s).toNat) + 10 ^ p.toNat * 2 ^ (-s).toNat : ℕ) : ℚ) :=
      by exact_mod_cast h2
    push_cast at this ⊢
    linarith

theorem roundHalfEven_eq (num den M : ℕ) (hden : 0 < den)
    (h1 : 2 * M * den ≤ 2 * num + den) (h2 : 2 * num ≤ 2 * M * den + den)
    (h3 : M % 2 = 1 → 2 * M * den < 2 * num + den ∧ 2 * num < 2 * M * den + den) :
    roundHalfEven num den = M := by
  unfold roundHalfEven
  have hdm := Nat.div_add_mod num den
  have hr := Nat.mod_lt num hden
  set q := num / den with hq
  set r := num % den with hr0
  have hle : M ≤ q + 1 := by
    by_contra hc
    have : (q + 2) * den ≤ M * den := Nat.mul_le_mul_right den (by omega)
    nlinarith
  have hge : q ≤ M := by
    by_contra hc
    have : (M + 1) * den ≤ q * den := Nat.mul_le_mul_right den (by omega)
    nlinarith
  simp only
  by_cases c1 : 2 * r < den
  · rw [if_pos c1]
    by_contra hc
    have hM : M = q + 1 := by omega
    subst hM
    nlinarith
  · rw [if_neg c1]
    by_cases c2 : den < 2 * r
    · rw [if_pos c2]
      by_contra hc
      have hM : M = q := by omega
      subst hM
      nlinarith
    · rw [if_neg c2]
      have hrr : 2 * r = den := by omega
      by_cases c3 : q % 2 = 0
      · rw [if_pos c3]
        by_contra hc
        have hM : M = q + 1 := by omega
        have hodd : M % 2 = 1 := by omega
        have := (h3 hodd).1
        subst hM
        nlinarith
      · rw [if_neg c3]
        by_contra hc
        have hM : M = q := by omega
        have hodd : M % 2 = 1 := by omega
        have := (h3 hodd).2
        subst hM
        nlinarith

theorem bitLength_zero (fuel : ℕ) : bitLength fuel 0 = 0 := by
  cases fuel <;> simp [bitLength]

theorem bitLength_spec (fuel : ℕ) : ∀ n : ℕ, 0 < n → n ≤ fuel →
    2 ^ (bitLength fuel n - 1) ≤ n ∧ n < 2 ^ bitLength fuel n ∧ 0 < bitLength fuel n := by
  induction fuel with
  | zero => intro n h1 h2; omega
  | succ fuel ih =>
    intro n h1 h2
    have hn : n ≠ 0 := by omega
    simp only [bitLength, if_neg hn]
    by_cases h : n / 2 = 0
    · have : n = 1 := by omega
      subst this
      simp [bitLength_zero]
    · obtain ⟨a, b, c⟩ := ih (n / 2) (by omega) (by omega)
      refine ⟨?_, ?_, by omega⟩
      · have e : bitLength fuel (n / 2) + 1 - 1 = (bitLength fuel (n / 2) - 1) + 1 := by omega
        rw [e, pow_succ]
        omega
      · rw [pow_succ]
        omega

theorem ilog2_spec (n : ℕ) (h : 0 < n) : 2 ^ ilog2 n ≤ n ∧ n < 2 ^ (ilog2 n + 1) := by
  obtain ⟨a, b, c⟩ := bitLength_spec n n h le_rfl
  unfold ilog2
  refine ⟨a, ?_⟩
  have e : bitLength n n - 1 + 1 = bitLength n n := by omega
  rw [e]
  exact b

theorem roundToFloat64_eq (neg : Bool) (num den : Nat) :
    roundToFloat64 neg num den
      = if num = 0 then some ⟨if neg then 2 ^ 63 else 0⟩
        else roundAt neg num den (floorLog2 num den) := rfl

theorem two_zpow_le_of_le (a b : ℤ) (h : a ≤ b) : (2 : ℚ) ^ a ≤ 2 ^ b :=
  zpow_le_zpow_right₀ (by norm_num) h

theorem zpow_exp_lt (d : ℤ) (n : ℤ) (T : ℚ) (h1 : (2 : ℚ) ^ d ≤ T) (h2 : T < 2 ^ n) : d < n := by
  by_contra hc
  have := two_zpow_le_of_le n d (by omega)
  linarith

theorem zpow_exp_ge (d : ℤ) (n : ℤ) (T : ℚ) (h1 : (2 : ℚ) ^ n ≤ T) (h2 : T < 2 ^ (d + 1)) :
    n ≤ d := by
  by_contra hc
  have := two_zpow_le_of_le (d + 1) n (by omega)
  linarith

theorem floorLog2_spec (num den : ℕ) (hn : 0 < num) (hd : 0 < den) :
    (2 : ℚ) ^ floorLog2 num den ≤ (num : ℚ) / den ∧
      (num : ℚ) / den < 2 ^ (floorLog2 num den + 1) := by
  obtain ⟨a1, a2⟩ := ilog2_spec num hn
  obtain ⟨b1, b2⟩ := ilog2_spec den hd
  have hdq : (0 : ℚ) < den := by exact_mod_cast hd
  have a1q : (2 : ℚ) ^ (ilog2 num : ℤ) ≤ num := by
    rw [zpow_natCast]; exact_mod_cast a1
  have a2q : (num : ℚ) < 2 ^ ((ilog2 num : ℤ) + 1) := by
    rw [show ((ilog2 num : ℤ) + 1) = ((ilog2 num + 1 : ℕ) : ℤ) by push_cast; ring, zpow_natCast]
    exact_mod_cast a2
  have b1q : (2 : ℚ) ^ (ilog2 den : ℤ) ≤ den := by
    rw [zpow_natCast]; exact_mod_cast b1
  have b2q : (den : ℚ) < 2 ^ ((ilog2 den : ℤ) + 1) := by
    rw [show ((ilog2 den : ℤ) + 1) = ((ilog2 den + 1 : ℕ) : ℤ) by push_cast; ring, zpow_natCast]
    exact_mod_cast b2
  set l : ℤ := (ilog2 num : ℤ) - (ilog2 den : ℤ) with hl
  have hpos : ∀ z : ℤ, (0 : ℚ) < 2 ^ z := fun z => zpow_pos (by norm_num) z
  -- num / den < 2 ^ (l + 1)
  have up : (num : ℚ) / den < 2 ^ (l + 1) := by
    rw [div_lt_iff₀ hdq]
    have e : (2 : ℚ) ^ (l + 1) = 2 ^ ((ilog2 num : ℤ) + 1) / 2 ^ (ilog2 den : ℤ) := by
      rw [← zpow_sub₀ (by norm_num)]; congr 1; omega
    rw [e, div_mul_eq_mul_div, lt_div_iff₀ (hpos _)]
    calc (num : ℚ) * 2 ^ (ilog2 den : ℤ) ≤ num * den := by
          apply mul_le_mul_of_nonneg_left b1q (by positivity)
      _ < 2 ^ ((ilog2 num : ℤ) + 1) * den := by
          apply mul_lt_mul_of_pos_right a2q hdq
  have down : (2 : ℚ) ^ (l - 1) < (num : ℚ) / den := by
    rw [lt_div_iff₀ hdq]
    have e : (2 : ℚ) ^ (l - 1) = 2 ^ (ilog2 num : ℤ) / 2 ^ ((ilog2 den : ℤ) + 1) := by
      rw [← zpow_sub₀ (by norm_num)]; congr 1; omega
    rw [e, div_mul_eq_mul_div, div_lt_iff₀ (hpos _)]
    calc (2 : ℚ) ^ (ilog2 num : ℤ) * den < 2 ^ (ilog2 num : ℤ) * 2 ^ ((ilog2 den : ℤ) + 1) := by
          apply mul_lt_mul_of_pos_left b2q (hpos _)
      _ ≤ num * 2 ^ ((ilog2 den : ℤ) + 1) := by
          apply mul_le_mul_of_nonneg_right a1q (le_of_lt (hpos _))
  have hge : (if 0 ≤ l then decide (den * 2 ^ l.toNat ≤ num)
      else decide (den ≤ num * 2 ^ (-l).toNat)) = true ↔ (2 : ℚ) ^ l ≤ (num : ℚ) / den := by
    rw [le_div_iff₀ hdq, zpow_split 2 l]
    by_cases h0 : 0 ≤ l
    · rw [if_pos h0, decide_eq_true_iff]
      have : (-l).toNat = 0 := by omega
      rw [this, pow_zero, div_one]
      constructor
      · intro h
        have : ((den * 2 ^ l.toNat : ℕ) : ℚ) ≤ num := by exact_mod_cast h
        push_cast at this
        linarith
      · intro h
        have : ((den * 2 ^ l.toNat : ℕ) : ℚ) ≤ num := by push_cast; linarith
        exact_mod_cast this
    · rw [if_neg h0, decide_eq_true_iff]
      have : l.toNat = 0 := by omega
      rw [this, pow_zero, div_mul_eq_mul_div, one_mul, div_le_iff₀ (by positivity)]
      constructor
      · intro h
        have : ((den : ℕ) : ℚ) ≤ ((num * 2 ^ (-l).toNat : ℕ) : ℚ) := by exact_mod_cast h
        push_cast at this
        linarith
      · intro h
        have : ((den : ℕ) : ℚ) ≤ ((num * 2 ^ (-l).toNat : ℕ) : ℚ) := by push_cast; linarith
        exact_mod_cast this
  unfold floorLog2
  simp only [← hl]
  by_cases c : (if 0 ≤ l then decide (den * 2 ^ l.toNat ≤ num)
      else decide (den ≤ num * 2 ^ (-l).toNat)) = true
  · rw [if_pos c]
    exact ⟨hge.mp c, up⟩
  · rw [if_neg c]
    have hlt : (num : ℚ) / den < 2 ^ l := by
      by_contra hc
      exact c (hge.mpr (not_lt.mp hc))
    refine ⟨le_of_lt down, ?_⟩
    rw [show l - 1 + 1 = l by ring]
    exact hlt

theorem roundHalfEven_of_rat (N D M : ℕ) (hD : 0 < D) (T : ℚ) (hT : T = (N : ℚ) / D)
    (h1 : (M : ℚ) - 1 / 2 ≤ T) (h2 : T ≤ M + 1 / 2)
    (h3 : M % 2 = 1 → (M : ℚ) - 1 / 2 < T ∧ T < M + 1 / 2) :
    roundHalfEven N D = M := by
  have hDq : (0 : ℚ) < D := by exact_mod_cast hD
  have hN : (N : ℚ) = T * D := by rw [hT]; field_simp
  apply roundHalfEven_eq N D M hD
  · have : ((2 * M * D : ℕ) : ℚ) ≤ ((2 * N + D : ℕ) : ℚ) := by
      push_cast
      rw [hN]
      nlinarith [mul_le_mul_of_nonneg_right h1 hDq.le]
    exact_mod_cast this
  · have : ((2 * N : ℕ) : ℚ) ≤ ((2 * M * D + D : ℕ) : ℚ) := by
      push_cast
      rw [hN]
      nlinarith [mul_le_mul_of_nonneg_right h2 hDq.le]
    exact_mod_cast this
  · intro hodd
    obtain ⟨a, b⟩ := h3 hodd
    constructor
    · have : ((2 * M * D : ℕ) : ℚ) < ((2 * N + D : ℕ) : ℚ) := by
        push_cast
        rw [hN]
        nlinarith [mul_lt_mul_of_pos_right a hDq]
      exact_mod_cast this
    · have : ((2 * N : ℕ) : ℚ) < ((2 * M * D + D : ℕ) : ℚ) := by
        push_cast
        rw [hN]
        nlinarith [mul_lt_mul_of_pos_right b hDq]
      exact_mod_cast this

theorem roundScaled_eq (num den : ℕ) (hd : 0 < den) (k : ℤ) (M : ℕ) (T : ℚ)
    (hT : T = (num : ℚ) / den / 2 ^ k)
    (h1 : (M : ℚ) - 1 / 2 ≤ T) (h2 : T ≤ M + 1 / 2)
    (h3 : M % 2 = 1 → (M : ℚ) - 1 / 2 < T ∧ T < M + 1 / 2) :
    (if 0 ≤ k then roundHalfEven num (den * 2 ^ k.toNat)
      else roundHalfEven (num * 2 ^ (-k).toNat) den) = M := by
  have hdq : (0 : ℚ) < den := by exact_mod_cast hd
  by_cases h0 : 0 ≤ k
  · rw [if_pos h0]
    apply roundHalfEven_of_rat _ _ M (by positivity) T _ h1 h2 h3
    rw [hT, zpow_split 2 k]
    have : (-k).toNat = 0 := by omega
    rw [this, pow_zero, div_one]
    push_cast
    rw [div_div]
  · rw [if_neg h0]
    apply roundHalfEven_of_rat _ _ M hd T _ h1 h2 h3
    rw [hT, zpow_split 2 k]
    have : k.toNat = 0 := by omega
    rw [this, pow_zero]
    push_cast
    field_simp

theorem roundAt_of (neg : Bool) (num den : ℕ) (e0 k : ℤ) (M : ℕ)
    (hk : (if e0 - 52 < -1074 then -1074 else e0 - 52) = k)
    (hm : (if 0 ≤ k then roundHalfEven num (den * 2 ^ k.toNat)
      else roundHalfEven (num * 2 ^ (-k).toNat) den) = M) :
    roundAt neg num den e0
      = if (if M = 2 ^ 53 then 2 ^ 52 else M) < 2 ^ 52 then
          some ⟨(if neg then 2 ^ 63 else 0) + (if M = 2 ^ 53 then 2 ^ 52 else M)⟩
        else if 2047 ≤ (if M = 2 ^ 53 then k + 1 else k) + 1075 then none
        else some ⟨(if neg then 2 ^ 63 else 0)
          + ((if M = 2 ^ 53 then k + 1 else k) + 1075).toNat * 2 ^ 52
          + ((if M = 2 ^ 53 then 2 ^ 52 else M) - 2 ^ 52)⟩ := by
  subst hk
  subst hm
  rfl

theorem scaled_log (R T : ℚ) (e0 e2 : ℤ) (hT : T = R / 2 ^ e2) (h1 : (2 : ℚ) ^ e0 ≤ R)
    (h2 : R < 2 ^ (e0 + 1)) : (2 : ℚ) ^ (e0 - e2) ≤ T ∧ T < 2 ^ (e0 - e2 + 1) := by
  have hp : (0 : ℚ) < 2 ^ e2 := zpow_pos (by norm_num) e2
  have e1 : (2 : ℚ) ^ (e0 - e2) = 2 ^ e0 / 2 ^ e2 := zpow_sub₀ (by norm_num) _ _
  have e3 : (2 : ℚ) ^ (e0 - e2 + 1) = 2 ^ (e0 + 1) / 2 ^ e2 := by
    rw [← zpow_sub₀ (by norm_num)]; congr 1; ring
  rw [e1, e3, hT]
  exact ⟨div_le_div_of_nonneg_right h1 hp.le, div_lt_div_of_pos_right h2 hp⟩

theorem roundAt_subnormal (neg : Bool) (num den : ℕ) (hd : 0 < den) (e0 : ℤ) (f : ℕ)
    (hf : f < 2 ^ 52) (T : ℚ) (hT : T = (num : ℚ) / den / 2 ^ (-1074 : ℤ))
    (hlog1 : (2 : ℚ) ^ e0 ≤ (num : ℚ) / den) (hlog2 : (num : ℚ) / den < 2 ^ (e0 + 1))
    (h1 : (f : ℚ) - 1 / 2 ≤ T) (h2 : T ≤ f + 1 / 2)
    (h3 : f % 2 = 1 → (f : ℚ) - 1 / 2 < T ∧ T < f + 1 / 2) :
    roundAt neg num den e0 = some ⟨(if neg then 2 ^ 63 else 0) + f⟩ := by
  obtain ⟨l1, l2⟩ := scaled_log _ T e0 (-1074) hT hlog1 hlog2
  have hfq : (f : ℚ) + 1 ≤ 4503599627370496 := by
    have : f + 1 ≤ 4503599627370496 := by omega
    exact_mod_cast this
  have hT52 : T < (2 : ℚ) ^ (52 : ℤ) := by
    norm_num
    linarith
  have hdlt := zpow_exp_lt _ 52 T l1 hT52
  have hk : (if e0 - 52 < -1074 then -1074 else e0 - 52) = -1074 := by
    rw [if_pos (by omega)]
  have hm := roundScaled_eq num den hd (-1074) f T hT h1 h2 h3
  rw [roundAt_of neg num den e0 (-1074) f hk hm]
  have hne : f ≠ 2 ^ 53 := by omega
  rw [if_neg hne, if_pos hf]

theorem roundAt_normal (neg : Bool) (num den : ℕ) (hd : 0 < den) (e0 : ℤ) (e f : ℕ)
    (he1 : 1 ≤ e) (he : e < 2047) (hf : f < 2 ^ 52) (T : ℚ)
    (hT : T = (num : ℚ) / den / 2 ^ ((e : ℤ) - 1075))
    (hlog1 : (2 : ℚ) ^ e0 ≤ (num : ℚ) / den) (hlog2 : (num : ℚ) / den < 2 ^ (e0 + 1))
    (h1 : ((f + 2 ^ 52 : ℕ) : ℚ) - (if f = 0 ∧ 2 ≤ e then 1 / 4 else 1 / 2) ≤ T)
    (h2 : T ≤ ((f + 2 ^ 52 : ℕ) : ℚ) + 1 / 2)
    (h3 : (f + 2 ^ 52) % 2 = 1 →
      ((f + 2 ^ 52 : ℕ) : ℚ) - 1 / 2 < T ∧ T < ((f + 2 ^ 52 : ℕ) : ℚ) + 1 / 2) :
    roundAt neg num den e0 = some ⟨(if neg then 2 ^ 63 else 0) + e * 2 ^ 52 + f⟩ := by
  obtain ⟨l1, l2⟩ := scaled_log _ T e0 ((e : ℤ) - 1075) hT hlog1 hlog2
  have hfq : (f : ℚ) + 1 ≤ 4503599627370496 := by
    have : f + 1 ≤ 4503599627370496 := by omega
    exact_mod_cast this
  have h1w : ((f + 2 ^ 52 : ℕ) : ℚ) - 1 / 2 ≤ T := by
    split_ifs at h1 <;> linarith
  by_cases hc : (2 : ℚ) ^ (52 : ℤ) ≤ T
  · -- the rounded mantissa is `f + 2 ^ 52` at exponent `e - 1075`
    have hT53 : T < (2 : ℚ) ^ (53 : ℤ) := by
      push_cast at h2
      norm_num at h2 ⊢
      linarith
    have d1 := zpow_exp_lt _ 53 T l1 hT53
    have d2 := zpow_exp_ge _ 52 T hc l2
    have hk : (if e0 - 52 < -1074 then -1074 else e0 - 52) = (e : ℤ) - 1075 := by
      rw [if_neg (by omega)]
      omega
    have hm := roundScaled_eq num den hd ((e : ℤ) - 1075) (f + 2 ^ 52) T hT h1w h2 h3
    rw [roundAt_of neg num den e0 ((e : ℤ) - 1075) (f + 2 ^ 52) hk hm]
    have hne : f + 2 ^ 52 ≠ 2 ^ 53 := by omega
    have hge : ¬ f + 2 ^ 52 < 2 ^ 52 := by omega
    have hex : ¬ (2047 : ℤ) ≤ (e : ℤ) - 1075 + 1075 := by omega
    rw [if_neg hne, if_neg hge, if_neg hne, if_neg hex]
    have e1 : ((e : ℤ) - 1075 + 1075).toNat = e := by omega
    have e2 : f + 2 ^ 52 - 2 ^ 52 = f := by omega
    rw [e1, e2]
  · have hlt : T < (2 : ℚ) ^ (52 : ℤ) := not_le.mp hc
    have hf0 : f = 0 := by
      by_contra hne
      have : (1 : ℚ) ≤ f := by
        have : 1 ≤ f := by omega
        exact_mod_cast this
      push_cast at h1w
      norm_num at hlt h1w
      linarith
    subst hf0
    by_cases he2 : 2 ≤ e
    · -- the quotient rounds up to `2 ^ 53` at exponent `e - 1076`
      rw [if_pos ⟨rfl, he2⟩] at h1
      have hT51 : (2 : ℚ) ^ (51 : ℤ) ≤ T := by
        push_cast at h1
        norm_num at h1 ⊢
        linarith
      have d1 := zpow_exp_lt _ 52 T l1 hlt
      have d2 := zpow_exp_ge _ 51 T hT51 l2
      have hk : (if e0 - 52 < -1074 then -1074 else e0 - 52) = (e : ℤ) - 1076 := by
        rw [if_neg (by omega)]
        omega
      have hT2 : 2 * T = (num : ℚ) / den / 2 ^ ((e : ℤ) - 1076) := by
        have : (2 : ℚ) ^ ((e : ℤ) - 1075) = 2 ^ ((e : ℤ) - 1076) * 2 := by
          rw [← zpow_add_one₀ (by norm_num)]; congr 1; ring
        rw [hT, this]
        field_simp
        ring
      have hm := roundScaled_eq num den hd ((e : ℤ) - 1076) (2 ^ 53) (2 * T) hT2
        (by push_cast at h1 ⊢; norm_num at h1 hlt ⊢; linarith)
        (by push_cast; norm_num at hlt ⊢; linarith)
        (by intro h; norm_num at h)
      rw [roundAt_of neg num den e0 ((e : ℤ) - 1076) (2 ^ 53) hk hm]
      have hex : ¬ (2047 : ℤ) ≤ (e : ℤ) - 1076 + 1 + 1075 := by omega
      rw [if_pos rfl, if_neg (by norm_num), if_pos rfl, if_neg hex]
      have e1 : ((e : ℤ) - 1076 + 1 + 1075).toNat = e := by omega
      rw [e1, Nat.sub_self]
    · -- `e = 1`: the exponent stays at `-1074` and the mantissa is `2 ^ 52`
      have he1 : e = 1 := by omega
      subst he1
      have d1 := zpow_exp_lt _ 52 T l1 hlt
      have hk : (if e0 - 52 < -1074 then -1074 else e0 - 52) = ((1 : ℕ) : ℤ) - 1075 := by
        rw [if_pos (by push_cast at d1; omega)]
        norm_num
      have hm := roundScaled_eq num den hd (((1 : ℕ) : ℤ) - 1075) (0 + 2 ^ 52) T hT h1w h2 h3
      rw [roundAt_of neg num den e0 (((1 : ℕ) : ℤ) - 1075) (0 + 2 ^ 52) hk hm]
      norm_num

theorem dyadic_scale (mant : ℕ) (e2 : ℤ) :
    (mant : ℚ) * 2 ^ e2 = ((4 * mant : ℕ) : ℚ) * 2 ^ (e2 - 2) := by
  rw [zpow_sub₀ (by norm_num : (2 : ℚ) ≠ 0)]
  push_cast
  norm_num
  ring

theorem shortestAt_within (mant : ℕ) (e2 : ℤ) (lo hi : ℕ) (inclusive : Bool) (p : ℤ) (c : ℕ)
    (hlo : lo < 4 * mant) (hhi : 4 * mant < hi)
    (h : shortestAt mant e2 lo hi inclusive p = some c) :
    withinBounds lo hi (e2 - 2) inclusive ((c : ℚ) * 10 ^ p) := by
  have hp2 : (0 : ℚ) < 2 ^ (e2 - 2) := zpow_pos (by norm_num) _
  obtain ⟨fl, fu⟩ := decimalFloor_spec mant e2 p
  have hx := dyadic_scale mant e2
  have xlo : (lo : ℚ) * 2 ^ (e2 - 2) < (mant : ℚ) * 2 ^ e2 := by
    rw [hx]
    exact mul_lt_mul_of_pos_right (by exact_mod_cast hlo) hp2
  have xhi : (mant : ℚ) * 2 ^ e2 < (hi : ℚ) * 2 ^ (e2 - 2) := by
    rw [hx]
    exact mul_lt_mul_of_pos_right (by exact_mod_cast hhi) hp2
  have down : (decimalLtDyadic (decimalFloor mant e2 p) p lo (e2 - 2) = false ∧
      (inclusive = true ∨ dyadicLtDecimal lo (e2 - 2) (decimalFloor mant e2 p) p = true)) →
      withinBounds lo hi (e2 - 2) inclusive ((decimalFloor mant e2 p : ℚ) * 10 ^ p) := by
    rintro ⟨a, b⟩
    have a1 : ¬ ((decimalFloor mant e2 p : ℚ) * 10 ^ p < lo * 2 ^ (e2 - 2)) := by
      rw [← decimalLtDyadic_iff, a]
      simp
    refine ⟨not_lt.mp a1, by linarith, fun hi0 => ⟨?_, by linarith⟩⟩
    rcases b with b | b
    · rw [hi0] at b
      cases b
    · exact (dyadicLtDecimal_iff _ _ _ _).mp b
  have up : (dyadicLtDecimal hi (e2 - 2) (decimalFloor mant e2 p + 1) p = false ∧
      (inclusive = true ∨ decimalLtDyadic (decimalFloor mant e2 p + 1) p hi (e2 - 2) = true)) →
      withinBounds lo hi (e2 - 2) inclusive (((decimalFloor mant e2 p + 1 : ℕ) : ℚ) * 10 ^ p) := by
    rintro ⟨a, b⟩
    have a1 : ¬ ((hi : ℚ) * 2 ^ (e2 - 2) < ((decimalFloor mant e2 p + 1 : ℕ) : ℚ) * 10 ^ p) := by
      rw [← dyadicLtDecimal_iff, a]
      simp
    refine ⟨by linarith, not_lt.mp a1, fun hi0 => ⟨by linarith, ?_⟩⟩
    rcases b with b | b
    · rw [hi0] at b
      cases b
    · exact (decimalLtDyadic_iff _ _ _ _).mp b
  unfold shortestAt at h
  simp only at h
  split_ifs at h with c1 c2 c3 c4
  · injection h with h
    subst h
    exact up c1.2
  · injection h with h
    subst h
    exact down c1.1
  · injection h with h
    subst h
    exact down c3
  · injection h with h
    subst h
    exact up c4

theorem decimalFloor_exact (mant : ℕ) (e2 : ℤ) :
    (decimalFloor mant e2 (if e2 < 0 then e2 else 0) : ℚ) * 10 ^ (if e2 < 0 then e2 else 0)
      = (mant : ℚ) * 2 ^ e2 := by
  by_cases h : e2 < 0
  · rw [if_pos h]
    obtain ⟨n, rfl⟩ : ∃ n : ℕ, e2 = -(n : ℤ) := ⟨(-e2).toNat, by omega⟩
    unfold decimalFloor
    have e1 : (-(n : ℤ)).toNat = 0 := by omega
    have e3 : (-(-(n : ℤ))).toNat = n := by omega
    simp only [e1, e3, pow_zero, mul_one, one_mul]
    have e4 : mant * 10 ^ n / 2 ^ n = mant * 5 ^ n := by
      rw [show (10 : ℕ) = 5 * 2 by norm_num, mul_pow, ← mul_assoc]
      exact Nat.mul_div_cancel _ (by positivity)
    rw [e4, zpow_neg, zpow_neg, zpow_natCast, zpow_natCast]
    push_cast
    rw [show (10 : ℚ) = 5 * 2 by norm_num, mul_pow]
    field_simp
    ring
  · rw [if_neg h]
    obtain ⟨n, rfl⟩ := Int.eq_ofNat_of_zero_le (not_lt.mp h)
    unfold decimalFloor
    simp

theorem shortestFrom_within (mant : ℕ) (e2 : ℤ) (lo hi : ℕ) (inclusive : Bool)
    (hlo : lo < 4 * mant) (hhi : 4 * mant < hi) (fuel : ℕ) :
    ∀ p : ℤ, p - fuel = (if e2 < 0 then e2 else 0) →
      withinBounds lo hi (e2 - 2) inclusive
        (((shortestFrom mant e2 lo hi inclusive fuel p).1 : ℚ)
          * 10 ^ (shortestFrom mant e2 lo hi inclusive fuel p).2) := by
  induction fuel with
  | zero =>
    intro p hp
    have hp0 : p = (if e2 < 0 then e2 else 0) := by simpa using hp
    simp only [shortestFrom]
    rw [hp0, decimalFloor_exact]
    have hp2 : (0 : ℚ) < 2 ^ (e2 - 2) := zpow_pos (by norm_num) _
    have hx := dyadic_scale mant e2
    have xlo : (lo : ℚ) * 2 ^ (e2 - 2) < (mant : ℚ) * 2 ^ e2 := by
      rw [hx]
      exact mul_lt_mul_of_pos_right (by exact_mod_cast hlo) hp2
    have xhi : (mant : ℚ) * 2 ^ e2 < (hi : ℚ) * 2 ^ (e2 - 2) := by
      rw [hx]
      exact mul_lt_mul_of_pos_right (by exact_mod_cast hhi) hp2
    exact ⟨xlo.le, xhi.le, fun _ => ⟨xlo, xhi⟩⟩
  | succ fuel ih =>
    intro p hp
    simp only [shortestFrom]
    cases hs : shortestAt mant e2 lo hi inclusive p with
    | some c => exact shortestAt_within mant e2 lo hi inclusive p c hlo hhi hs
    | none =>
      apply ih (p - 1)
      push_cast at hp
      omega

theorem trimZeros_value (fuel : ℕ) : ∀ (q : ℕ) (p : ℤ),
    ((trimZeros fuel q p).1 : ℚ) * 10 ^ (trimZeros fuel q p).2 = (q : ℚ) * 10 ^ p := by
  induction fuel with
  | zero => intro q p; rfl
  | succ fuel ih =>
    intro q p
    simp only [trimZeros]
    by_cases h : q % 10 = 0 ∧ 0 < q
    · rw [if_pos h, ih]
      have hq : q = 10 * (q / 10) := by omega
      rw [zpow_add_one₀ (by norm_num)]
      conv_rhs => rw [hq]
      push_cast
      ring
    · rw [if_neg h]

theorem trimZeros_last (fuel : ℕ) : ∀ (q : ℕ) (p : ℤ), 0 < q → q ≤ fuel →
    0 < (trimZeros fuel q p).1 ∧ (trimZeros fuel q p).1 % 10 ≠ 0 := by
  induction fuel with
  | zero => intro q p h1 h2; omega
  | succ fuel ih =>
    intro q p h1 h2
    simp only [trimZeros]
    by_cases h : q % 10 = 0 ∧ 0 < q
    · rw [if_pos h]
      exact ih (q / 10) (p + 1) (by omega) (by omega)
    · rw [if_neg h]
      exact ⟨h1, fun hc => h ⟨hc, h1⟩⟩

theorem withinBounds_pos (lo hi : ℕ) (s : ℤ) (inclusive : Bool) (v : ℚ) (hlo : 0 < lo)
    (h : withinBounds lo hi s inclusive v) : 0 < v := by
  have : (0 : ℚ) < (lo : ℚ) * 2 ^ s :=
    mul_pos (by exact_mod_cast hlo) (zpow_pos (by norm_num) _)
  exact lt_of_lt_of_le this h.1

theorem natDigits_length_pos (n : ℕ) : 0 < (natDigits n).length :=
  List.length_pos.mpr (natDigits_spec n).1

/-- The digits and the decimal exponent of `shortestDecimal`: a number above zero, not
divisible by ten, whose value lies within the bounds of the `float64`. -/
theorem shortestDecimal_within (e f : ℕ) (hnz : ¬ (e = 0 ∧ f = 0)) :
    0 < (shortestDecimal e f).1 ∧ (shortestDecimal e f).1 % 10 ≠ 0 ∧
    withinBounds
      (if 2 ^ 52 < (if e = 0 then f else f + 2 ^ 52) ∨ e ≤ 1
        then 4 * (if e = 0 then f else f + 2 ^ 52) - 2
        else 4 * (if e = 0 then f else f + 2 ^ 52) - 1)
      (4 * (if e = 0 then f else f + 2 ^ 52) + 2)
      ((if e = 0 then 1 else (e : ℤ)) - 1075 - 2)
      (decide ((if e = 0 then f else f + 2 ^ 52) % 2 = 0))
      (((shortestDecimal e f).1 : ℚ) * 10 ^ (shortestDecimal e f).2) := by
  set mant := if e = 0 then f else f + 2 ^ 52 with hmant
  set e2 : ℤ := (if e = 0 then 1 else (e : ℤ)) - 1075 with he2
  set lo := if 2 ^ 52 < mant ∨ e ≤ 1 then 4 * mant - 2 else 4 * mant - 1 with hlo
  have hm : 0 < mant := by
    rw [hmant]
    split_ifs with h0
    · omega
    · positivity
  have hlo1 : lo < 4 * mant := by
    rw [hlo]
    split_ifs <;> omega
  have hlo0 : 0 < lo := by
    rw [hlo]
    split_ifs <;> omega
  have hhi1 : 4 * mant < 4 * mant + 2 := by omega
  have key : ∀ r : ℕ × ℤ, withinBounds lo (4 * mant + 2) (e2 - 2) (decide (mant % 2 = 0))
      ((r.1 : ℚ) * 10 ^ r.2) →
      0 < (trimZeros r.1 r.1 r.2).1 ∧ (trimZeros r.1 r.1 r.2).1 % 10 ≠ 0 ∧
      withinBounds lo (4 * mant + 2) (e2 - 2) (decide (mant % 2 = 0))
        (((trimZeros r.1 r.1 r.2).1 : ℚ) * 10 ^ (trimZeros r.1 r.1 r.2).2) := by
    intro r hr
    have hv := withinBounds_pos _ _ _ _ _ hlo0 hr
    have hq : 0 < r.1 := by
      by_contra hc
      have : r.1 = 0 := by omega
      rw [this] at hv
      simp at hv
    obtain ⟨a, b⟩ := trimZeros_last r.1 r.1 r.2 hq le_rfl
    refine ⟨a, b, ?_⟩
    rw [trimZeros_value]
    exact hr
  have hw := shortestFrom_within mant e2 lo (4 * mant + 2) (decide (mant % 2 = 0)) hlo1 hhi1
    (((natDigits (decimalFloor (4 * mant + 2) (e2 - 2) 0)).length : ℤ)
      - (if e2 < 0 then e2 else 0)).toNat
    ((natDigits (decimalFloor (4 * mant + 2) (e2 - 2) 0)).length : ℤ)
    (by
      have := natDigits_length_pos (decimalFloor (4 * mant + 2) (e2 - 2) 0)
      split_ifs <;> omega)
  exact key _ hw

theorem span_digits (w r : List Char) (hd : ∀ c ∈ w, isDigit c = true)
    (hr : ∀ c, r.head? = some c → isDigit c = false) :
    (w ++ r).takeWhile isDigit = w ∧ (w ++ r).dropWhile isDigit = r := by
  rw [List.takeWhile_append_of_pos hd, List.dropWhile_append_of_pos hd]
  cases r with
  | nil => simp
  | cons c r =>
    have := hr c rfl
    simp [List.takeWhile_cons, List.dropWhile_cons, this]

theorem digitsVal_append (a b : List Char) :
    digitsVal (a ++ b) = digitsVal a * 10 ^ b.length + digitsVal b := by
  unfold digitsVal
  rw [List.foldl_append]
  generalize List.foldl (fun acc c => 10 * acc + digitVal c) 0 a = x
  induction b generalizing x with
  | nil => simp
  | cons c b ih =>
    simp only [List.foldl_cons, List.length_cons, pow_succ]
    rw [ih, ih (10 * 0 + digitVal c)]
    ring

theorem digitsVal_zeros (n : ℕ) : digitsVal (List.replicate n '0') = 0 := by
  induction n with
  | zero => rfl
  | succ n ih =>
    rw [List.replicate_succ, show ('0' :: List.replicate n '0') = ['0'] ++ List.replicate n '0' from rfl,
      digitsVal_append, ih]
    simp [digitsVal, digitVal]

theorem isDigit_zero_char : isDigit '0' = true := by decide

theorem span_digits_pair (w r : List Char) (hd : ∀ c ∈ w, isDigit c = true)
    (hr : ∀ c, r.head? = some c → isDigit c = false) :
    (w ++ r).span isDigit = (w, r) := by
  rw [List.span_eq_take_drop, (span_digits w r hd hr).1, (span_digits w r hd hr).2]

theorem readDecimal_of_whole (lit : String) (neg : Bool) (s1 w : List Char)
    (hneg : decide (lit.toList.head? = some '-') = neg)
    (hs1 : (if lit.toList.head? = some '-' then lit.toList.tail else lit.toList) = s1)
    (hspan : s1.span isDigit = (w, [])) (hw : w ≠ []) :
    readDecimal lit = (readExponent []).map (fun e => ⟨neg, digitsVal w, e⟩) := by
  subst hneg
  subst hs1
  unfold readDecimal
  simp only [hspan, if_neg hw]

theorem readDecimal_of_point (lit : String) (neg : Bool) (s1 w r2 : List Char)
    (hneg : decide (lit.toList.head? = some '-') = neg)
    (hs1 : (if lit.toList.head? = some '-' then lit.toList.tail else lit.toList) = s1)
    (hspan : s1.span isDigit = (w, '.' :: r2)) (hw : w ≠ []) :
    readDecimal lit =
      if (r2.span isDigit).1 = [] then none
      else (readExponent (r2.span isDigit).2).map
        (fun e => ⟨neg, digitsVal (w ++ (r2.span isDigit).1),
          e - ((r2.span isDigit).1.length : Int)⟩) := by
  subst hneg
  subst hs1
  unfold readDecimal
  simp only [hspan, if_neg hw]

theorem signed_head (neg : Bool) (w t : List Char) (hw : w ≠ [])
    (hd : ∀ c ∈ w, isDigit c = true) :
    decide (((if neg then ['-'] else []) ++ (w ++ t)).head? = some '-') = neg ∧
    (if ((if neg then ['-'] else []) ++ (w ++ t)).head? = some '-'
      then ((if neg then ['-'] else []) ++ (w ++ t)).tail
      else (if neg then ['-'] else []) ++ (w ++ t)) = w ++ t := by
  obtain ⟨c, rest, rfl⟩ := List.exists_cons_of_ne_nil hw
  have hc : c ≠ '-' := (isDigit_ne_sign c (hd c (List.mem_cons_self _ _))).1
  cases neg
  · simp [hc]
  · simp

theorem readDecimal_whole (neg : Bool) (w : List Char) (hw : w ≠ [])
    (hd : ∀ c ∈ w, isDigit c = true) :
    readDecimal (String.mk ((if neg then ['-'] else []) ++ w)) = some ⟨neg, digitsVal w, 0⟩ := by
  have hh := signed_head neg w [] hw hd
  rw [List.append_nil] at hh
  have hs := span_digits_pair w [] hd (by simp)
  rw [List.append_nil] at hs
  rw [readDecimal_of_whole _ neg w w hh.1 hh.2 hs hw]
  simp [readExponent]

theorem readDecimal_frac (neg : Bool) (w fr : List Char) (hw : w ≠ [])
    (hd : ∀ c ∈ w, isDigit c = true) (hfr : fr ≠ []) (hfd : ∀ c ∈ fr, isDigit c = true) :
    readDecimal (String.mk ((if neg then ['-'] else []) ++ (w ++ '.' :: fr)))
      = some ⟨neg, digitsVal (w ++ fr), 0 - (fr.length : ℤ)⟩ := by
  have hh := signed_head neg w ('.' :: fr) hw hd
  have hs := span_digits_pair w ('.' :: fr) hd (by
    intro x hx
    simp only [List.head?_cons, Option.some.injEq] at hx
    subst hx
    decide)
  have hs2 := span_digits_pair fr [] hfd (by simp)
  rw [List.append_nil] at hs2
  rw [readDecimal_of_point _ neg (w ++ '.' :: fr) w fr hh.1 hh.2 hs hw]
  simp only [hs2, if_neg hfr]
  simp [readExponent]

theorem flatMap_singleton_map {α β : Type} (f : α → β) (l : List α) :
    l.flatMap (fun a => [f a]) = l.map f := by
  induction l with
  | nil => rfl
  | cons a l ih => simp [List.flatMap_cons, ih]

theorem fraction_digits (d : List Char) (dp : ℤ) (n : ℕ) (hn : (n : ℤ) = d.length - dp) :
    (List.range n).map
        (fun i => if 0 ≤ dp + i ∧ dp + i < d.length
          then d.getD (dp + i).toNat '0' else '0')
      = List.replicate (-dp).toNat '0' ++ d.drop dp.toNat := by
  have hcast : (do let a ← List.range n; pure (a : ℤ))
      = @List.map ℕ ℤ (fun a => (a : ℤ)) (List.range n) := by
    simp only [List.pure_def, List.bind_eq_flatMap]
    exact flatMap_singleton_map _ _
  rw [hcast, List.map_map]
  apply List.ext_getElem
  · simp only [List.length_map, List.length_range, List.length_append, List.length_replicate,
      List.length_drop]
    omega
  · intro i h1 h2
    simp only [List.length_map, List.length_range] at h1
    simp only [List.getElem_map, List.getElem_range, Function.comp_apply]
    by_cases hi : i < (-dp).toNat
    · rw [List.getElem_append_left (by simpa using hi)]
      have : ¬ (0 ≤ dp + (i : ℤ) ∧ dp + (i : ℤ) < d.length) := by omega
      rw [if_neg this]
      simp
    · rw [List.getElem_append_right (by simpa using hi)]
      have hc : 0 ≤ dp + (i : ℤ) ∧ dp + (i : ℤ) < d.length := by omega
      rw [if_pos hc]
      simp only [List.length_replicate, List.getElem_drop]
      have hidx : (dp + (i : ℤ)).toNat < d.length := by omega
      rw [List.getD_eq_getElem _ _ hidx]
      congr 1
      omega

theorem fmtF_nonneg (neg : Bool) (q : ℕ) (p : ℤ) (hp : 0 ≤ p) :
    fmtF neg q p = (if neg then ['-'] else []) ++ (natDigits q ++ List.replicate p.toNat '0') := by
  have hl := natDigits_length_pos q
  unfold fmtF
  simp only
  have h1 : (0 : ℤ) < ((natDigits q).length : ℤ) + p := by omega
  have h2 : ¬ 0 < (-p).toNat := by omega
  rw [if_pos h1, if_neg h2, List.append_nil]
  have h3 : (((natDigits q).length : ℤ) + p).toNat = (natDigits q).length + p.toNat := by omega
  rw [h3, List.take_of_length_le (by omega)]
  congr 3
  omega

theorem fmtF_neg (neg : Bool) (q : ℕ) (p : ℤ) (hp : p < 0) :
    ∃ w fr : List Char, w ≠ [] ∧ (∀ c ∈ w, isDigit c = true) ∧ fr.length = (-p).toNat ∧
      (∀ c ∈ fr, isDigit c = true) ∧ digitsVal (w ++ fr) = q ∧
      fmtF neg q p = (if neg then ['-'] else []) ++ (w ++ '.' :: fr) ∧
      fr.getLast? = (natDigits q).getLast? := by
  obtain ⟨hne, hdig, hval⟩ := natDigits_spec q
  have hl := natDigits_length_pos q
  have hfr := fraction_digits (natDigits q) (((natDigits q).length : ℤ) + p) (-p).toNat (by omega)
  have hprec : 0 < (-p).toNat := by omega
  by_cases hdp : (0 : ℤ) < ((natDigits q).length : ℤ) + p
  · refine ⟨(natDigits q).take (((natDigits q).length : ℤ) + p).toNat,
      (natDigits q).drop (((natDigits q).length : ℤ) + p).toNat, ?_, ?_, ?_, ?_, ?_, ?_, ?_⟩
    · intro hc
      have := congrArg List.length hc
      simp only [List.length_take, List.length_nil] at this
      omega
    · intro c hc
      exact hdig c (List.mem_of_mem_take hc)
    · simp only [List.length_drop]
      omega
    · intro c hc
      exact hdig c (List.mem_of_mem_drop hc)
    · rw [List.take_append_drop, hval]
    · unfold fmtF
      simp only
      rw [if_pos hdp, if_pos hprec, hfr]
      have e1 : (-(((natDigits q).length : ℤ) + p)).toNat = 0 := by omega
      have e2 : (((natDigits q).length : ℤ) + p).toNat - (natDigits q).length = 0 := by omega
      rw [e1, e2]
      simp
    · rw [List.getLast?_drop, if_neg (by omega)]
  · refine ⟨['0'], List.replicate (-(((natDigits q).length : ℤ) + p)).toNat '0' ++ natDigits q,
      by simp, ?_, ?_, ?_, ?_, ?_, ?_⟩
    · intro c hc
      simp only [List.mem_singleton] at hc
      subst hc
      decide
    · simp only [List.length_append, List.length_replicate]
      omega
    · intro c hc
      simp only [List.mem_append, List.mem_replicate] at hc
      rcases hc with ⟨_, hc⟩ | hc
      · subst hc
        decide
      · exact hdig c hc
    · rw [← List.append_assoc, digitsVal_append, hval]
      have : ['0'] ++ List.replicate (-(((natDigits q).length : ℤ) + p)).toNat '0'
          = List.replicate ((-(((natDigits q).length : ℤ) + p)).toNat + 1) '0' := by
        rw [List.replicate_succ]
        rfl
      rw [this, digitsVal_zeros]
      simp
    · unfold fmtF
      simp only
      rw [if_neg hdp, if_pos hprec, hfr]
      have e1 : (((natDigits q).length : ℤ) + p).toNat = 0 := by omega
      rw [e1]
      simp
    · rw [List.getLast?_append_of_ne_nil _ hne]

theorem ParseFloat_fmtF (neg : Bool) (q : ℕ) (p : ℤ) :
    ParseFloat (String.mk (fmtF neg q p))
      = roundToFloat64 neg (q * 10 ^ p.toNat) (10 ^ (-p).toNat) := by
  obtain ⟨hne, hdig, hval⟩ := natDigits_spec q
  by_cases hp : 0 ≤ p
  · rw [fmtF_nonneg neg q p hp]
    have hw : natDigits q ++ List.replicate p.toNat '0' ≠ [] := by simp [hne]
    have hd : ∀ c ∈ natDigits q ++ List.replicate p.toNat '0', isDigit c = true := by
      intro c hc
      simp only [List.mem_append, List.mem_replicate] at hc
      rcases hc with hc | ⟨_, hc⟩
      · exact hdig c hc
      · subst hc
        decide
    unfold ParseFloat
    rw [readDecimal_whole neg _ hw hd]
    simp only [le_refl, if_true]
    rw [digitsVal_append, hval, digitsVal_zeros, List.length_replicate]
    have : (-p).toNat = 0 := by omega
    rw [this]
    simp
  · obtain ⟨w, fr, hw, hwd, hlen, hfd, hv, hf, _⟩ := fmtF_neg neg q p (by omega)
    have hfr : fr ≠ [] := by
      intro hc
      rw [hc] at hlen
      simp at hlen
      omega
    unfold ParseFloat
    rw [hf, readDecimal_frac neg w fr hw hwd hfr hfd]
    have h1 : ¬ (0 : ℤ) ≤ 0 - (fr.length : ℤ) := by omega
    simp only [h1, if_false]
    rw [hv, hlen]
    have e1 : (-(0 - (((-p).toNat : ℕ) : ℤ))).toNat = (-p).toNat := by omega
    have e2 : p.toNat = 0 := by omega
    rw [e1, e2]
    simp

theorem within_scaled (lo hi : ℕ) (e2 : ℤ) (inclusive : Bool) (v T : ℚ) (hT : T = v / 2 ^ e2)
    (h : withinBounds lo hi (e2 - 2) inclusive v) :
    (lo : ℚ) / 4 ≤ T ∧ T ≤ (hi : ℚ) / 4 ∧
      (inclusive = false → (lo : ℚ) / 4 < T ∧ T < (hi : ℚ) / 4) := by
  have hp : (0 : ℚ) < 2 ^ e2 := zpow_pos (by norm_num) e2
  have e : (2 : ℚ) ^ (e2 - 2) = 2 ^ e2 / 4 := by
    rw [zpow_sub₀ (by norm_num : (2 : ℚ) ≠ 0)]
    norm_num
  obtain ⟨a, b, c⟩ := h
  rw [e] at a b c
  have hv : v = T * 2 ^ e2 := by rw [hT]; field_simp
  rw [hv] at a b c
  have k1 : ∀ y : ℚ, y * (2 ^ e2 / 4) ≤ T * 2 ^ e2 → y / 4 ≤ T := by
    intro y hy
    have : y / 4 * 2 ^ e2 ≤ T * 2 ^ e2 := by linarith [hy, show y * (2 ^ e2 / 4) = y / 4 * 2 ^ e2 by ring]
    exact le_of_mul_le_mul_right this hp
  have k2 : ∀ y : ℚ, T * 2 ^ e2 ≤ y * (2 ^ e2 / 4) → T ≤ y / 4 := by
    intro y hy
    have : T * 2 ^ e2 ≤ y / 4 * 2 ^ e2 := by linarith [hy, show y * (2 ^ e2 / 4) = y / 4 * 2 ^ e2 by ring]
    exact le_of_mul_le_mul_right this hp
  have k3 : ∀ y : ℚ, y * (2 ^ e2 / 4) < T * 2 ^ e2 → y / 4 < T := by
    intro y hy
    have : y / 4 * 2 ^ e2 < T * 2 ^ e2 := by linarith [hy, show y * (2 ^ e2 / 4) = y / 4 * 2 ^ e2 by ring]
    exact lt_of_mul_lt_mul_right this hp.le
  have k4 : ∀ y : ℚ, T * 2 ^ e2 < y * (2 ^ e2 / 4) → T < y / 4 := by
    intro y hy
    have : T * 2 ^ e2 < y / 4 * 2 ^ e2 := by linarith [hy, show y * (2 ^ e2 / 4) = y / 4 * 2 ^ e2 by ring]
    exact lt_of_mul_lt_mul_right this hp.le
  exact ⟨k1 _ a, k2 _ b, fun hi0 => ⟨k3 _ (c hi0).1, k4 _ (c hi0).2⟩⟩

theorem decimal_quotient (q : ℕ) (p : ℤ) :
    ((q * 10 ^ p.toNat : ℕ) : ℚ) / ((10 ^ (-p).toNat : ℕ) : ℚ) = (q : ℚ) * 10 ^ p := by
  rw [zpow_split 10 p]
  push_cast
  rw [mul_div_assoc]

/-- Reading back the shortest decimal of a finite, non-zero `float64` gives its bits. -/
theorem roundToFloat64_shortest (neg : Bool) (e f : ℕ) (he : e < 2047) (hf : f < 2 ^ 52)
    (hnz : ¬ (e = 0 ∧ f = 0)) :
    roundToFloat64 neg ((shortestDecimal e f).1 * 10 ^ (shortestDecimal e f).2.toNat)
        (10 ^ (-(shortestDecimal e f).2).toNat)
      = some ⟨(if neg then 2 ^ 63 else 0) + e * 2 ^ 52 + f⟩ := by
  obtain ⟨hq, _, hw⟩ := shortestDecimal_within e f hnz
  set q := (shortestDecimal e f).1 with hqd
  set p := (shortestDecimal e f).2 with hpd
  have hD : 0 < 10 ^ (-p).toNat := by positivity
  have hN : q * 10 ^ p.toNat ≠ 0 := by positivity
  have hv := decimal_quotient q p
  obtain ⟨g1, g2⟩ := floorLog2_spec (q * 10 ^ p.toNat) (10 ^ (-p).toNat) (by positivity) hD
  rw [roundToFloat64_eq, if_neg hN]
  by_cases h0 : e = 0
  · subst h0
    have hf0 : 0 < f := by
      by_contra hc
      exact hnz ⟨rfl, by omega⟩
    simp only [if_true] at hw
    have hT : ((q * 10 ^ p.toNat : ℕ) : ℚ) / ((10 ^ (-p).toNat : ℕ) : ℚ) / 2 ^ ((1 : ℤ) - 1075)
        = ((q * 10 ^ p.toNat : ℕ) : ℚ) / ((10 ^ (-p).toNat : ℕ) : ℚ) / 2 ^ (-1074 : ℤ) := by
      norm_num
    rw [← hv] at hw
    obtain ⟨a, b, c⟩ := within_scaled _ _ _ _ _ _ rfl hw
    have hlo : (2 ^ 52 < f ∨ 0 ≤ 1) := Or.inr (by norm_num)
    rw [if_pos hlo] at a c
    have c1 : ((4 * f - 2 : ℕ) : ℚ) = 4 * (f : ℚ) - 2 := by
      rw [Nat.cast_sub (by omega)]
      push_cast
      ring
    have c2 : ((4 * f + 2 : ℕ) : ℚ) = 4 * (f : ℚ) + 2 := by push_cast; ring
    rw [c1] at a c
    rw [c2] at b c
    rw [hT] at a b c
    have := roundAt_subnormal neg _ _ hD (floorLog2 (q * 10 ^ p.toNat) (10 ^ (-p).toNat)) f hf _ rfl
      g1 g2 (by linarith) (by linarith) (by
        intro hodd
        have hi0 : decide (f % 2 = 0) = false := by simp [hodd]
        obtain ⟨c3, c4⟩ := c hi0
        constructor <;> linarith)
    rw [this]
    simp
  · have he1 : 1 ≤ e := by omega
    simp only [if_neg h0] at hw
    rw [← hv] at hw
    obtain ⟨a, b, c⟩ := within_scaled _ _ _ _ _ _ rfl hw
    have c2 : ((4 * (f + 2 ^ 52) + 2 : ℕ) : ℚ) = 4 * ((f + 2 ^ 52 : ℕ) : ℚ) + 2 := by
      push_cast; ring
    rw [c2] at b c
    apply roundAt_normal neg _ _ hD _ e f he1 he hf _ rfl g1 g2
    · by_cases hc : f = 0 ∧ 2 ≤ e
      · rw [if_pos hc]
        have hlo : ¬ (2 ^ 52 < f + 2 ^ 52 ∨ e ≤ 1) := by omega
        rw [if_neg hlo] at a
        have c1 : ((4 * (f + 2 ^ 52) - 1 : ℕ) : ℚ) = 4 * ((f + 2 ^ 52 : ℕ) : ℚ) - 1 := by
          rw [Nat.cast_sub (by omega)]
          push_cast
          ring
        rw [c1] at a
        linarith
      · rw [if_neg hc]
        have hlo : (2 ^ 52 < f + 2 ^ 52 ∨ e ≤ 1) := by omega
        rw [if_pos hlo] at a
        have c1 : ((4 * (f + 2 ^ 52) - 2 : ℕ) : ℚ) = 4 * ((f + 2 ^ 52 : ℕ) : ℚ) - 2 := by
          rw [Nat.cast_sub (by omega)]
          push_cast
          ring
        rw [c1] at a
        linarith
    · linarith
    · intro hodd
      have hi0 : decide ((f + 2 ^ 52) % 2 = 0) = false := decide_eq_false (by omega)
      obtain ⟨c3, c4⟩ := c hi0
      have hlo : (2 ^ 52 < f + 2 ^ 52 ∨ e ≤ 1) := by omega
      rw [if_pos hlo] at c3
      have c1 : ((4 * (f + 2 ^ 52) - 2 : ℕ) : ℚ) = 4 * ((f + 2 ^ 52 : ℕ) : ℚ) - 2 := by
        rw [Nat.cast_sub (by omega)]
        push_cast
        ring
      rw [c1] at c3
      constructor <;> linarith

/-- Reading back what `FormatFloat` writes for a finite `float64` gives the same `float64`. -/
theorem ParseFloat_FormatFloat (x : Float64) (hb : x.bits < 2 ^ 64)
    (hfin : x.bits / 2 ^ 52 % 2048 ≠ 2047) : ParseFloat (FormatFloat x) = some x := by
  obtain ⟨bits⟩ := x
  simp only at hb hfin
  have hsign : (if decide (bits / 2 ^ 63 % 2 = 1) = true then 2 ^ 63 else 0)
      + bits / 2 ^ 52 % 2048 * 2 ^ 52 + bits % 2 ^ 52 = bits := by
    by_cases h : bits / 2 ^ 63 % 2 = 1
    · rw [decide_eq_true h, if_pos rfl]
      omega
    · rw [decide_eq_false h, if_neg (by simp)]
      omega
  unfold FormatFloat
  simp only
  rw [if_neg hfin]
  by_cases hz : bits % 2 ^ 52 = 0 ∧ bits / 2 ^ 52 % 2048 = 0
  · rw [if_pos hz]
    unfold ParseFloat
    rw [readDecimal_whole _ ['0'] (by simp) (by
      intro c hc
      simp only [List.mem_singleton] at hc
      subst hc
      decide)]
    simp only [le_refl, if_true]
    have : digitsVal ['0'] = 0 := by decide
    rw [this, roundToFloat64_eq]
    simp only [Nat.zero_mul, if_true]
    rw [hz.1, hz.2] at hsign
    simp only [Nat.zero_mul, Nat.add_zero] at hsign
    rw [hsign]
  · rw [if_neg hz, ParseFloat_fmtF,
      roundToFloat64_shortest _ _ _ (by omega) (Nat.mod_lt _ (by positivity)) (by tauto), hsign]

theorem roundHalfEven_bounds (num den : ℕ) (hden : 0 < den) :
    2 * roundHalfEven num den * den ≤ 2 * num + den ∧
    2 * num ≤ 2 * roundHalfEven num den * den + den ∧
    (roundHalfEven num den % 2 = 1 →
      2 * roundHalfEven num den * den < 2 * num + den ∧
      2 * num < 2 * roundHalfEven num den * den + den) := by
  unfold roundHalfEven
  have hdm := Nat.div_add_mod num den
  have hr := Nat.mod_lt num hden
  set q := num / den with hq
  set r := num % den with hr0
  simp only
  by_cases c1 : 2 * r < den
  · rw [if_pos c1]
    refine ⟨by nlinarith, by nlinarith, fun _ => ⟨by nlinarith, by nlinarith⟩⟩
  · rw [if_neg c1]
    by_cases c2 : den < 2 * r
    · rw [if_pos c2]
      refine ⟨by nlinarith, by nlinarith, fun _ => ⟨by nlinarith, by nlinarith⟩⟩
    · rw [if_neg c2]
      have hrr : 2 * r = den := by omega
      by_cases c3 : q % 2 = 0
      · rw [if_pos c3]
        refine ⟨by nlinarith, by nlinarith, fun h => by omega⟩
      · rw [if_neg c3]
        refine ⟨by nlinarith, by nlinarith, fun h => by omega⟩

theorem roundHalfEven_rat (N D : ℕ) (hD : 0 < D) (T : ℚ) (hT : T = (N : ℚ) / D) :
    (roundHalfEven N D : ℚ) - 1 / 2 ≤ T ∧ T ≤ (roundHalfEven N D : ℚ) + 1 / 2 ∧
    (roundHalfEven N D % 2 = 1 →
      (roundHalfEven N D : ℚ) - 1 / 2 < T ∧ T < (roundHalfEven N D : ℚ) + 1 / 2) := by
  obtain ⟨a, b, c⟩ := roundHalfEven_bounds N D hD
  have hDq : (0 : ℚ) < D := by exact_mod_cast hD
  have hN : (N : ℚ) = T * D := by rw [hT]; field_simp
  set m := roundHalfEven N D with hm
  have aq : (2 * (m : ℚ) * D) ≤ 2 * (T * D) + D := by
    rw [← hN]; exact_mod_cast a
  have bq : 2 * (T * D) ≤ 2 * (m : ℚ) * D + D := by
    rw [← hN]; exact_mod_cast b
  refine ⟨?_, ?_, fun h => ⟨?_, ?_⟩⟩
  · by_contra hc
    have : T < (m : ℚ) - 1 / 2 := not_le.mp hc
    nlinarith [mul_lt_mul_of_pos_right this hDq]
  · by_contra hc
    have : (m : ℚ) + 1 / 2 < T := not_le.mp hc
    nlinarith [mul_lt_mul_of_pos_right this hDq]
  · have cq : (2 * (m : ℚ) * D) < 2 * (T * D) + D := by
      rw [← hN]; exact_mod_cast (c h).1
    by_contra hc
    have : T ≤ (m : ℚ) - 1 / 2 := not_lt.mp hc
    nlinarith [mul_le_mul_of_nonneg_right this hDq.le]
  · have cq : 2 * (T * D) < 2 * (m : ℚ) * D + D := by
      rw [← hN]; exact_mod_cast (c h).2
    by_contra hc
    have : (m : ℚ) + 1 / 2 ≤ T := not_lt.mp hc
    nlinarith [mul_le_mul_of_nonneg_right this hDq.le]

theorem roundScaled_rat (num den : ℕ) (hd : 0 < den) (k : ℤ) (M : ℕ) (T : ℚ)
    (hT : T = (num : ℚ) / den / 2 ^ k)
    (hM : (if 0 ≤ k then roundHalfEven num (den * 2 ^ k.toNat)
      else roundHalfEven (num * 2 ^ (-k).toNat) den) = M) :
    (M : ℚ) - 1 / 2 ≤ T ∧ T ≤ (M : ℚ) + 1 / 2 ∧
      (M % 2 = 1 → (M : ℚ) - 1 / 2 < T ∧ T < (M : ℚ) + 1 / 2) := by
  have hdq : (0 : ℚ) < den := by exact_mod_cast hd
  by_cases h0 : 0 ≤ k
  · rw [if_pos h0] at hM
    subst hM
    apply roundHalfEven_rat _ _ (by positivity) T
    rw [hT, zpow_split 2 k]
    have : (-k).toNat = 0 := by omega
    rw [this, pow_zero, div_one]
    push_cast
    rw [div_div]
  · rw [if_neg h0] at hM
    subst hM
    apply roundHalfEven_rat _ _ hd T
    rw [hT, zpow_split 2 k]
    have : k.toNat = 0 := by omega
    rw [this, pow_zero]
    push_cast
    field_simp

theorem within_of_scaled (lo hi : ℕ) (e2 : ℤ) (inclusive : Bool) (v T : ℚ) (hT : T = v / 2 ^ e2)
    (a : (lo : ℚ) / 4 ≤ T) (b : T ≤ (hi : ℚ) / 4)
    (c : inclusive = false → (lo : ℚ) / 4 < T ∧ T < (hi : ℚ) / 4) :
    withinBounds lo hi (e2 - 2) inclusive v := by
  have hp : (0 : ℚ) < 2 ^ e2 := zpow_pos (by norm_num) e2
  have e : (2 : ℚ) ^ (e2 - 2) = 2 ^ e2 / 4 := by
    rw [zpow_sub₀ (by norm_num : (2 : ℚ) ≠ 0)]
    norm_num
  have hv : v = T * 2 ^ e2 := by rw [hT]; field_simp
  unfold withinBounds
  rw [e, hv]
  have r : ∀ y : ℚ, y * (2 ^ e2 / 4) = y / 4 * 2 ^ e2 := fun y => by ring
  rw [r, r]
  refine ⟨mul_le_mul_of_nonneg_right a hp.le, mul_le_mul_of_nonneg_right b hp.le, fun hi0 =>
    ⟨mul_lt_mul_of_pos_right (c hi0).1 hp, mul_lt_mul_of_pos_right (c hi0).2 hp⟩⟩

theorem nat_le_of_lt_half (M B : ℕ) (h : (M : ℚ) < B + 1 / 2) : M ≤ B := by
  by_contra hc
  have : B + 1 ≤ M := by omega
  have : ((B + 1 : ℕ) : ℚ) ≤ M := by exact_mod_cast this
  push_cast at this
  linarith

theorem nat_ge_of_gt_half (M B : ℕ) (h : (B : ℚ) - 1 / 2 ≤ M) : B ≤ M := by
  by_contra hc
  have : M + 1 ≤ B := by omega
  have : ((M + 1 : ℕ) : ℚ) ≤ B := by exact_mod_cast this
  push_cast at this
  linarith

/-- What `roundAt` returns is a `float64` whose rounding bounds hold the number rounded. -/
theorem roundAt_within (neg : Bool) (N D : ℕ) (hD : 0 < D) (e0 : ℤ)
    (hlog1 : (2 : ℚ) ^ e0 ≤ (N : ℚ) / D) (hlog2 : (N : ℚ) / D < 2 ^ (e0 + 1))
    (e f : ℕ) (he : e < 2047) (hf : f < 2 ^ 52) (hnz : ¬ (e = 0 ∧ f = 0))
    (h : roundAt neg N D e0 = some ⟨(if neg then 2 ^ 63 else 0) + e * 2 ^ 52 + f⟩) :
    withinBounds
      (if 2 ^ 52 < (if e = 0 then f else f + 2 ^ 52) ∨ e ≤ 1
        then 4 * (if e = 0 then f else f + 2 ^ 52) - 2
        else 4 * (if e = 0 then f else f + 2 ^ 52) - 1)
      (4 * (if e = 0 then f else f + 2 ^ 52) + 2)
      ((if e = 0 then 1 else (e : ℤ)) - 1075 - 2)
      (decide ((if e = 0 then f else f + 2 ^ 52) % 2 = 0))
      ((N : ℚ) / D) := by
  obtain ⟨k, hk⟩ : ∃ k : ℤ, (if e0 - 52 < -1074 then -1074 else e0 - 52) = k := ⟨_, rfl⟩
  obtain ⟨M, hM⟩ : ∃ M : ℕ, (if 0 ≤ k then roundHalfEven N (D * 2 ^ k.toNat)
      else roundHalfEven (N * 2 ^ (-k).toNat) D) = M := ⟨_, rfl⟩
  rw [roundAt_of neg N D e0 k M hk hM] at h
  obtain ⟨t1, t2, t3⟩ := roundScaled_rat N D hD k M _ rfl hM
  obtain ⟨l1, l2⟩ := scaled_log _ _ e0 k rfl hlog1 hlog2
  set Tk : ℚ := (N : ℚ) / D / 2 ^ k with hTk
  have hk1 : -1074 ≤ k ∧ e0 - 52 ≤ k := by
    split_ifs at hk <;> omega
  have hT53 : Tk < (2 : ℚ) ^ (53 : ℤ) :=
    lt_of_lt_of_le l2 (two_zpow_le_of_le _ _ (by omega))
  have hbig : e0 - 52 = k → (2 : ℚ) ^ (52 : ℤ) ≤ Tk := by
    intro hh
    have : e0 - k = 52 := by omega
    rw [this] at l1
    exact l1
  have hM53 : M ≤ 2 ^ 53 := by
    apply nat_le_of_lt_half
    push_cast
    norm_num at hT53 ⊢
    linarith
  generalize hsg : (if neg = true then 2 ^ 63 else 0 : ℕ) = sg at h
  by_cases c1 : M = 2 ^ 53
  · -- the result is the power of two above: `f = 0` and `e = k + 1076`
    subst c1
    rw [if_pos rfl, if_neg (by norm_num), if_pos rfl] at h
    split_ifs at h with c2
    injection h with h
    injection h with h
    have hfe : f = 0 ∧ (e : ℤ) = k + 1076 := by omega
    obtain ⟨rfl, hek⟩ := hfe
    have he0 : e ≠ 0 := by omega
    have hlo : ¬ (2 ^ 52 < 0 + 2 ^ 52 ∨ e ≤ 1) := by omega
    simp only [if_neg he0]
    rw [if_neg hlo]
    apply within_of_scaled _ _ _ _ _ (Tk / 2)
    · have : (2 : ℚ) ^ ((e : ℤ) - 1075) = 2 ^ k * 2 := by
        rw [← zpow_add_one₀ (by norm_num)]; congr 1; omega
      rw [this, hTk]
      field_simp
      exact Or.inl (by ring)
    · push_cast at t1 ⊢
      norm_num at t1 ⊢
      linarith
    · push_cast at t2 ⊢
      norm_num at t2 ⊢
      linarith
    · intro hi0
      norm_num at hi0
  · rw [if_neg c1, if_neg c1] at h
    by_cases c2 : M < 2 ^ 52
    · -- a subnormal result: `e = 0`, `f = M` and `k = -1074`
      rw [if_pos c2] at h
      injection h with h
      injection h with h
      have hfe : e = 0 ∧ f = M := by omega
      obtain ⟨rfl, rfl⟩ := hfe
      have hkk : k = -1074 := by
        by_contra hne
        have h52 := hbig (by omega)
        have : 2 ^ 52 ≤ f := by
          apply nat_ge_of_gt_half
          push_cast
          norm_num at h52 ⊢
          linarith
        omega
      have hf0 : 0 < f := by
        by_contra hc
        exact hnz ⟨rfl, by omega⟩
      simp only [if_true]
      rw [if_pos (Or.inr (by norm_num))]
      apply within_of_scaled _ _ _ _ _ Tk
      · rw [hTk, hkk]
        norm_num
      · rw [Nat.cast_sub (by omega)]
        push_cast
        linarith
      · push_cast
        linarith
      · intro hi0
        have hodd : f % 2 = 1 := by
          have := of_decide_eq_false hi0
          omega
        obtain ⟨t4, t5⟩ := t3 hodd
        rw [Nat.cast_sub (by omega)]
        push_cast
        constructor <;> linarith
    · -- a normal result: `e = k + 1075` and `f = M - 2 ^ 52`
      rw [if_neg c2] at h
      split_ifs at h with c3
      injection h with h
      injection h with h
      have hfe : (e : ℤ) = k + 1075 ∧ f + 2 ^ 52 = M := by omega
      obtain ⟨hek, rfl⟩ := hfe
      have he0 : e ≠ 0 := by omega
      simp only [if_neg he0]
      apply within_of_scaled _ _ _ _ _ Tk
      · rw [show ((e : ℤ) - 1075) = k by omega]
      · by_cases hlo : (2 ^ 52 < f + 2 ^ 52 ∨ e ≤ 1)
        · rw [if_pos hlo, Nat.cast_sub (by omega)]
          push_cast at t1 ⊢
          linarith
        · rw [if_neg hlo, Nat.cast_sub (by omega)]
          have h52 := hbig (by omega)
          have hf0 : f = 0 := by omega
          subst hf0
          push_cast
          norm_num at h52 ⊢
          linarith
      · push_cast at t2 ⊢
        linarith
      · intro hi0
        have hodd : (f + 2 ^ 52) % 2 = 1 := by
          have := of_decide_eq_false hi0
          omega
        obtain ⟨t4, t5⟩ := t3 hodd
        have hlo : (2 ^ 52 < f + 2 ^ 52 ∨ e ≤ 1) := by omega
        rw [if_pos hlo, Nat.cast_sub (by omega)]
        push_cast at t4 t5 ⊢
        constructor <;> linarith

theorem roundAt_form (neg : Bool) (N D : ℕ) (hD : 0 < D) (e0 : ℤ)
    (hlog1 : (2 : ℚ) ^ e0 ≤ (N : ℚ) / D) (hlog2 : (N : ℚ) / D < 2 ^ (e0 + 1))
    (x : Float64) (h : roundAt neg N D e0 = some x) :
    ∃ e f : ℕ, e < 2047 ∧ f < 2 ^ 52 ∧ x = ⟨(if neg then 2 ^ 63 else 0) + e * 2 ^ 52 + f⟩ := by
  obtain ⟨k, hk⟩ : ∃ k : ℤ, (if e0 - 52 < -1074 then -1074 else e0 - 52) = k := ⟨_, rfl⟩
  obtain ⟨M, hM⟩ : ∃ M : ℕ, (if 0 ≤ k then roundHalfEven N (D * 2 ^ k.toNat)
      else roundHalfEven (N * 2 ^ (-k).toNat) D) = M := ⟨_, rfl⟩
  rw [roundAt_of neg N D e0 k M hk hM] at h
  obtain ⟨t1, t2, t3⟩ := roundScaled_rat N D hD k M _ rfl hM
  obtain ⟨l1, l2⟩ := scaled_log _ _ e0 k rfl hlog1 hlog2
  have hk1 : -1074 ≤ k ∧ e0 - 52 ≤ k := by
    split_ifs at hk <;> omega
  have hT53 : (N : ℚ) / D / 2 ^ k < (2 : ℚ) ^ (53 : ℤ) :=
    lt_of_lt_of_le l2 (two_zpow_le_of_le _ _ (by omega))
  have hM53 : M ≤ 2 ^ 53 := by
    apply nat_le_of_lt_half
    push_cast
    norm_num at hT53 ⊢
    linarith
  generalize (if neg = true then 2 ^ 63 else 0 : ℕ) = sg at h ⊢
  by_cases c1 : M = 2 ^ 53
  · subst c1
    rw [if_pos rfl, if_neg (by norm_num), if_pos rfl] at h
    by_cases c2 : (2047 : ℤ) ≤ k + 1 + 1075
    · rw [if_pos c2] at h
      cases h
    · rw [if_neg c2] at h
      injection h with h
      exact ⟨(k + 1 + 1075).toNat, 0, by omega, by norm_num, by rw [← h, Nat.sub_self]⟩
  · rw [if_neg c1, if_neg c1] at h
    by_cases c2 : M < 2 ^ 52
    · rw [if_pos c2] at h
      injection h with h
      exact ⟨0, M, by norm_num, c2, by rw [← h]; simp⟩
    · rw [if_neg c2] at h
      by_cases c3 : (2047 : ℤ) ≤ k + 1075
      · rw [if_pos c3] at h
        cases h
      · rw [if_neg c3] at h
        injection h with h
        exact ⟨(k + 1075).toNat, M - 2 ^ 52, by omega, by omega, by rw [← h]⟩

/-- A `float64` that `roundToFloat64` returns, if it is not a zero, holds the number
rounded within its rounding bounds. -/
theorem roundToFloat64_within (neg : Bool) (N D : ℕ) (hD : 0 < D) (x : Float64)
    (hnz : ¬ (x.bits / 2 ^ 52 % 2048 = 0 ∧ x.bits % 2 ^ 52 = 0))
    (h : roundToFloat64 neg N D = some x) :
    withinBounds
      (if 2 ^ 52 < (if x.bits / 2 ^ 52 % 2048 = 0 then x.bits % 2 ^ 52
          else x.bits % 2 ^ 52 + 2 ^ 52) ∨ x.bits / 2 ^ 52 % 2048 ≤ 1
        then 4 * (if x.bits / 2 ^ 52 % 2048 = 0 then x.bits % 2 ^ 52
          else x.bits % 2 ^ 52 + 2 ^ 52) - 2
        else 4 * (if x.bits / 2 ^ 52 % 2048 = 0 then x.bits % 2 ^ 52
          else x.bits % 2 ^ 52 + 2 ^ 52) - 1)
      (4 * (if x.bits / 2 ^ 52 % 2048 = 0 then x.bits % 2 ^ 52
        else x.bits % 2 ^ 52 + 2 ^ 52) + 2)
      ((if x.bits / 2 ^ 52 % 2048 = 0 then 1 else ((x.bits / 2 ^ 52 % 2048 : ℕ) : ℤ)) - 1075 - 2)
      (decide ((if x.bits / 2 ^ 52 % 2048 = 0 then x.bits % 2 ^ 52
        else x.bits % 2 ^ 52 + 2 ^ 52) % 2 = 0))
      ((N : ℚ) / D) := by
  rw [roundToFloat64_eq] at h
  by_cases hN : N = 0
  · rw [if_pos hN] at h
    injection h with h
    exfalso
    apply hnz
    rw [← h]
    cases neg <;> simp
  · rw [if_neg hN] at h
    obtain ⟨g1, g2⟩ := floorLog2_spec N D (by omega) hD
    obtain ⟨e, f, he, hf, hx⟩ := roundAt_form neg N D hD _ g1 g2 x h
    have hbits : x.bits / 2 ^ 52 % 2048 = e ∧ x.bits % 2 ^ 52 = f := by
      rw [hx]
      cases neg
      · simp only [Bool.false_eq_true, if_false]
        omega
      · simp only [if_true]
        omega
    rw [hbits.1, hbits.2] at hnz ⊢
    rw [hx] at h
    exact roundAt_within neg N D hD _ g1 g2 e f he hf hnz h

theorem shortestAt_some_of_within (mant : ℕ) (e2 : ℤ) (lo hi : ℕ) (inclusive : Bool) (p : ℤ)
    (n : ℕ) (h : withinBounds lo hi (e2 - 2) inclusive ((n : ℚ) * 10 ^ p)) :
    shortestAt mant e2 lo hi inclusive p ≠ none := by
  obtain ⟨fl, fu⟩ := decimalFloor_spec mant e2 p
  obtain ⟨a, b, c⟩ := h
  have hp10 : (0 : ℚ) < 10 ^ p := zpow_pos (by norm_num) _
  have key : (decimalLtDyadic (decimalFloor mant e2 p) p lo (e2 - 2) = false ∧
      (inclusive = true ∨ dyadicLtDecimal lo (e2 - 2) (decimalFloor mant e2 p) p = true)) ∨
      (dyadicLtDecimal hi (e2 - 2) (decimalFloor mant e2 p + 1) p = false ∧
      (inclusive = true ∨ decimalLtDyadic (decimalFloor mant e2 p + 1) p hi (e2 - 2) = true)) := by
    by_cases hn : n ≤ decimalFloor mant e2 p
    · left
      have hle : (n : ℚ) * 10 ^ p ≤ (decimalFloor mant e2 p : ℚ) * 10 ^ p :=
        mul_le_mul_of_nonneg_right (by exact_mod_cast hn) hp10.le
      constructor
      · rw [Bool.eq_false_iff]
        intro hc
        have := (decimalLtDyadic_iff _ _ _ _).mp hc
        linarith
      · cases hi0 : inclusive with
        | true => exact Or.inl rfl
        | false =>
          right
          rw [dyadicLtDecimal_iff]
          have := (c hi0).1
          linarith
    · right
      have hn1 : decimalFloor mant e2 p + 1 ≤ n := by omega
      have hle : ((decimalFloor mant e2 p + 1 : ℕ) : ℚ) * 10 ^ p ≤ (n : ℚ) * 10 ^ p :=
        mul_le_mul_of_nonneg_right (by exact_mod_cast hn1) hp10.le
      constructor
      · rw [Bool.eq_false_iff]
        intro hc
        have := (dyadicLtDecimal_iff _ _ _ _).mp hc
        linarith
      · cases hi0 : inclusive with
        | true => exact Or.inl rfl
        | false =>
          right
          rw [decimalLtDyadic_iff]
          have := (c hi0).2
          linarith
  unfold shortestAt
  simp only
  split_ifs with c1 c2 c3 <;> first | exact Option.some_ne_none _ | (exfalso; tauto)

theorem shortestFrom_minimal (mant : ℕ) (e2 : ℤ) (lo hi : ℕ) (inclusive : Bool) (fuel : ℕ) :
    ∀ (p p2 : ℤ) (n : ℕ), (shortestFrom mant e2 lo hi inclusive fuel p).2 < p2 → p2 ≤ p →
      ¬ withinBounds lo hi (e2 - 2) inclusive ((n : ℚ) * 10 ^ p2) := by
  induction fuel with
  | zero =>
    intro p p2 n h1 h2
    simp only [shortestFrom] at h1
    omega
  | succ fuel ih =>
    intro p p2 n h1 h2
    simp only [shortestFrom] at h1
    cases hs : shortestAt mant e2 lo hi inclusive p with
    | some c =>
      rw [hs] at h1
      simp only at h1
      omega
    | none =>
      rw [hs] at h1
      simp only at h1
      by_cases hp : p2 = p
      · subst hp
        intro hw
        exact shortestAt_some_of_within mant e2 lo hi inclusive p2 n hw hs
      · exact ih (p - 1) p2 n h1 (by omega)

theorem digitFold_lt (ds : List Char) (hd : ∀ c ∈ ds, isDigit c = true) :
    ∀ a : ℕ, ds.foldl (fun acc c => 10 * acc + digitVal c) a < (a + 1) * 10 ^ ds.length := by
  induction ds with
  | nil => intro a; simp
  | cons c ds ih =>
    intro a
    have hc : digitVal c ≤ 9 := by
      have h := hd c (List.mem_cons_self _ _)
      unfold isDigit at h
      simp only [Bool.and_eq_true, decide_eq_true_eq] at h
      have h2 : c.toNat ≤ '9'.toNat := h.2
      unfold digitVal
      have : '9'.toNat = 57 := by decide
      omega
    have := ih (fun x hx => hd x (List.mem_cons_of_mem _ hx)) (10 * a + digitVal c)
    simp only [List.foldl_cons, List.length_cons, pow_succ]
    calc List.foldl (fun acc c => 10 * acc + digitVal c) (10 * a + digitVal c) ds
        < (10 * a + digitVal c + 1) * 10 ^ ds.length := this
      _ ≤ (10 * a + 10) * 10 ^ ds.length := Nat.mul_le_mul_right _ (by omega)
      _ = (a + 1) * (10 ^ ds.length * 10) := by ring

theorem natDigits_bound (n : ℕ) : n < 10 ^ (natDigits n).length := by
  obtain ⟨_, hd, hv⟩ := natDigits_spec n
  have := digitFold_lt (natDigits n) hd 0
  unfold digitsVal at hv
  rw [hv] at this
  simpa using this

theorem trimZeros_exp (fuel : ℕ) : ∀ (q : ℕ) (p : ℤ), p ≤ (trimZeros fuel q p).2 := by
  induction fuel with
  | zero => intro q p; simp [trimZeros]
  | succ fuel ih =>
    intro q p
    simp only [trimZeros]
    split_ifs
    · have := ih (q / 10) (p + 1)
      omega
    · simp

theorem above_top (lo hi : ℕ) (s : ℤ) (inclusive : Bool) (hlo : 0 < lo) (p2 : ℤ) (n : ℕ)
    (hp : ((natDigits (decimalFloor hi s 0)).length : ℤ) < p2) :
    ¬ withinBounds lo hi s inclusive ((n : ℚ) * 10 ^ p2) := by
  intro hw
  have hpos := withinBounds_pos lo hi s inclusive _ hlo hw
  have hn : 1 ≤ n := by
    by_contra hc
    have : n = 0 := by omega
    rw [this] at hpos
    simp at hpos
  obtain ⟨_, fu⟩ := decimalFloor_spec hi s 0
  rw [zpow_zero, mul_one] at fu
  have hb := natDigits_bound (decimalFloor hi s 0)
  set L := (natDigits (decimalFloor hi s 0)).length with hL
  have h1 : ((decimalFloor hi s 0 + 1 : ℕ) : ℚ) ≤ ((10 ^ L : ℕ) : ℚ) := by
    exact_mod_cast hb
  have h2 : ((10 ^ L : ℕ) : ℚ) ≤ (10 : ℚ) ^ p2 := by
    push_cast
    rw [← zpow_natCast]
    exact zpow_le_zpow_right₀ (by norm_num) (by omega)
  have h3 : (10 : ℚ) ^ p2 ≤ (n : ℚ) * 10 ^ p2 := by
    have : (1 : ℚ) ≤ n := by exact_mod_cast hn
    have hp10 : (0 : ℚ) < 10 ^ p2 := zpow_pos (by norm_num) _
    nlinarith
  have := hw.2.1
  linarith

/-- No decimal with its last digit at a higher position than the one `shortestDecimal` finds
lies within the rounding bounds of the `float64`. -/
theorem shortestDecimal_minimal (e f : ℕ) (hnz : ¬ (e = 0 ∧ f = 0)) (p2 : ℤ) (n : ℕ)
    (hp : (shortestDecimal e f).2 < p2) :
    ¬ withinBounds
      (if 2 ^ 52 < (if e = 0 then f else f + 2 ^ 52) ∨ e ≤ 1
        then 4 * (if e = 0 then f else f + 2 ^ 52) - 2
        else 4 * (if e = 0 then f else f + 2 ^ 52) - 1)
      (4 * (if e = 0 then f else f + 2 ^ 52) + 2)
      ((if e = 0 then 1 else (e : ℤ)) - 1075 - 2)
      (decide ((if e = 0 then f else f + 2 ^ 52) % 2 = 0))
      ((n : ℚ) * 10 ^ p2) := by
  set mant := if e = 0 then f else f + 2 ^ 52 with hmant
  set e2 : ℤ := (if e = 0 then 1 else (e : ℤ)) - 1075 with he2
  set lo := if 2 ^ 52 < mant ∨ e ≤ 1 then 4 * mant - 2 else 4 * mant - 1 with hlo
  have hm : 0 < mant := by
    rw [hmant]
    split_ifs with h0
    · omega
    · positivity
  have hlo0 : 0 < lo := by
    rw [hlo]
    split_ifs <;> omega
  set top := (natDigits (decimalFloor (4 * mant + 2) (e2 - 2) 0)).length with htop
  by_cases hc : (top : ℤ) < p2
  · exact above_top lo (4 * mant + 2) (e2 - 2) _ hlo0 p2 n hc
  · have hr : (shortestFrom mant e2 lo (4 * mant + 2) (decide (mant % 2 = 0))
        ((top : ℤ) - (if e2 < 0 then e2 else 0)).toNat (top : ℤ)).2 < p2 := by
      have ht := trimZeros_exp
        (shortestFrom mant e2 lo (4 * mant + 2) (decide (mant % 2 = 0))
          ((top : ℤ) - (if e2 < 0 then e2 else 0)).toNat (top : ℤ)).1
        (shortestFrom mant e2 lo (4 * mant + 2) (decide (mant % 2 = 0))
          ((top : ℤ) - (if e2 < 0 then e2 else 0)).toNat (top : ℤ)).1
        (shortestFrom mant e2 lo (4 * mant + 2) (decide (mant % 2 = 0))
          ((top : ℤ) - (if e2 < 0 then e2 else 0)).toNat (top : ℤ)).2
      have hp2 : (shortestDecimal e f).2 = (trimZeros
        (shortestFrom mant e2 lo (4 * mant + 2) (decide (mant % 2 = 0))
          ((top : ℤ) - (if e2 < 0 then e2 else 0)).toNat (top : ℤ)).1
        (shortestFrom mant e2 lo (4 * mant + 2) (decide (mant % 2 = 0))
          ((top : ℤ) - (if e2 < 0 then e2 else 0)).toNat (top : ℤ)).1
        (shortestFrom mant e2 lo (4 * mant + 2) (decide (mant % 2 = 0))
          ((top : ℤ) - (if e2 < 0 then e2 else 0)).toNat (top : ℤ)).2).2 := rfl
      rw [hp2] at hp
      omega
    exact shortestFrom_minimal mant e2 lo (4 * mant + 2) _ _ _ p2 n hr (by omega)

theorem ParseFloat_fixedPoint (neg : Bool) (w fr : List Char) (hw : w ≠ [])
    (hd : ∀ c ∈ w, isDigit c = true) (hfd : ∀ c ∈ fr, isDigit c = true) :
    ParseFloat (fixedPoint neg w fr)
      = roundToFloat64 neg (digitsVal (w ++ fr)) (10 ^ fr.length) := by
  unfold fixedPoint ParseFloat
  by_cases hfr : fr = []
  · subst hfr
    simp only [if_true, List.append_nil]
    rw [readDecimal_whole neg w hw hd]
    simp
  · rw [if_neg hfr, List.append_assoc, readDecimal_frac neg w fr hw hd hfr hfd]
    have hl : 0 < fr.length := List.length_pos.mpr hfr
    have h1 : ¬ (0 : ℤ) ≤ 0 - (fr.length : ℤ) := by omega
    simp only [h1, if_false]
    have e1 : (-(0 - (fr.length : ℤ))).toNat = fr.length := by omega
    rw [e1]

theorem natDigits_last (n : ℕ) : (natDigits n).getLast? = some (digitChar n) := by
  unfold natDigits
  simp only [natDigitsAux]
  by_cases h : n < 10
  · rw [if_pos h]
    rfl
  · rw [if_neg h]
    obtain ⟨ds, e, _⟩ := natDigitsAux_spec n (n / 10) [digitChar n] (by omega)
    rw [e]
    simp

theorem digitChar_ne_zero (n : ℕ) (h : n % 10 ≠ 0) : digitChar n ≠ '0' := by
  intro hc
  have := digitVal_digitChar n
  rw [hc] at this
  have h0 : digitVal '0' = 0 := by decide
  omega

theorem fmtF_fixedPoint (neg : Bool) (q : ℕ) (p : ℤ) (hq : q % 10 ≠ 0) :
    ∃ w fr : List Char, w ≠ [] ∧ (∀ c ∈ w, isDigit c = true) ∧ (∀ c ∈ fr, isDigit c = true) ∧
      fr.length = (-p).toNat ∧ fr.getLast? ≠ some '0' ∧
      String.mk (fmtF neg q p) = fixedPoint neg w fr := by
  obtain ⟨hne, hdig, hval⟩ := natDigits_spec q
  by_cases hp : 0 ≤ p
  · refine ⟨natDigits q ++ List.replicate p.toNat '0', [], by simp [hne], ?_, by simp, ?_,
      by simp, ?_⟩
    · intro c hc
      simp only [List.mem_append, List.mem_replicate] at hc
      rcases hc with hc | ⟨_, hc⟩
      · exact hdig c hc
      · subst hc
        decide
    · simp only [List.length_nil]
      omega
    · rw [fmtF_nonneg neg q p hp]
      simp [fixedPoint]
  · obtain ⟨w, fr, hw, hwd, hlen, hfd, _, hf, hlast⟩ := fmtF_neg neg q p (by omega)
    have hfr : fr ≠ [] := by
      intro hc
      rw [hc] at hlen
      simp at hlen
      omega
    refine ⟨w, fr, hw, hwd, hfd, hlen, ?_, ?_⟩
    · rw [hlast, natDigits_last]
      intro hc
      injection hc with hc
      exact digitChar_ne_zero q hq hc
    · rw [hf]
      simp [fixedPoint, hfr]

/-- What `FormatFloat` writes for a finite `float64` is its shortest fixed-point decimal. -/
theorem FormatFloat_shortest (x : Float64) (hx : x.isFinite = true) :
    isShortestFixedPoint x (FormatFloat x) := by
  unfold Float64.isFinite at hx
  simp only [Bool.and_eq_true, decide_eq_true_eq] at hx
  obtain ⟨hb, hfin⟩ := hx
  have hrt := ParseFloat_FormatFloat x hb hfin
  by_cases hz : x.bits % 2 ^ 52 = 0 ∧ x.bits / 2 ^ 52 % 2048 = 0
  · have hs : FormatFloat x = fixedPoint (decide (x.bits / 2 ^ 63 % 2 = 1)) ['0'] [] := by
      unfold FormatFloat fixedPoint
      simp only
      rw [if_neg hfin, if_pos hz]
      simp
    refine ⟨decide (x.bits / 2 ^ 63 % 2 = 1), ['0'], [], hs, by simp, ?_, by simp, by simp,
      hrt, ?_⟩
    · intro c hc
      simp only [List.mem_singleton] at hc
      subst hc
      decide
    · intro neg2 w2 fr2 _ _ _ hl
      simp at hl
  · have hnz : ¬ (x.bits / 2 ^ 52 % 2048 = 0 ∧ x.bits % 2 ^ 52 = 0) := by tauto
    obtain ⟨hq, hq10, _⟩ := shortestDecimal_within (x.bits / 2 ^ 52 % 2048) (x.bits % 2 ^ 52) hnz
    obtain ⟨w, fr, hw, hwd, hfd, hlen, hlast, hf⟩ :=
      fmtF_fixedPoint (decide (x.bits / 2 ^ 63 % 2 = 1))
        (shortestDecimal (x.bits / 2 ^ 52 % 2048) (x.bits % 2 ^ 52)).1
        (shortestDecimal (x.bits / 2 ^ 52 % 2048) (x.bits % 2 ^ 52)).2 hq10
    have hs : FormatFloat x = fixedPoint (decide (x.bits / 2 ^ 63 % 2 = 1)) w fr := by
      rw [← hf]
      unfold FormatFloat
      simp only
      rw [if_neg hfin, if_neg hz]
    refine ⟨_, w, fr, hs, hw, hwd, hfd, hlast, hrt, ?_⟩
    intro neg2 w2 fr2 hw2 hwd2 hfd2 hl hc
    rw [ParseFloat_fixedPoint neg2 w2 fr2 hw2 hwd2 hfd2] at hc
    have hwi := roundToFloat64_within neg2 _ _ (by positivity) x hnz hc
    have hv : ((digitsVal (w2 ++ fr2) : ℕ) : ℚ) / ((10 ^ fr2.length : ℕ) : ℚ)
        = ((digitsVal (w2 ++ fr2) : ℕ) : ℚ) * 10 ^ (-(fr2.length : ℤ)) := by
      rw [zpow_neg, zpow_natCast]
      push_cast
      rw [div_eq_mul_inv]
    rw [hv] at hwi
    exact shortestDecimal_minimal _ _ hnz (-(fr2.length : ℤ)) _ (by omega) hwi

/-! ## Theorems: reading back the text of a formatted time -/

theorem isLeap_iff (y : Int) :
    isLeap y = true ↔ y % 4 = 0 ∧ (y % 100 ≠ 0 ∨ y % 400 = 0) := by
  simp [isLeap]

/-- The cycles that `absDate` cuts off: the year it finds and the day within that year. -/
theorem absDate_cycles (days b c d e f g year yday : Int)
    (hb : days / 146097 = b) (hc : (days - 146097 * b) / 36524 = c) (hd : c / 4 = d)
    (he : (days - 146097 * b - 36524 * (c - d)) / 1461 = e)
    (hf : (days - 146097 * b - 36524 * (c - d) - 1461 * e) / 365 = f) (hg : f / 4 = g)
    (hyear : 400 * b + 100 * (c - d) + 4 * e + (f - g) + 1 = year)
    (hyday : days - 146097 * b - 36524 * (c - d) - 1461 * e - 365 * (f - g) = yday) :
    0 ≤ yday ∧ (yday ≤ 364 ∨ (yday = 365 ∧ isLeap year = true)) ∧
      daysSinceYear1 year + yday = days ∧ (0 ≤ days ↔ 1 ≤ year) := by
  have b1 : 0 ≤ days - 146097 * b ∧ days - 146097 * b ≤ 146096 := by omega
  have c1 : 0 ≤ c ∧ c ≤ 4 := by omega
  have c2 : c = 4 → days - 146097 * b = 146096 := by omega
  have d1 : (c ≤ 3 → d = 0) ∧ (c = 4 → d = 1) := by omega
  have d2 : 0 ≤ days - 146097 * b - 36524 * (c - d) ∧
      days - 146097 * b - 36524 * (c - d) ≤ 36524 := by omega
  have d3 : days - 146097 * b - 36524 * (c - d) = 36524 → c - d = 3 := by omega
  have n100 : 0 ≤ c - d ∧ c - d ≤ 3 := by omega
  have e1 : 0 ≤ e ∧ e ≤ 24 := by omega
  have e2 : 0 ≤ days - 146097 * b - 36524 * (c - d) - 1461 * e ∧
      days - 146097 * b - 36524 * (c - d) - 1461 * e ≤ 1460 := by omega
  have e3 : e = 24 → days - 146097 * b - 36524 * (c - d) - 1461 * e = 1460 → c - d = 3 := by
    omega
  have f1 : 0 ≤ f ∧ f ≤ 4 := by omega
  have f2 : f = 4 → days - 146097 * b - 36524 * (c - d) - 1461 * e = 1460 := by omega
  have g1 : (f ≤ 3 → g = 0) ∧ (f = 4 → g = 1) := by omega
  have n1 : 0 ≤ f - g ∧ f - g ≤ 3 := by omega
  have y1 : 0 ≤ yday ∧ yday ≤ 365 := by omega
  have y2 : yday = 365 → f - g = 3 ∧ (e = 24 → c - d = 3) := by omega
  have q4 : (year - 1) / 4 = 100 * b + 25 * (c - d) + e := by omega
  have q100 : (year - 1) / 100 = 4 * b + (c - d) := by omega
  have q400 : (year - 1) / 400 = b := by omega
  refine ⟨y1.1, ?_, ?_, ?_⟩
  · by_cases h365 : yday = 365
    · right
      refine ⟨h365, ?_⟩
      rw [isLeap_iff]
      obtain ⟨k1, k2⟩ := y2 h365
      constructor
      · omega
      · by_cases h24 : e = 24
        · right
          have := k2 h24
          omega
        · left
          omega
    · left
      omega
  · unfold daysSinceYear1
    rw [q4, q100, q400]
    omega
  · constructor <;> intro h <;> omega

theorem daysBefore_values :
    daysBefore 0 = 0 ∧ daysBefore 1 = 31 ∧ daysBefore 2 = 59 ∧ daysBefore 3 = 90 ∧
    daysBefore 4 = 120 ∧ daysBefore 5 = 151 ∧ daysBefore 6 = 181 ∧ daysBefore 7 = 212 ∧
    daysBefore 8 = 243 ∧ daysBefore 9 = 273 ∧ daysBefore 10 = 304 ∧ daysBefore 11 = 334 ∧
    daysBefore 12 = 365 := by
  decide

theorem absDate_month_case (year yday day : Int) (k : ℕ) (hk1 : 1 ≤ k) (hk2 : k ≤ 12)
    (hb : daysBefore (k - 1) ≤ day) (he : day < daysBefore k)
    (hleapday : (isLeap year = true ∧ 59 ≤ day ∧ day + 1 = yday) ∨
        (isLeap year = true ∧ day < 59 ∧ day = yday) ∨ (¬ isLeap year = true ∧ day = yday)) :
    1 ≤ day - daysBefore (k - 1) + 1 ∧ day - daysBefore (k - 1) + 1 ≤ daysIn k year ∧
      daysBefore (k - 1) + (if isLeap year = true ∧ 3 ≤ k then 1 else 0)
        + (day - daysBefore (k - 1) + 1 - 1) = yday := by
  obtain ⟨v0, v1, v2, v3, v4, v5, v6, v7, v8, v9, v10, v11, v12⟩ := daysBefore_values
  interval_cases k <;>
    simp only [Nat.reduceSub, v0, v1, v2, v3, v4, v5, v6, v7, v8, v9, v10, v11, v12] at hb he ⊢ <;>
    rcases hleapday with hh | hh | hh <;>
    simp [daysIn, hh.1, v0, v1, v2, v3, v4, v5, v6, v7, v8, v9, v10, v11, v12] <;> omega

/-- The month and the day of the month that `absDate` finds for the day `yday` of a year. -/
theorem absDate_month_day (year yday : Int) (h0 : 0 ≤ yday)
    (h1 : yday ≤ 364 ∨ (yday = 365 ∧ isLeap year = true)) :
    ∃ mo d : ℕ,
      (if isLeap year = true ∧ yday = 31 + 29 - 1 then (year, (2 : Int), (29 : Int))
        else
          let day := if isLeap year = true ∧ 31 + 29 - 1 < yday then yday - 1 else yday
          let month := day / 31
          let pastEnd := daysBefore (month.toNat + 1) ≤ day
          let begin := if pastEnd then daysBefore (month.toNat + 1) else daysBefore month.toNat
          ((year, (if pastEnd then month + 1 else month) + 1, day - begin + 1)))
        = (year, (mo : Int), (d : Int)) ∧
      1 ≤ mo ∧ mo ≤ 12 ∧ 1 ≤ d ∧ (d : Int) ≤ daysIn mo year ∧
      daysBefore (mo - 1) + (if isLeap year = true ∧ 3 ≤ mo then 1 else 0) + ((d : Int) - 1)
        = yday := by
  obtain ⟨v0, v1, v2, v3, v4, v5, v6, v7, v8, v9, v10, v11, v12⟩ := daysBefore_values
  by_cases hfeb : isLeap year = true ∧ yday = 31 + 29 - 1
  · refine ⟨2, 29, ?_, by norm_num, by norm_num, by norm_num, ?_, ?_⟩
    · rw [if_pos hfeb]
      rfl
    · simp [daysIn, hfeb.1]
    · simp [v1, hfeb.2]
  · rw [if_neg hfeb]
    simp only []
    generalize hday : (if isLeap year = true ∧ 31 + 29 - 1 < yday then yday - 1 else yday) = day
    have hd0 : 0 ≤ day ∧ day ≤ 364 := by
      rw [← hday]
      split_ifs with hc
      · omega
      · rcases h1 with h1 | h1
        · omega
        · exfalso
          exact hc ⟨h1.2, by omega⟩
    have hleapday : (isLeap year = true ∧ 59 ≤ day ∧ day + 1 = yday) ∨
        (isLeap year = true ∧ day < 59 ∧ day = yday) ∨ (¬ isLeap year = true ∧ day = yday) := by
      rw [← hday]
      by_cases hl : isLeap year = true
      · by_cases hy : 31 + 29 - 1 < yday
        · rw [if_pos ⟨hl, hy⟩]
          left
          exact ⟨hl, by omega, by omega⟩
        · rw [if_neg (fun hc => hy hc.2)]
          right; left
          refine ⟨hl, ?_, rfl⟩
          by_contra hc
          exact hfeb ⟨hl, by omega⟩
      · rw [if_neg (fun hc => hl hc.1)]
        exact Or.inr (Or.inr ⟨hl, rfl⟩)
    generalize hm : day / 31 = m
    have hm0 : 0 ≤ m ∧ m ≤ 11 := by omega
    obtain ⟨hm1, hm2⟩ := hm0
    interval_cases m
    · have t0 : Int.toNat 0 = 0 := rfl
      simp only [t0, Nat.reduceAdd]
      by_cases hp : daysBefore 1 ≤ day
      · rw [if_pos hp, if_pos hp]
        have hlt : day < daysBefore 2 := by
          rw [v2]
          omega
        obtain ⟨a1, a2, a3⟩ := absDate_month_case year yday day 2 (by norm_num) (by norm_num)
          (by simpa using hp) hlt hleapday
        simp only [Nat.add_one_sub_one, Nat.reduceSub] at a1 a2 a3
        refine ⟨2, (day - daysBefore 1 + 1).toNat, ?_, by norm_num, by norm_num, by omega, ?_, ?_⟩
        · simp only [Prod.mk.injEq, true_and]
          constructor
          · norm_num
          · omega
        · rw [Int.toNat_of_nonneg (by omega)]
          exact_mod_cast a2
        · rw [Int.toNat_of_nonneg (by omega)]
          simpa using a3
      · rw [if_neg hp, if_neg hp]
        have hge : daysBefore 0 ≤ day := by
          rw [v0]
          omega
        obtain ⟨a1, a2, a3⟩ := absDate_month_case year yday day 1 (by norm_num) (by norm_num)
          (by simpa using hge) (by omega) hleapday
        simp only [Nat.add_one_sub_one, Nat.reduceSub] at a1 a2 a3
        refine ⟨1, (day - daysBefore 0 + 1).toNat, ?_, by norm_num, by norm_num, by omega, ?_, ?_⟩
        · simp only [Prod.mk.injEq, true_and]
          constructor
          · norm_num
          · omega
        · rw [Int.toNat_of_nonneg (by omega)]
          exact_mod_cast a2
        · rw [Int.toNat_of_nonneg (by omega)]
          simpa using a3
    · have t0 : Int.toNat 1 = 1 := rfl
      simp only [t0, Nat.reduceAdd]
      by_cases hp : daysBefore 2 ≤ day
      · rw [if_pos hp, if_pos hp]
        have hlt : day < daysBefore 3 := by
          rw [v3]
          omega
        obtain ⟨a1, a2, a3⟩ := absDate_month_case year yday day 3 (by norm_num) (by norm_num)
          (by simpa using hp) hlt hleapday
        simp only [Nat.add_one_sub_one, Nat.reduceSub] at a1 a2 a3
        refine ⟨3, (day - daysBefore 2 + 1).toNat, ?_, by norm_num, by norm_num, by omega, ?_, ?_⟩
        · simp only [Prod.mk.injEq, true_and]
          constructor
          · norm_num
          · omega
        · rw [Int.toNat_of_nonneg (by omega)]
          exact_mod_cast a2
        · rw [Int.toNat_of_nonneg (by omega)]
          simpa using a3
      · rw [if_neg hp, if_neg hp]
        have hge : daysBefore 1 ≤ day := by
          rw [v1]
          omega
        obtain ⟨a1, a2, a3⟩ := absDate_month_case year yday day 2 (by norm_num) (by norm_num)
          (by simpa using hge) (by omega) hleapday
        simp only [Nat.add_one_sub_one, Nat.reduceSub] at a1 a2 a3
        refine ⟨2, (day - daysBefore 1 + 1).toNat, ?_, by norm_num, by norm_num, by omega, ?_, ?_⟩
        · simp only [Prod.mk.injEq, true_and]
          constructor
          · norm_num
          · omega
        · rw [Int.toNat_of_nonneg (by omega)]
          exact_mod_cast a2
        · rw [Int.toNat_of_nonneg (by omega)]
          simpa using a3
    · have t0 : Int.toNat 2 = 2 := rfl
      simp only [t0, Nat.reduceAdd]
      by_cases hp : daysBefore 3 ≤ day
      · rw [if_pos hp, if_pos hp]
        have hlt : day < daysBefore 4 := by
          rw [v4]
          omega
        obtain ⟨a1, a2, a3⟩ := absDate_month_case year yday day 4 (by norm_num) (by norm_num)
          (by simpa using hp) hlt hleapday
        simp only [Nat.add_one_sub_one, Nat.reduceSub] at a1 a2 a3
        refine ⟨4, (day - daysBefore 3 + 1).toNat, ?_, by norm_num, by norm_num, by omega, ?_, ?_⟩
        · simp only [Prod.mk.injEq, true_and]
          constructor
          · norm_num
          · omega
        · rw [Int.toNat_of_nonneg (by omega)]
          exact_mod_cast a2
        · rw [Int.toNat_of_nonneg (by omega)]
          simpa using a3
      · rw [if_neg hp, if_neg hp]
        have hge : daysBefore 2 ≤ day := by
          rw [v2]
          omega
        obtain ⟨a1, a2, a3⟩ := absDate_month_case year yday day 3 (by norm_num) (by norm_num)
          (by simpa using hge) (by omega) hleapday
        simp only [Nat.add_one_sub_one, Nat.reduceSub] at a1 a2 a3
        refine ⟨3, (day - daysBefore 2 + 1).toNat, ?_, by norm_num, by norm_num, by omega, ?_, ?_⟩
        · simp only [Prod.mk.injEq, true_and]
          constructor
          · norm_num
          · omega
        · rw [Int.toNat_of_nonneg (by omega)]
          exact_mod_cast a2
        · rw [Int.toNat_of_nonneg (by omega)]
          simpa using a3
    · have t0 : Int.toNat 3 = 3 := rfl
      simp only [t0, Nat.reduceAdd]
      by_cases hp : daysBefore 4 ≤ day
      · rw [if_pos hp, if_pos hp]
        have hlt : day < daysBefore 5 := by
          rw [v5]
          omega
        obtain ⟨a1, a2, a3⟩ := absDate_month_case year yday day 5 (by norm_num) (by norm_num)
          (by simpa using hp) hlt hleapday
        simp only [Nat.add_one_sub_one, Nat.reduceSub] at a1 a2 a3
        refine ⟨5, (day - daysBefore 4 + 1).toNat, ?_, by norm_num, by norm_num, by omega, ?_, ?_⟩
        · simp only [Prod.mk.injEq, true_and]
          constructor
          · norm_num
          · omega
        · rw [Int.toNat_of_nonneg (by omega)]
          exact_mod_cast a2
        · rw [Int.toNat_of_nonneg (by omega)]
          simpa using a3
      · rw [if_neg hp, if_neg hp]
        have hge : daysBefore 3 ≤ day := by
          rw [v3]
          omega
        obtain ⟨a1, a2, a3⟩ := absDate_month_case year yday day 4 (by norm_num) (by norm_num)
          (by simpa using hge) (by omega) hleapday
        simp only [Nat.add_one_sub_one, Nat.reduceSub] at a1 a2 a3
        refine ⟨4, (day - daysBefore 3 + 1).toNat, ?_, by norm_num, by norm_num, by omega, ?_, ?_⟩
        · simp only [Prod.mk.injEq, true_and]
          constructor
          · norm_num
          · omega
        · rw [Int.toNat_of_nonneg (by omega)]
          exact_mod_cast a2
        · rw [Int.toNat_of_nonneg (by omega)]
          simpa using a3
    · have t0 : Int.toNat 4 = 4 := rfl
      simp only [t0, Nat.reduceAdd]
      by_cases hp : daysBefore 5 ≤ day
      · rw [if_pos hp, if_pos hp]
        have hlt : day < daysBefore 6 := by
          rw [v6]
          omega
        obtain ⟨a1, a2, a3⟩ := absDate_month_case year yday day 6 (by norm_num) (by norm_num)
          (by simpa using hp) hlt hleapday
        simp only [Nat.add_one_sub_one, Nat.reduceSub] at a1 a2 a3
        refine ⟨6, (day - daysBefore 5 + 1).toNat, ?_, by norm_num, by norm_num, by omega, ?_, ?_⟩
        · simp only [Prod.mk.injEq, true_and]
          constructor
          · norm_num
          · omega
        · rw [Int.toNat_of_nonneg (by omega)]
          exact_mod_cast a2
        · rw [Int.toNat_of_nonneg (by omega)]
          simpa using a3
      · rw [if_neg hp, if_neg hp]
        have hge : daysBefore 4 ≤ day := by
          rw [v4]
          omega
        obtain ⟨a1, a2, a3⟩ := absDate_month_case year yday day 5 (by norm_num) (by norm_num)
          (by simpa using hge) (by omega) hleapday
        simp only [Nat.add_one_sub_one, Nat.reduceSub] at a1 a2 a3
        refine ⟨5, (day - daysBefore 4 + 1).toNat, ?_, by norm_num, by norm_num, by omega, ?_, ?_⟩
        · simp only [Prod.mk.injEq, true_and]
          constructor
          · norm_num
          · omega
        · rw [Int.toNat_of_nonneg (by omega)]
          exact_mod_cast a2
        · rw [Int.toNat_of_nonneg (by omega)]
          simpa using a3
    · have t0 : Int.toNat 5 = 5 := rfl
      simp only [t0, Nat.reduceAdd]
      by_cases hp : daysBefore 6 ≤ day
      · rw [if_pos hp, if_pos hp]
        have hlt : day < daysBefore 7 := by
          rw [v7]
          omega
        obtain ⟨a1, a2, a3⟩ := absDate_month_case year yday day 7 (by norm_num) (by norm_num)
          (by simpa using hp) hlt hleapday
        simp only [Nat.add_one_sub_one, Nat.reduceSub] at a1 a2 a3
        refine ⟨7, (day - daysBefore 6 + 1).toNat, ?_, by norm_num, by norm_num, by omega, ?_, ?_⟩
        · simp only [Prod.mk.injEq, true_and]
          constructor
          · norm_num
          · omega
        · rw [Int.toNat_of_nonneg (by omega)]
          exact_mod_cast a2
        · rw [Int.toNat_of_nonneg (by omega)]
          simpa using a3
      · rw [if_neg hp, if_neg hp]
        have hge : daysBefore 5 ≤ day := by
          rw [v5]
          omega
        obtain ⟨a1, a2, a3⟩ := absDate_month_case year yday day 6 (by norm_num) (by norm_num)
          (by simpa using hge) (by omega) hleapday
        simp only [Nat.add_one_sub_one, Nat.reduceSub] at a1 a2 a3
        refine ⟨6, (day - daysBefore 5 + 1).toNat, ?_, by norm_num, by norm_num, by omega, ?_, ?_⟩
        · simp only [Prod.mk.injEq, true_and]
          constructor
          · norm_num
          · omega
        · rw [Int.toNat_of_nonneg (by omega)]
          exact_mod_cast a2
        · rw [Int.toNat_of_nonneg (by omega)]
          simpa using a3
    · have t0 : Int.toNat 6 = 6 := rfl
      simp only [t0, Nat.reduceAdd]
      by_cases hp : daysBefore 7 ≤ day
      · rw [if_pos hp, if_pos hp]
        have hlt : day < daysBefore 8 := by
          rw [v8]
          omega
        obtain ⟨a1, a2, a3⟩ := absDate_month_case year yday day 8 (by norm_num) (by norm_num)
          (by simpa using hp) hlt hleapday
        simp only [Nat.add_one_sub_one, Nat.reduceSub] at a1 a2 a3
        refine ⟨8, (day - daysBefore 7 + 1).toNat, ?_, by norm_num, by norm_num, by omega, ?_, ?_⟩
        · simp only [Prod.mk.injEq, true_and]
          constructor
          · norm_num
          · omega
        · rw [Int.toNat_of_nonneg (by omega)]
          exact_mod_cast a2
        · rw [Int.toNat_of_nonneg (by omega)]
          simpa using a3
      · rw [if_neg hp, if_neg hp]
        have hge : daysBefore 6 ≤ day := by
          rw [v6]
          omega
        obtain ⟨a1, a2, a3⟩ := absDate_month_case year yday day 7 (by norm_num) (by norm_num)
          (by simpa using hge) (by omega) hleapday
        simp only [Nat.add_one_sub_one, Nat.reduceSub] at a1 a2 a3
        refine ⟨7, (day - daysBefore 6 + 1).toNat, ?_, by norm_num, by norm_num, by omega, ?_, ?_⟩
        · simp only [Prod.mk.injEq, true_and]
          constructor
          · norm_num
          · omega
        · rw [Int.toNat_of_nonneg (by omega)]
          exact_mod_cast a2
        · rw [Int.toNat_of_nonneg (by omega)]
          simpa using a3
    · have t0 : Int.toNat 7 = 7 := rfl
      simp only [t0, Nat.reduceAdd]
      by_cases hp : daysBefore 8 ≤ day
      · rw [if_pos hp, if_pos hp]
        have hlt : day < daysBefore 9 := by
          rw [v9]
          omega
        obtain ⟨a1, a2, a3⟩ := absDate_month_case year yday day 9 (by norm_num) (by norm_num)
          (by simpa using hp) hlt hleapday
        simp only [Nat.add_one_sub_one, Nat.reduceSub] at a1 a2 a3
        refine ⟨9, (day - daysBefore 8 + 1).toNat, ?_, by norm_num, by norm_num, by omega, ?_, ?_⟩
        · simp only [Prod.mk.injEq, true_and]
          constructor
          · norm_num
          · omega
        · rw [Int.toNat_of_nonneg (by omega)]
          exact_mod_cast a2
        · rw [Int.toNat_of_nonneg (by omega)]
          simpa using a3
      · rw [if_neg hp, if_neg hp]
        have hge : daysBefore 7 ≤ day := by
          rw [v7]
          omega
        obtain ⟨a1, a2, a3⟩ := absDate_month_case year yday day 8 (by norm_num) (by norm_num)
          (by simpa using hge) (by omega) hleapday
        simp only [Nat.add_one_sub_one, Nat.reduceSub] at a1 a2 a3
        refine ⟨8, (day - daysBefore 7 + 1).toNat, ?_, by norm_num, by norm_num, by omega, ?_, ?_⟩
        · simp only [Prod.mk.injEq, true_and]
          constructor
          · norm_num
          · omega
        · rw [Int.toNat_of_nonneg (by omega)]
          exact_mod_cast a2
        · rw [Int.toNat_of_nonneg (by omega)]
          simpa using a3
    · have t0 : Int.toNat 8 = 8 := rfl
      simp only [t0, Nat.reduceAdd]
      by_cases hp : daysBefore 9 ≤ day
      · rw [if_pos hp, if_pos hp]
        have hlt : day < daysBefore 10 := by
          rw [v10]
          omega
        obtain ⟨a1, a2, a3⟩ := absDate_month_case year yday day 10 (by norm_num) (by norm_num)
          (by simpa using hp) hlt hleapday
        simp only [Nat.add_one_sub_one, Nat.reduceSub] at a1 a2 a3
        refine ⟨10, (day - daysBefore 9 + 1).toNat, ?_, by norm_num, by norm_num, by omega, ?_, ?_⟩
        · simp only [Prod.mk.injEq, true_and]
          constructor
          · norm_num
          · omega
        · rw [Int.toNat_of_nonneg (by omega)]
          exact_mod_cast a2
        · rw [Int.toNat_of_nonneg (by omega)]
          simpa using a3
      · rw [if_neg hp, if_neg hp]
        have hge : daysBefore 8 ≤ day := by
          rw [v8]
          omega
        obtain ⟨a1, a2, a3⟩ := absDate_month_case year yday day 9 (by norm_num) (by norm_num)
          (by simpa using hge) (by omega) hleapday
        simp only [Nat.add_one_sub_one, Nat.reduceSub] at a1 a2 a3
        refine ⟨9, (day - daysBefore 8 + 1).toNat, ?_, by norm_num, by norm_num, by omega, ?_, ?_⟩
        · simp only [Prod.mk.injEq, true_and]
          constructor
          · norm_num
          · omega
        · rw [Int.toNat_of_nonneg (by omega)]
          exact_mod_cast a2
        · rw [Int.toNat_of_nonneg (by omega)]
          simpa using a3
    · have t0 : Int.toNat 9 = 9 := rfl
      simp only [t0, Nat.reduceAdd]
      by_cases hp : daysBefore 10 ≤ day
      · rw [if_pos hp, if_pos hp]
        have hlt : day < daysBefore 11 := by
          rw [v11]
          omega
        obtain ⟨a1, a2, a3⟩ := absDate_month_case year yday day 11 (by norm_num) (by norm_num)
          (by simpa using hp) hlt hleapday
        simp only [Nat.add_one_sub_one, Nat.reduceSub] at a1 a2 a3
        refine ⟨11, (day - daysBefore 10 + 1).toNat, ?_, by norm_num, by norm_num, by omega, ?_, ?_⟩
        · simp only [Prod.mk.injEq, true_and]
          constructor
          · norm_num
          · omega
        · rw [Int.toNat_of_nonneg (by omega)]
          exact_mod_cast a2
        · rw [Int.toNat_of_nonneg (by omega)]
          simpa using a3
      · rw [if_neg hp, if_neg hp]
        have hge : daysBefore 9 ≤ day := by
          rw [v9]
          omega
        obtain ⟨a1, a2, a3⟩ := absDate_month_case year yday day 10 (by norm_num) (by norm_num)
          (by simpa using hge) (by omega) hleapday
        simp only [Nat.add_one_sub_one, Nat.reduceSub] at a1 a2 a3
        refine ⟨10, (day - daysBefore 9 + 1).toNat, ?_, by norm_num, by norm_num, by omega, ?_, ?_⟩
        · simp only [Prod.mk.injEq, true_and]
          constructor
          · norm_num
          · omega
        · rw [Int.toNat_of_nonneg (by omega)]
          exact_mod_cast a2
        · rw [Int.toNat_of_nonneg (by omega)]
          simpa using a3
    · have t0 : Int.toNat 10 = 10 := rfl
      simp only [t0, Nat.reduceAdd]
      by_cases hp : daysBefore 11 ≤ day
      · rw [if_pos hp, if_pos hp]
        have hlt : day < daysBefore 12 := by
          rw [v12]
          omega
        obtain ⟨a1, a2, a3⟩ := absDate_month_case year yday day 12 (by norm_num) (by norm_num)
          (by simpa using hp) hlt hleapday
        simp only [Nat.add_one_sub_one, Nat.reduceSub] at a1 a2 a3
        refine ⟨12, (day - daysBefore 11 + 1).toNat, ?_, by norm_num, by norm_num, by omega, ?_, ?_⟩
        · simp only [Prod.mk.injEq, true_and]
          constructor
          · norm_num
          · omega
        · rw [Int.toNat_of_nonneg (by omega)]
          exact_mod_cast a2
        · rw [Int.toNat_of_nonneg (by omega)]
          simpa using a3
      · rw [if_neg hp, if_neg hp]
        have hge : daysBefore 10 ≤ day := by
          rw [v10]
          omega
        obtain ⟨a1, a2, a3⟩ := absDate_month_case year yday day 11 (by norm_num) (by norm_num)
          (by simpa using hge) (by omega) hleapday
        simp only [Nat.add_one_sub_one, Nat.reduceSub] at a1 a2 a3
        refine ⟨11, (day - daysBefore 10 + 1).toNat, ?_, by norm_num, by norm_num, by omega, ?_, ?_⟩
        · simp only [Prod.mk.injEq, true_and]
          constructor
          · norm_num
          · omega
        · rw [Int.toNat_of_nonneg (by omega)]
          exact_mod_cast a2
        · rw [Int.toNat_of_nonneg (by omega)]
          simpa using a3
    · have t0 : Int.toNat 11 = 11 := rfl
      simp only [t0, Nat.reduceAdd]
      by_cases hp : daysBefore 12 ≤ day
      · rw [if_pos hp, if_pos hp]
        have hlt : day < daysBefore 12 := by
          rw [v12]
          omega
        rw [v12] at hp; omega
      · rw [if_neg hp, if_neg hp]
        have hge : daysBefore 11 ≤ day := by
          rw [v11]
          omega
        obtain ⟨a1, a2, a3⟩ := absDate_month_case year yday day 12 (by norm_num) (by norm_num)
          (by simpa using hge) (by omega) hleapday
        simp only [Nat.add_one_sub_one, Nat.reduceSub] at a1 a2 a3
        refine ⟨12, (day - daysBefore 11 + 1).toNat, ?_, by norm_num, by norm_num, by omega, ?_, ?_⟩
        · simp only [Prod.mk.injEq, true_and]
          constructor
          · norm_num
          · omega
        · rw [Int.toNat_of_nonneg (by omega)]
          exact_mod_cast a2
        · rw [Int.toNat_of_nonneg (by omega)]
          simpa using a3

/-- Year, month and day of `absDate` form a date of the calendar that lies `days` days after
January 1 of year 1. -/
theorem absDate_spec (days : Int) (h : 0 ≤ days) :
    ∃ y mo d : ℕ, absDate days = ((y : Int), (mo : Int), (d : Int)) ∧ 1 ≤ y ∧ 1 ≤ mo ∧ mo ≤ 12 ∧
      1 ≤ d ∧ (d : Int) ≤ daysIn mo y ∧
      daysSinceYear1 y + daysBefore (mo - 1) + (if isLeap y = true ∧ 3 ≤ mo then 1 else 0)
        + ((d : Int) - 1) = days := by
  unfold absDate
  simp only []
  generalize hb : days / 146097 = b
  generalize hc : (days - 146097 * b) / 36524 = c
  generalize hd : c / 4 = d
  generalize he : (days - 146097 * b - 36524 * (c - d)) / 1461 = e
  generalize hf : (days - 146097 * b - 36524 * (c - d) - 1461 * e) / 365 = f
  generalize hg : f / 4 = g
  generalize hyear : 400 * b + 100 * (c - d) + 4 * e + (f - g) + 1 = year
  generalize hyday : days - 146097 * b - 36524 * (c - d) - 1461 * e - 365 * (f - g) = yday
  obtain ⟨y0, y1, ysum, yiff⟩ := absDate_cycles days b c d e f g year yday hb hc hd he hf hg hyear hyday
  obtain ⟨mo, dd, heq, m1, m2, d1, d2, hsum⟩ := absDate_month_day year yday y0 y1
  simp only [] at heq
  have hy1 : 1 ≤ year := yiff.mp h
  obtain ⟨y, rfl⟩ := Int.eq_ofNat_of_zero_le (show 0 ≤ year by omega)
  refine ⟨y, mo, dd, heq, by omega, m1, m2, d1, d2, ?_⟩
  omega

theorem absClock_spec (abs : Int) :
    ∃ h mi s : ℕ, absClock abs = ((h : Int), (mi : Int), (s : Int)) ∧ h ≤ 23 ∧ mi ≤ 59 ∧ s ≤ 59 ∧
      (h : Int) * 3600 + (mi : Int) * 60 + (s : Int) = abs % 86400 := by
  unfold absClock
  simp only []
  refine ⟨(abs % 86400 / 3600).toNat, ((abs % 86400 - abs % 86400 / 3600 * 3600) / 60).toNat,
    (abs % 86400 - abs % 86400 / 3600 * 3600
      - (abs % 86400 - abs % 86400 / 3600 * 3600) / 60 * 60).toNat, ?_, ?_, ?_, ?_, ?_⟩
  · rw [Int.toNat_of_nonneg (by omega), Int.toNat_of_nonneg (by omega),
      Int.toNat_of_nonneg (by omega)]
  all_goals omega

theorem natDigitsAux_eq (n : ℕ) : ∀ (fuel : ℕ) (acc : List Char), n < fuel →
    natDigitsAux fuel n acc = natDigits n ++ acc := by
  induction n using Nat.strong_induction_on with
  | _ n ih =>
    intro fuel acc hf
    obtain ⟨fuel, rfl⟩ : ∃ k, fuel = k + 1 := ⟨fuel - 1, by omega⟩
    unfold natDigits
    simp only [natDigitsAux]
    by_cases h : n < 10
    · rw [if_pos h, if_pos h]
      rfl
    · rw [if_neg h, if_neg h, ih (n / 10) (by omega) fuel _ (by omega),
        ih (n / 10) (by omega) n _ (by omega)]
      simp

theorem natDigits_step (n : ℕ) :
    natDigits n = if n < 10 then [digitChar n] else natDigits (n / 10) ++ [digitChar n] := by
  conv_lhs => unfold natDigits
  simp only [natDigitsAux]
  by_cases h : n < 10
  · rw [if_pos h, if_pos h]
  · rw [if_neg h, if_neg h, natDigitsAux_eq (n / 10) n _ (by omega)]

theorem digitChar_zero : digitChar 0 = '0' := by decide

theorem appendInt_pad2 (n : ℕ) (h : n < 100) : appendInt (n : Int) 2 = pad2 n := by
  unfold appendInt pad2
  simp only [Int.natAbs_ofNat, if_neg (show ¬ ((n : Int) < 0) by omega), List.nil_append]
  rw [natDigits_step n]
  by_cases h1 : n < 10
  · rw [if_pos h1]
    have : n / 10 = 0 := by omega
    rw [this, digitChar_zero]
    rfl
  · rw [if_neg h1, natDigits_step (n / 10), if_pos (by omega)]
    rfl

theorem appendInt_pad4 (n : ℕ) (h : n < 10000) : appendInt (n : Int) 4 = pad4 n := by
  unfold appendInt pad4
  simp only [Int.natAbs_ofNat, if_neg (show ¬ ((n : Int) < 0) by omega), List.nil_append]
  rw [natDigits_step n]
  by_cases h1 : n < 10
  · rw [if_pos h1]
    have e1 : n / 10 = 0 := by omega
    have e2 : n / 100 = 0 := by omega
    have e3 : n / 1000 = 0 := by omega
    rw [e1, e2, e3, digitChar_zero]
    rfl
  · rw [if_neg h1, natDigits_step (n / 10)]
    by_cases h2 : n / 10 < 10
    · rw [if_pos h2]
      have e2 : n / 100 = 0 := by omega
      have e3 : n / 1000 = 0 := by omega
      rw [e2, e3, digitChar_zero]
      rfl
    · rw [if_neg h2, natDigits_step (n / 10 / 10)]
      have e10 : n / 10 / 10 = n / 100 := by omega
      by_cases h3 : n / 10 / 10 < 10
      · rw [if_pos h3]
        have e3 : n / 1000 = 0 := by omega
        rw [e3, digitChar_zero, e10]
        rfl
      · rw [if_neg h3, natDigits_step (n / 10 / 10 / 10), if_pos (by omega)]
        have e1000 : n / 100 / 10 = n / 1000 := by omega
        rw [e10, e1000]
        rfl

theorem parseElem_zone_offset_wide (st : ParseState) (west : Bool) (oh om : Nat)
    (rest : List Char) (h : oh ≤ 24 ∧ om ≤ 59) :
    parseElem .stdISO8601ColonTZ st (offsetText west oh om ++ rest)
      = .ok { st with zoneOffset := offsetSeconds west oh om } rest := by
  have e1 := getnum_pad2 oh [] true (by omega)
  have e2 := getnum_pad2 om [] true (by omega)
  simp only [pad2, List.cons_append, List.nil_append] at e1 e2
  cases west <;>
    simp [offsetText, parseElem, parseZone, pad2, e1, e2, offsetSeconds] <;>
    rw [if_neg (by omega), if_neg (by omega)]

theorem parseLoop_RFC3339_offset_wide (al av : String) (y mo d h mi s : Nat) (west : Bool)
    (oh om : Nat) (hd : validDate y mo d) (hc : validClock h mi s) (ho : oh ≤ 24 ∧ om ≤ 59) :
    parseLoop al av RFC3339.chunks ParseState.init
        (dateTimeText y mo d h mi s ++ offsetText west oh om)
      = .ok ⟨y, mo, d, h, mi, s, 0, false, offsetSeconds west oh om⟩ := by
  have e : dateTimeText y mo d h mi s ++ offsetText west oh om
      = dateText y mo d ++ ('T' :: (pad2 h ++ (':' :: (pad2 mi ++ (':' :: (pad2 s ++
          (if west = true then '-' else '+') :: (pad2 oh ++ ':' :: pad2 om))))))) := by
    simp [dateTimeText, offsetText]
  have e2 : (if west = true then '-' else '+') :: (pad2 oh ++ ':' :: pad2 om)
      = offsetText west oh om ++ [] := by simp [offsetText]
  rw [e]
  unfold RFC3339
  simp only []
  rw [parseLoop_date _ _ _ _ _ _ _ y mo d _ hd.1 ⟨hd.2.1, hd.2.2.1⟩ (validDate_day_lt y mo d hd),
    parseLoop_clock _ _ _ _ _ _ _ h mi s _ _ hc (by cases west <;> decide), e2,
    parseLoop_cons_ok _ _ _ _ _ _ _ _
      (parseStep_ok _ _ _ _ _ _ _ _ (skip_nil _) (parseElem_zone_offset_wide _ west oh om [] ho))]
  simp [parseLoop, ParseState.init]

/-- `time.Parse(time.RFC3339, s)` on `YYYY-MM-DDThh:mm:ss` followed by a numeric offset of up
to 24 hours and 59 minutes. -/
theorem Parse_RFC3339_offset_wide (y mo d h mi s : Nat) (west : Bool) (oh om : Nat)
    (hd : validDate y mo d) (hc : validClock h mi s) (ho : oh ≤ 24 ∧ om ≤ 59) :
    Parse RFC3339 (String.mk (dateTimeText y mo d h mi s ++ offsetText west oh om))
      = .ok ⟨civilSeconds y mo d h mi s - offsetSeconds west oh om, 0,
          offsetSeconds west oh om⟩ := by
  rw [Parse_of_loop_ok _ _ _
      (parseLoop_RFC3339_offset_wide _ _ y mo d h mi s west oh om hd hc ho),
    finishParse_valid _ _ y mo d h mi s false _ hd hc]
  simp [offsetSeconds_ne]

theorem Format_RFC3339_text (t : Time) (y mo d h mi s : ℕ)
    (hdate : absDate ((t.sec + t.offset) / 86400) = ((y : Int), (mo : Int), (d : Int)))
    (hclock : absClock (t.sec + t.offset) = ((h : Int), (mi : Int), (s : Int)))
    (hy : y ≤ 9999) (hmo : mo ≤ 12) (hd : d ≤ 31) (hc : validClock h mi s) :
    t.Format RFC3339 = String.mk (dateTimeText y mo d h mi s
      ++ formatElem .stdISO8601ColonTZ (t.sec + t.offset) t.offset) := by
  obtain ⟨hh, hmi, hs⟩ := hc
  unfold Time.Format RFC3339
  simp only [List.flatMap_cons, List.flatMap_nil, formatElem, hdate, hclock]
  rw [appendInt_pad4 y (by omega), appendInt_pad2 mo (by omega), appendInt_pad2 d (by omega),
    appendInt_pad2 h (by omega), appendInt_pad2 mi (by omega), appendInt_pad2 s (by omega)]
  simp [dateTimeText, dateText]

theorem zone_text (abs offset : Int) (h0 : offset ≠ 0) (hm : offset % 60 = 0)
    (hlo : -90000 < offset) (hhi : offset < 90000) :
    ∃ (west : Bool) (oh om : ℕ), oh ≤ 24 ∧ om ≤ 59 ∧
      formatElem .stdISO8601ColonTZ abs offset = offsetText west oh om ∧
      offsetSeconds west oh om = offset := by
  obtain ⟨k, rfl⟩ : ∃ k : Int, offset = 60 * k := ⟨offset / 60, by omega⟩
  have hk : Int.tdiv (60 * k) 60 = k := Int.mul_tdiv_cancel_left k (by norm_num)
  have hk0 : k ≠ 0 := by omega
  unfold formatElem
  simp only [if_neg h0, hk]
  by_cases hneg : k < 0
  · obtain ⟨n, rfl⟩ : ∃ n : ℕ, k = -(n : Int) := ⟨k.natAbs, by omega⟩
    refine ⟨true, n / 60, n % 60, by omega, by omega, ?_, ?_⟩
    · rw [if_pos hneg, Int.natAbs_neg, Int.natAbs_ofNat, appendInt_pad2 _ (by omega),
        appendInt_pad2 _ (by omega)]
      simp [offsetText]
    · unfold offsetSeconds
      simp only [if_true]
      push_cast
      omega
  · obtain ⟨n, rfl⟩ : ∃ n : ℕ, k = (n : Int) := ⟨k.natAbs, by omega⟩
    refine ⟨false, n / 60, n % 60, by omega, by omega, ?_, ?_⟩
    · rw [if_neg hneg, Int.natAbs_ofNat, appendInt_pad2 _ (by omega),
        appendInt_pad2 _ (by omega)]
      simp [offsetText]
    · unfold offsetSeconds
      simp only [Bool.false_eq_true, if_false]
      push_cast
      omega

/-- The text that `Format` writes with the RFC 3339 layout for a time in the years 1 to 9999,
at a whole-minute offset of less than 25 hours, is read back by `Parse` as the same
instant, cut to whole seconds, at the same offset. -/
theorem Parse_Format_RFC3339 (t : Time) (hy1 : 1 ≤ t.Year) (hy2 : t.Year ≤ 9999)
    (hm : t.offset % 60 = 0) (hlo : -90000 < t.offset) (hhi : t.offset < 90000) :
    Parse RFC3339 (t.Format RFC3339) = .ok ⟨t.sec, 0, t.offset⟩ := by
  unfold Time.Year at hy1 hy2
  have hdays : 0 ≤ (t.sec + t.offset) / 86400 := by
    by_contra hc
    have hneg : (t.sec + t.offset) / 86400 < 0 := by omega
    -- a day before year 1 lies in a year below 1
    have : (absDate ((t.sec + t.offset) / 86400)).1 ≤ 0 := by
      generalize (t.sec + t.offset) / 86400 = days at hneg ⊢
      unfold absDate
      simp only []
      split_ifs <;> simp only [] <;> omega
    omega
  obtain ⟨y, mo, d, hdate, y1, m1, m2, d1, d2, hsum⟩ := absDate_spec _ hdays
  obtain ⟨h, mi, s, hclock, c1, c2, c3, hcsum⟩ := absClock_spec (t.sec + t.offset)
  rw [hdate] at hy2
  simp only at hy2
  have hvd : validDate y mo d := ⟨by omega, m1, m2, d1, d2⟩
  have hvc : validClock h mi s := ⟨c1, c2, c3⟩
  have hd31 : d ≤ 31 := by
    have := daysIn_le mo y ⟨m1, m2⟩
    omega
  have hcivil : civilSeconds y mo d h mi s = t.sec + t.offset := by
    unfold civilSeconds
    rw [hsum, hcsum]
    omega
  rw [Format_RFC3339_text t y mo d h mi s hdate hclock (by omega) m2 hd31 hvc]
  by_cases h0 : t.offset = 0
  · have hz : formatElem .stdISO8601ColonTZ (t.sec + t.offset) t.offset = ['Z'] := by
      simp [formatElem, h0]
    rw [hz, Parse_RFC3339_utc y mo d h mi s hvd hvc, hcivil, h0]
    simp
  · obtain ⟨west, oh, om, o1, o2, htext, hoff⟩ := zone_text (t.sec + t.offset) t.offset h0 hm hlo hhi
    rw [htext, Parse_RFC3339_offset_wide y mo d h mi s west oh om hvd hvc ⟨o1, o2⟩, hcivil, hoff]
    simp

/-! ## The claims -/

/-- C1: on an absent wrapper (a nil wrapper pointer, or a wrapper whose `Value` pointer is
nil, whatever its `Units`), each of the four `GetValue` methods returns the zero value of
its kind (`""`, `0.0`, `0`, the zero time) together with `ok = false`. The methods are
total functions, so they never fail. -/
theorem getValue_absent :
    StringValue.GetValue none = ("", false) ∧
    StringValue.GetValue (some ⟨none⟩) = ("", false) ∧
    FloatValue.GetValue none = (Float64.zero, false) ∧
    (∀ u : String, FloatValue.GetValue (some ⟨none, u⟩) = (Float64.zero, false)) ∧
    IntValue.GetValue none = (0, false) ∧
    (∀ u : String, IntValue.GetValue (some ⟨none, u⟩) = (0, false)) ∧
    TimeValue.GetValue none = (Time.zero, false) ∧
    (∀ u : String, TimeValue.GetValue (some ⟨none, u⟩) = (Time.zero, false)) ∧
    Time.zero.IsZero = true ∧ Float64.zero.bits = 0 :=
  ⟨rfl, rfl, rfl, fun _ => rfl, rfl, fun _ => rfl, rfl, fun _ => rfl, rfl, rfl⟩

/-- C2: on a non-nil wrapper whose `Value` pointer is non-nil, each `GetValue` returns
exactly the pointed-to value with `ok = true`, also when that value is the zero value of
the kind; `ok` is true if and only if the wrapper and its `Value` are both non-nil, so a
present zero and an absent value give different results. -/
theorem getValue_present :
    (∀ v : String, StringValue.GetValue (some ⟨some v⟩) = (v, true)) ∧
    (∀ (v : Float64) (u : String), FloatValue.GetValue (some ⟨some v, u⟩) = (v, true)) ∧
    (∀ (v : Int) (u : String), IntValue.GetValue (some ⟨some v, u⟩) = (v, true)) ∧
    (∀ (v : Time) (u : String), TimeValue.GetValue (some ⟨some v, u⟩) = (v, true)) ∧
    (∀ s : Option StringValue,
      (StringValue.GetValue s).2 = true ↔ ∃ w v, s = some w ∧ w.Value = some v) ∧
    (∀ f : Option FloatValue,
      (FloatValue.GetValue f).2 = true ↔ ∃ w v, f = some w ∧ w.Value = some v) ∧
    (∀ i : Option IntValue,
      (IntValue.GetValue i).2 = true ↔ ∃ w v, i = some w ∧ w.Value = some v) ∧
    (∀ t : Option TimeValue,
      (TimeValue.GetValue t).2 = true ↔ ∃ w v, t = some w ∧ w.Value = some v) ∧
    StringValue.GetValue (some ⟨some ""⟩) ≠ StringValue.GetValue (some ⟨none⟩) ∧
    FloatValue.GetValue (some ⟨some Float64.zero, ""⟩) ≠ FloatValue.GetValue (some ⟨none, ""⟩) ∧
    IntValue.GetValue (some ⟨some 0, ""⟩) ≠ IntValue.GetValue (some ⟨none, ""⟩) ∧
    TimeValue.GetValue (some ⟨some Time.zero, ""⟩) ≠ TimeValue.GetValue (some ⟨none, ""⟩) := by
  refine ⟨fun _ => rfl, fun _ _ => rfl, fun _ _ => rfl, fun _ _ => rfl, ?_, ?_, ?_, ?_,
    by decide, by decide, by decide, by decide⟩
  · rintro (_ | ⟨_ | v⟩) <;> simp [StringValue.GetValue]
  · rintro (_ | ⟨_ | v, u⟩) <;> simp [FloatValue.GetValue]
  · rintro (_ | ⟨_ | v, u⟩) <;> simp [IntValue.GetValue]
  · rintro (_ | ⟨_ | v, u⟩) <;> simp [TimeValue.GetValue]

/-- C3, as the claim states it, fails. The object `{"units": 5}` has no key `value`, and
decoding it into a `FloatValue`, an `IntValue` or a `TimeValue` returns an
`UnmarshalTypeError`: `Units` is a Go `string`. The object `{"VALUE": 1.5}` has no key
`value` either, and decoding it gives a present wrapper, on which `GetValue` returns
`(1.5, true)`: `encoding/json` matches keys to fields without regard to case. -/
theorem absent_fragment_claim_fails :
    (∀ m ∈ [("units", JSON.num "5")], m.1 ≠ "value") ∧
    FloatValue.Unmarshal (.obj [("units", .num "5")])
      = ⟨⟨none, ""⟩, some (.unmarshalType "number" "string" "FloatValue" "units")⟩ ∧
    (IntValue.Unmarshal (.obj [("units", .num "5")])).err
      = some (.unmarshalType "number" "string" "IntValue" "units") ∧
    (TimeValue.Unmarshal (.obj [("units", .num "5")])).err
      = some (.unmarshalType "number" "string" "TimeValue" "units") ∧
    (∀ m ∈ [("VALUE", JSON.num "1.5")], m.1 ≠ "value") ∧
    (FloatValue.Unmarshal (.obj [("VALUE", .num "1.5")])).err = none ∧
    (FloatValue.Unmarshal (.obj [("VALUE", .num "1.5")])).val.Value
      = some ⟨0x3FF8000000000000⟩ ∧
    FloatValue.GetValue (some (FloatValue.Unmarshal (.obj [("VALUE", .num "1.5")])).val)
      = (⟨0x3FF8000000000000⟩, true) ∧
    StringValue.GetValue (some (StringValue.Unmarshal (.obj [("VALUE", .str "rain")])).val)
      = ("rain", true) ∧
    (¬ ∀ ms : List (String × JSON), (∀ m ∈ ms, m.1 ≠ "value") →
      (FloatValue.Unmarshal (.obj ms)).err = none) ∧
    (¬ ∀ ms : List (String × JSON), (∀ m ∈ ms, m.1 ≠ "value") →
      (StringValue.Unmarshal (.obj ms)).val.Value = none) := by
  refine ⟨by decide, by rfl, by rfl, by rfl, by decide, by rfl, by rfl, by rfl, by rfl,
    fun h => ?_, fun h => ?_⟩
  · have := h [("units", .num "5")] (by decide)
    exact absurd this (by decide)
  · have := h [("VALUE", .str "rain")] (by decide)
    exact absurd this (by decide)

/-- C3, amended: for each of the four kinds, decoding into a new wrapper an object in which
every member whose key selects the field `value`, matched without regard to case, holds
`null` (`{"value": null}`, `{}`, and the same with further members) yields an absent
wrapper, `Value` nil, on which `GetValue` returns the zero value of the kind and `false`.
The decoding returns no error: for `StringValue` always, and for the three wrappers that
have a `Units` field when every member whose key selects `units` holds a string or
`null`. -/
theorem absent_fragment_decodes_absent (ms : List (String × JSON)) (hv : valueAbsent ms) :
    ((StringValue.Unmarshal (.obj ms)).err = none ∧
      (StringValue.Unmarshal (.obj ms)).val.Value = none ∧
      StringValue.GetValue (some (StringValue.Unmarshal (.obj ms)).val) = ("", false)) ∧
    ((FloatValue.Unmarshal (.obj ms)).val.Value = none ∧
      FloatValue.GetValue (some (FloatValue.Unmarshal (.obj ms)).val) = (Float64.zero, false)) ∧
    ((IntValue.Unmarshal (.obj ms)).val.Value = none ∧
      IntValue.GetValue (some (IntValue.Unmarshal (.obj ms)).val) = (0, false)) ∧
    ((TimeValue.Unmarshal (.obj ms)).val.Value = none ∧
      TimeValue.GetValue (some (TimeValue.Unmarshal (.obj ms)).val) = (Time.zero, false)) ∧
    (unitsWellFormed ms →
      (FloatValue.Unmarshal (.obj ms)).err = none ∧
      (IntValue.Unmarshal (.obj ms)).err = none ∧
      (TimeValue.Unmarshal (.obj ms)).err = none) := by
  have hs := decodeObject_invariant (StringValue.setField ErrorContext.top)
    (fun w => w.Value = none) ms
    (fun m hm c hc => StringValue_setField_absent c m (hv m hm) hc) StringValue.zero rfl
  have vf := decodeObject_val_invariant (FloatValue.setField ErrorContext.top)
    (fun w => w.Value = none) ms
    (fun m hm c hc => FloatValue_setField_value_absent c m (hv m hm) hc) FloatValue.zero none rfl
  have vi := decodeObject_val_invariant (IntValue.setField ErrorContext.top)
    (fun w => w.Value = none) ms
    (fun m hm c hc => IntValue_setField_value_absent c m (hv m hm) hc) IntValue.zero none rfl
  have vt := decodeObject_val_invariant (TimeValue.setField ErrorContext.top)
    (fun w => w.Value = none) ms
    (fun m hm c hc => TimeValue_setField_value_absent c m (hv m hm) hc) TimeValue.zero none rfl
  simp only at vf vi vt
  refine ⟨?_, ?_, ?_, ?_, fun hu => ?_⟩
  · simp only [StringValue.Unmarshal, StringValue.decode, decodeStruct, Dec.finish,
      StringValue.GetValue]
    simp only [hs.1, hs.2.1, hs.2.2, and_self]
  · simp only [FloatValue.Unmarshal, FloatValue.decode, decodeStruct, Dec.finish,
      FloatValue.GetValue]
    simp only [vf, and_self]
  · simp only [IntValue.Unmarshal, IntValue.decode, decodeStruct, Dec.finish,
      IntValue.GetValue]
    simp only [vi, and_self]
  · simp only [TimeValue.Unmarshal, TimeValue.decode, decodeStruct, Dec.finish,
      TimeValue.GetValue]
    simp only [vt, and_self]
  · have hf := decodeObject_invariant (FloatValue.setField ErrorContext.top)
      (fun w => w.Value = none) ms
      (fun m hm c hc => FloatValue_setField_absent c m ⟨hv m hm, hu m hm⟩ hc) FloatValue.zero rfl
    have hi := decodeObject_invariant (IntValue.setField ErrorContext.top)
      (fun w => w.Value = none) ms
      (fun m hm c hc => IntValue_setField_absent c m ⟨hv m hm, hu m hm⟩ hc) IntValue.zero rfl
    have ht := decodeObject_invariant (TimeValue.setField ErrorContext.top)
      (fun w => w.Value = none) ms
      (fun m hm c hc => TimeValue_setField_absent c m ⟨hv m hm, hu m hm⟩ hc) TimeValue.zero rfl
    simp only [FloatValue.Unmarshal, IntValue.Unmarshal, TimeValue.Unmarshal,
      FloatValue.decode, IntValue.decode, TimeValue.decode, decodeStruct, Dec.finish]
    simp only [hf.2.1, hf.2.2, hi.2.1, hi.2.2, ht.2.1, ht.2.2, and_self]

/-- Witness of C3, amended: the fragments `{"value": null}`, `{}` and `{"units": "F", "value": null}`. -/
theorem absent_fragment_decodes_absent_witness :
    (StringValue.Unmarshal (.obj [("value", .null)])).val.Value = none ∧
    FloatValue.GetValue (some (FloatValue.Unmarshal (.obj [])).val) = (Float64.zero, false) ∧
    ((TimeValue.Unmarshal (.obj [("units", .str "F"), ("value", .null)])).val.Value = none ∧
      TimeValue.GetValue (some (TimeValue.Unmarshal (.obj [("units", .str "F"),
        ("value", .null)])).val) = (Time.zero, false)) ∧
    (TimeValue.Unmarshal (.obj [("units", .str "F"), ("value", .null)])).err = none :=
  ⟨(absent_fragment_decodes_absent [("value", .null)] (by
      intro m hm
      simp only [List.mem_singleton] at hm
      subst hm
      exact fun _ => rfl)).1.2.1,
    (absent_fragment_decodes_absent [] (by intro m hm; cases hm)).2.1.2,
    (absent_fragment_decodes_absent [("units", .str "F"), ("value", .null)] (by
      intro m hm
      simp only [List.mem_cons, List.mem_singleton, List.not_mem_nil, or_false] at hm
      rcases hm with hm | hm
      · subst hm
        exact fun hv => absurd hv (by decide)
      · subst hm
        exact fun _ => rfl)).2.2.2.1,
    ((absent_fragment_decodes_absent [("units", .str "F"), ("value", .null)] (by
      intro m hm
      simp only [List.mem_cons, List.mem_singleton, List.not_mem_nil, or_false] at hm
      rcases hm with hm | hm
      · subst hm
        exact fun hv => absurd hv (by decide)
      · subst hm
        exact fun _ => rfl)).2.2.2.2 (by
      intro m hm
      simp only [List.mem_cons, List.mem_singleton, List.not_mem_nil, or_false] at hm
      rcases hm with hm | hm
      · subst hm
        exact fun _ => Or.inr ⟨"F", rfl⟩
      · subst hm
        exact fun hu => absurd hu (by decide))).2.2⟩

/-- C4, as the claim states it, fails for the string kind: `StringValue` has no `Units`
field, so the fragments with value `"rain"` and units `"mm"` and `"in"` decode to the same
wrapper, and no function of the decoded wrapper gives the unit back. -/
theorem stringValue_drops_units :
    StringValue.Unmarshal (valueFragment (.str "rain") "mm") = ⟨⟨some "rain"⟩, none⟩ ∧
    StringValue.Unmarshal (valueFragment (.str "rain") "in") = ⟨⟨some "rain"⟩, none⟩ ∧
    ¬ ∃ unitOf : StringValue → String,
      ∀ x u : String, unitOf (StringValue.Unmarshal (valueFragment (.str x) u)).val = u := by
  refine ⟨by decide, by decide, ?_⟩
  rintro ⟨unitOf, h⟩
  have h1 := h "rain" "mm"
  have h2 := h "rain" "in"
  have e : (StringValue.Unmarshal (valueFragment (.str "rain") "mm")).val
      = (StringValue.Unmarshal (valueFragment (.str "rain") "in")).val := by decide
  rw [e, h2] at h1
  exact absurd h1 (by decide)

/-- C4, amended: decoding the fragment `{"value": X, "units": "U"}` into a new wrapper
returns no error and yields a present wrapper: a `StringValue` holding the string `X`
(it has no field for the unit), a `FloatValue` holding the `float64` that the number `X`
denotes and the unit `U`, an `IntValue` holding the integer `X` and `U`, a `TimeValue`
holding the time that the RFC 3339 string `X` denotes and `U`; on each of them `GetValue`
returns that value and `true`. -/
theorem value_fragment_decodes_present (u : String) :
    (∀ x : String,
      StringValue.Unmarshal (valueFragment (.str x) u) = ⟨⟨some x⟩, none⟩ ∧
      StringValue.GetValue (some (StringValue.Unmarshal (valueFragment (.str x) u)).val)
        = (x, true)) ∧
    (∀ (lit : String) (x : Float64), ParseFloat lit = some x →
      FloatValue.Unmarshal (valueFragment (.num lit) u) = ⟨⟨some x, u⟩, none⟩ ∧
      FloatValue.GetValue (some (FloatValue.Unmarshal (valueFragment (.num lit) u)).val)
        = (x, true)) ∧
    (∀ (lit : String) (n : Int), ParseInt lit = some n →
      IntValue.Unmarshal (valueFragment (.num lit) u) = ⟨⟨some n, u⟩, none⟩ ∧
      IntValue.GetValue (some (IntValue.Unmarshal (valueFragment (.num lit) u)).val)
        = (n, true)) ∧
    (∀ (s : String) (t : Time), Parse RFC3339 s = .ok t →
      TimeValue.Unmarshal (valueFragment (.str s) u) = ⟨⟨some t, u⟩, none⟩ ∧
      TimeValue.GetValue (some (TimeValue.Unmarshal (valueFragment (.str s) u)).val)
        = (t, true)) := by
  refine ⟨fun x => ?_, fun lit x hx => ?_, fun lit n hn => ?_, fun s t ht => ?_⟩
  · have e : StringValue.Unmarshal (valueFragment (.str x) u) = ⟨⟨some x⟩, none⟩ := by
      simp [StringValue.Unmarshal, StringValue.decode, valueFragment, decodeStruct,
        decodeObject, StringValue.setField, fieldMatch_value, fieldMatch_value_units,
        decodeStringPtr, Dec.map, Dec.finish, keepFirst]
    rw [e]
    exact ⟨rfl, rfl⟩
  · have e : FloatValue.Unmarshal (valueFragment (.num lit) u) = ⟨⟨some x, u⟩, none⟩ := by
      simp [FloatValue.Unmarshal, FloatValue.decode, valueFragment, decodeStruct,
        decodeObject, FloatValue.setField, fieldMatch_value, fieldMatch_value_units,
        fieldMatch_units, decodeFloatPtr, decodeFloat, decodeString, hx, Dec.map, Dec.finish,
        keepFirst, FloatValue.zero]
    rw [e]
    exact ⟨rfl, rfl⟩
  · have e : IntValue.Unmarshal (valueFragment (.num lit) u) = ⟨⟨some n, u⟩, none⟩ := by
      simp [IntValue.Unmarshal, IntValue.decode, valueFragment, decodeStruct,
        decodeObject, IntValue.setField, fieldMatch_value, fieldMatch_value_units,
        fieldMatch_units, decodeIntPtr, decodeInt, decodeString, hn, Dec.map, Dec.finish,
        keepFirst, IntValue.zero]
    rw [e]
    exact ⟨rfl, rfl⟩
  · have e : TimeValue.Unmarshal (valueFragment (.str s) u) = ⟨⟨some t, u⟩, none⟩ := by
      simp [TimeValue.Unmarshal, TimeValue.decode, valueFragment, decodeStruct,
        decodeObject, TimeValue.setField, fieldMatch_value, fieldMatch_value_units,
        fieldMatch_units, decodeTimePtr, decodeString, ht, Dec.map, Dec.finish,
        keepFirst, TimeValue.zero]
    rw [e]
    exact ⟨rfl, rfl⟩

/-- Witness of C4, amended: `{"value": 72.5, "units": "F"}`, `{"value": 42, "units": "F"}`
and `{"value": "2021-03-04T05:06:07Z", "units": "F"}`; 72.5 is the `float64` with bit
pattern `0x4052200000000000`. -/
theorem value_fragment_decodes_present_witness :
    FloatValue.Unmarshal (valueFragment (.num "72.5") "F")
      = ⟨⟨some ⟨0x4052200000000000⟩, "F"⟩, none⟩ ∧
    IntValue.Unmarshal (valueFragment (.num "42") "F") = ⟨⟨some 42, "F"⟩, none⟩ ∧
    TimeValue.Unmarshal (valueFragment (.str "2021-03-04T05:06:07Z") "F")
      = ⟨⟨some ⟨63750431167, 0, 0⟩, "F"⟩, none⟩ :=
  ⟨((value_fragment_decodes_present "F").2.1 "72.5" ⟨0x4052200000000000⟩ (by decide)).1,
    ((value_fragment_decodes_present "F").2.2.1 "42" 42 (by decide)).1,
    ((value_fragment_decodes_present "F").2.2.2 "2021-03-04T05:06:07Z" ⟨63750431167, 0, 0⟩
      (by rfl)).1⟩

/-- C5: decoding the sample with `"temperature": {"value": 72.5, "units": "F"}` and
`"humidity": null` into a `RealTime` returns no error; `Temp.GetValue()` returns 72.5 (the
`float64` with bit pattern `0x4052200000000000`) and `true`, `Humidity.GetValue()` returns
`0.0` and `false`, and every other field keeps its zero value. In a sample that carries
more fields, the wrapper of a field whose key is missing (`dewPoint`) or maps to `null`
(`humidity`) is absent and the other fields are decoded. For every sample object and every
optional field, if each member under the field's key holds `null` (in particular if the
key is missing), the field's `GetValue` returns `ok = false` after decoding. -/
theorem sample_decodes_with_absent_fields :
    ((RealTime.Unmarshal scenarioSample).err = none ∧
      FloatValue.GetValue (RealTime.Unmarshal scenarioSample).val.WeatherType.Temp
        = (⟨0x4052200000000000⟩, true) ∧
      FloatValue.GetValue (RealTime.Unmarshal scenarioSample).val.WeatherType.Humidity
        = (Float64.zero, false) ∧
      (RealTime.Unmarshal scenarioSample).val
        = { RealTime.zero with
            WeatherType := { WeatherType.zero with
              Temp := some ⟨some ⟨0x4052200000000000⟩, "F"⟩ } }) ∧
    ((RealTime.Unmarshal stationSample).err = none ∧
      FloatValue.GetValue (RealTime.Unmarshal stationSample).val.WeatherType.Temp
        = (⟨0x4052200000000000⟩, true) ∧
      FloatValue.GetValue (RealTime.Unmarshal stationSample).val.WeatherType.Humidity
        = (Float64.zero, false) ∧
      FloatValue.GetValue (RealTime.Unmarshal stationSample).val.WeatherType.DewPoint
        = (Float64.zero, false) ∧
      TimeValue.GetValue (RealTime.Unmarshal stationSample).val.WeatherType.Sunrise
        = (⟨63750454800, 0, 0⟩, true) ∧
      StringValue.GetValue (RealTime.Unmarshal stationSample).val.WeatherType.MoonPhase
        = ("full", true) ∧
      IntValue.GetValue (RealTime.Unmarshal stationSample).val.AirQualityType.EpaAQI
        = (42, true) ∧
      (RealTime.Unmarshal stationSample).val.BaseResponseType
        = ⟨⟨⟨0x4041E88AC5C13FD1⟩, ⟨0xC053A74189374BC7⟩⟩, "", ⟨⟨63750431167, 0, 0⟩⟩⟩) ∧
    (∀ (f : OptionalField) (ms : List (String × JSON)),
      (∀ m ∈ ms, fieldMatch f.name m.1 = true → m.2 = .null) →
      f.present (RealTime.Unmarshal (.obj ms)).val = false) := by
  refine ⟨⟨by decide, by decide, by decide, by decide⟩,
    ⟨by decide, by decide, by decide, by decide, by decide, by decide, by decide, by decide⟩,
    fun f ms h => RealTime_Unmarshal_absent f ms h⟩

/-- Witness of C5: in the sample `{"humidity": null, "temperature": {"value": 72.5}}` the
key `humidity` maps to `null` and the key `windSpeed` is missing. -/
theorem sample_decodes_with_absent_fields_witness :
    OptionalField.present (.weather .Humidity)
      (RealTime.Unmarshal (.obj [("humidity", .null),
        ("temperature", .obj [("value", .num "72.5")])])).val = false ∧
    OptionalField.present (.weather .WindSpeed)
      (RealTime.Unmarshal (.obj [("humidity", .null),
        ("temperature", .obj [("value", .num "72.5")])])).val = false :=
  ⟨sample_decodes_with_absent_fields.2.2 (.weather .Humidity) _ (by
      intro m hm
      simp only [List.mem_cons, List.mem_singleton, List.not_mem_nil, or_false] at hm
      rcases hm with hm | hm
      · subst hm
        exact fun _ => rfl
      · subst hm
        exact fun h => absurd h (by decide)),
    sample_decodes_with_absent_fields.2.2 (.weather .WindSpeed) _ (by
      intro m hm
      simp only [List.mem_cons, List.mem_singleton, List.not_mem_nil, or_false] at hm
      rcases hm with hm | hm
      · subst hm
        exact fun h => absurd h (by decide)
      · subst hm
        exact fun h => absurd h (by decide))⟩

/-- C6: for every text `YYYY-MM-DDThh:mm:ssZ`, and every such text with a numeric offset
`+hh:mm` or `-hh:mm` in place of `Z`, that denotes a date of the calendar and a time of
the day, `DateValue.UnmarshalJSON` on the object whose `value` is that text returns no
error and leaves in `Value` the instant the text describes: the seconds from the start of
year 1 to that date and time, less the offset, with no fraction of a second. -/
theorem dateValue_decodes_dateTime (d0 : DateValue) (y mo d h mi s : Nat) (west : Bool)
    (oh om : Nat) (hd : validDate y mo d) (hc : validClock h mi s) (ho : oh ≤ 23 ∧ om ≤ 59) :
    DateValue.UnmarshalJSON d0
        (.obj [("value", .str (String.mk (dateTimeText y mo d h mi s ++ ['Z'])))])
      = ⟨⟨⟨civilSeconds y mo d h mi s, 0, 0⟩⟩, none⟩ ∧
    DateValue.UnmarshalJSON d0
        (.obj [("value", .str (String.mk (dateTimeText y mo d h mi s ++ offsetText west oh om)))])
      = ⟨⟨⟨civilSeconds y mo d h mi s - offsetSeconds west oh om, 0,
          offsetSeconds west oh om⟩⟩, none⟩ := by
  constructor
  · rw [DateValue_value_str, Parse_RFC3339_utc y mo d h mi s hd hc]
  · rw [DateValue_value_str, Parse_RFC3339_offset y mo d h mi s west oh om hd hc ho]

/-- Witness of C6: `2021-03-04T05:06:07Z` and `2021-03-04T05:06:07-07:30`; the start of
1970 is 62135596800 seconds after the start of year 1, Go's `unixToInternal`. -/
theorem dateValue_decodes_dateTime_witness :
    (validDate 2021 3 4 ∧ validClock 5 6 7 ∧ (7 ≤ 23 ∧ 30 ≤ 59)) ∧
    civilSeconds 1970 1 1 0 0 0 = 62135596800 ∧
    String.mk (dateTimeText 2021 3 4 5 6 7 ++ ['Z']) = "2021-03-04T05:06:07Z" ∧
    String.mk (dateTimeText 2021 3 4 5 6 7 ++ offsetText true 7 30)
      = "2021-03-04T05:06:07-07:30" ∧
    DateValue.UnmarshalJSON ⟨Time.zero⟩ (.obj [("value", .str "2021-03-04T05:06:07Z")])
      = ⟨⟨⟨63750431167, 0, 0⟩⟩, none⟩ ∧
    DateValue.UnmarshalJSON ⟨Time.zero⟩ (.obj [("value", .str "2021-03-04T05:06:07-07:30")])
      = ⟨⟨⟨63750458167, 0, -27000⟩⟩, none⟩ :=
  ⟨by decide, by decide, by decide, by decide,
    (dateValue_decodes_dateTime ⟨Time.zero⟩ 2021 3 4 5 6 7 true 7 30
      (by decide) (by decide) (by decide)).1,
    (dateValue_decodes_dateTime ⟨Time.zero⟩ 2021 3 4 5 6 7 true 7 30
      (by decide) (by decide) (by decide)).2⟩

/-- C7: for every text `YYYY-MM-DD` that denotes a date of the calendar, the RFC 3339
attempt fails (the text ends where the layout wants `T`), and `DateValue.UnmarshalJSON` on
the object whose `value` is that text returns no error and leaves in `Value` 00:00:00 of
that date, with offset zero. -/
theorem dateValue_decodes_bareDate (d0 : DateValue) (y mo d : Nat) (hd : validDate y mo d) :
    Parse RFC3339 (String.mk (dateText y mo d))
      = .error ⟨"2006-01-02T15:04:05Z07:00", String.mk (dateText y mo d), "T", "", ""⟩ ∧
    DateValue.UnmarshalJSON d0 (.obj [("value", .str (String.mk (dateText y mo d)))])
      = ⟨⟨⟨civilSeconds y mo d 0 0 0, 0, 0⟩⟩, none⟩ := by
  constructor
  · exact Parse_RFC3339_date y mo d hd
  · rw [DateValue_value_str, Parse_RFC3339_date y mo d hd, Parse_dateLayout y mo d hd]

/-- Witness of C7: `2024-02-29`. -/
theorem dateValue_decodes_bareDate_witness :
    validDate 2024 2 29 ∧ String.mk (dateText 2024 2 29) = "2024-02-29" ∧
    DateValue.UnmarshalJSON ⟨Time.zero⟩ (.obj [("value", .str "2024-02-29")])
      = ⟨⟨⟨63844761600, 0, 0⟩⟩, none⟩ :=
  ⟨by decide, by decide, (dateValue_decodes_bareDate ⟨Time.zero⟩ 2024 2 29 (by decide)).2⟩

/-- C8, as the claim states it, fails: `"garbage"` parses under neither layout, decoding the
object whose `value` is `"garbage"` fails, and the error returned is the `time.ParseError`
of the date layout, whose message names neither `value` nor `observation_time`; the
decoding of a sample returns the same error for its `observation_time`. -/
theorem dateValue_error_names_no_field :
    Parse RFC3339 "garbage"
      = .error ⟨"2006-01-02T15:04:05Z07:00", "garbage", "2006", "garbage", ""⟩ ∧
    Parse dateLayout "garbage" = .error ⟨"2006-01-02", "garbage", "2006", "garbage", ""⟩ ∧
    (DateValue.UnmarshalJSON ⟨Time.zero⟩ (.obj [("value", .str "garbage")])).err
      = some (.parse ⟨"2006-01-02", "garbage", "2006", "garbage", ""⟩) ∧
    (RealTime.Unmarshal (.obj [("observation_time", .obj [("value", .str "garbage")])])).err
      = some (.parse ⟨"2006-01-02", "garbage", "2006", "garbage", ""⟩) ∧
    (DecodeError.parse ⟨"2006-01-02", "garbage", "2006", "garbage", ""⟩).Error
      = "parsing time \"garbage\" as \"2006-01-02\": cannot parse \"garbage\" as \"2006\"" ∧
    (DecodeError.parse ⟨"2006-01-02", "garbage", "2006", "garbage", ""⟩).names "value" = false ∧
    (DecodeError.parse ⟨"2006-01-02", "garbage", "2006", "garbage", ""⟩).names "observation_time"
      = false := by
  refine ⟨by rfl, by rfl, by decide, by decide, by decide, by decide, by decide⟩

/-- C8, amended: for every JSON string `s` that parses under neither the RFC 3339 layout nor
the `2006-01-02` layout, `DateValue.UnmarshalJSON` on the object whose `value` is `s`
fails and leaves the receiver as it was; the error is the `time.ParseError` of the second
attempt, which carries the layout `2006-01-02` and the text `s`. -/
theorem dateValue_rejects_other_strings (d0 : DateValue) (s : String) (e1 e2 : ParseError)
    (h1 : Parse RFC3339 s = .error e1) (h2 : Parse dateLayout s = .error e2) :
    DateValue.UnmarshalJSON d0 (.obj [("value", .str s)]) = ⟨d0, some (.parse e2)⟩ ∧
    e2.Layout = "2006-01-02" ∧ e2.Value = s := by
  refine ⟨?_, Parse_error_fields dateLayout s e2 h2⟩
  rw [DateValue_value_str, h1, h2]

/-- Witness of C8, amended: the string `garbage`. -/
theorem dateValue_rejects_other_strings_witness :
    DateValue.UnmarshalJSON ⟨Time.zero⟩ (.obj [("value", .str "garbage")])
      = ⟨⟨Time.zero⟩, some (.parse ⟨"2006-01-02", "garbage", "2006", "garbage", ""⟩)⟩ :=
  (dateValue_rejects_other_strings ⟨Time.zero⟩ "garbage"
    ⟨"2006-01-02T15:04:05Z07:00", "garbage", "2006", "garbage", ""⟩
    ⟨"2006-01-02", "garbage", "2006", "garbage", ""⟩ (by rfl) (by rfl)).1

/-- C9: the code departs from the claim, and from the doc comment of `DateValue`, which
wants the value non-zero in every case. The sources `{"value": null}` and `{}` are not
`null`; decoding them returns no error where the claim has a failure, and the timestamp
left in `Value` is the zero time. The text `0001-01-01T00:00:00Z` decodes to the zero
time as well. -/
theorem dateValue_success_with_zero_time :
    DateValue.UnmarshalJSON ⟨Time.zero⟩ (.obj [("value", .null)]) = ⟨⟨Time.zero⟩, none⟩ ∧
    DateValue.UnmarshalJSON ⟨Time.zero⟩ (.obj []) = ⟨⟨Time.zero⟩, none⟩ ∧
    DateValue.UnmarshalJSON ⟨Time.zero⟩ (.obj [("value", .str "0001-01-01T00:00:00Z")])
      = ⟨⟨Time.zero⟩, none⟩ ∧
    Time.zero.IsZero = true ∧
    ¬ ∀ (d0 : DateValue) (b : JSON), b ≠ .null → (DateValue.UnmarshalJSON d0 b).err = none →
      (DateValue.UnmarshalJSON d0 b).val.Value.IsZero = false := by
  refine ⟨by decide, by decide, by decide, by decide, fun h => ?_⟩
  have := h ⟨Time.zero⟩ (.obj [("value", .null)]) (fun e => by cases e) (by decide)
  exact absurd this (by decide)

/-- The sources on which `DateValue.UnmarshalJSON` fails, leaving the receiver as it was:
`value` is a string that parses under neither layout, `value` is a boolean, a number, an
array or an object, or the source is neither an object nor `null`. When it succeeds on an
object whose `value` is a string, `Value` is the time that string denotes under the
RFC 3339 layout or, failing that, the date layout. -/
theorem DateValue_UnmarshalJSON_failures (d0 : DateValue) :
    (∀ (s : String) (e1 e2 : ParseError), Parse RFC3339 s = .error e1 →
      Parse dateLayout s = .error e2 →
      DateValue.UnmarshalJSON d0 (.obj [("value", .str s)]) = ⟨d0, some (.parse e2)⟩) ∧
    (∀ s : String, (DateValue.UnmarshalJSON d0 (.obj [("value", .str s)])).err = none →
      Parse RFC3339 s = .ok (DateValue.UnmarshalJSON d0 (.obj [("value", .str s)])).val.Value ∨
      ((∃ e, Parse RFC3339 s = .error e) ∧ Parse dateLayout s
        = .ok (DateValue.UnmarshalJSON d0 (.obj [("value", .str s)])).val.Value)) ∧
    (∀ v : JSON, v ≠ .null → (∀ s, v ≠ .str s) →
      (DateValue.UnmarshalJSON d0 (.obj [("value", v)])).val = d0 ∧
      (DateValue.UnmarshalJSON d0 (.obj [("value", v)])).err
        = some (.unmarshalType v.kind "string" "jsonDateValue" "value")) ∧
    (∀ b : JSON, b ≠ .null → (∀ ms, b ≠ .obj ms) →
      DateValue.UnmarshalJSON d0 b
        = ⟨d0, some (.unmarshalType b.kind "climacell.jsonDateValue" "" "")⟩) := by
  refine ⟨fun s e1 e2 h1 h2 => ?_, fun s hs => ?_, fun v hn hs => ?_, fun b hn ho => ?_⟩
  · rw [DateValue_value_str, h1, h2]
  · rw [DateValue_value_str] at hs ⊢
    cases h1 : Parse RFC3339 s with
    | ok tm => exact Or.inl rfl
    | error e1 =>
      rw [h1] at hs
      cases h2 : Parse dateLayout s with
      | ok tm => exact Or.inr ⟨⟨e1, rfl⟩, rfl⟩
      | error e2 =>
        rw [h2] at hs
        cases hs
  · cases v with
    | null => exact absurd rfl hn
    | str s => exact absurd rfl (hs s)
    | bool b => exact ⟨rfl, rfl⟩
    | num lit => exact ⟨rfl, rfl⟩
    | arr elems => exact ⟨rfl, rfl⟩
    | obj members => exact ⟨rfl, rfl⟩
  · cases b with
    | null => exact absurd rfl hn
    | obj ms => exact absurd rfl (ho ms)
    | bool b => rfl
    | num lit => rfl
    | str s => rfl
    | arr elems => rfl

/-- C10: `DateValue.UnmarshalJSON` on the JSON token `null` returns no error and leaves the
receiver exactly as it was, so a zero `DateValue` stays at the zero time; the same holds
for `timeOrDate.UnmarshalJSON`. -/
theorem dateValue_null_is_noop (d : DateValue) (t : Time) :
    DateValue.UnmarshalJSON d .null = ⟨d, none⟩ ∧
    timeOrDate.UnmarshalJSON t .null = ⟨t, none⟩ ∧
    (DateValue.UnmarshalJSON ⟨Time.zero⟩ .null).val.Value.IsZero = true :=
  ⟨rfl, rfl, rfl⟩

/-- C11: `QueryParams` holds the key `start_time` exactly when `Start` is not the zero time,
and then its one value is `Start.Format(time.RFC3339)`; the same holds for `end_time` and
`End`. The start of 1970 is not the zero time: it is emitted, as `1970-01-01T00:00:00Z`. -/
theorem queryParams_time_bounds (args : ForecastArgs) :
    args.QueryParams.get "start_time"
      = (if args.Start.IsZero = true then none else some [args.Start.Format RFC3339]) ∧
    args.QueryParams.get "end_time"
      = (if args.End.IsZero = true then none else some [args.End.Format RFC3339]) ∧
    ((args.QueryParams.get "start_time").isSome = !args.Start.IsZero) ∧
    ((args.QueryParams.get "end_time").isSome = !args.End.IsZero) ∧
    (⟨62135596800, 0, 0⟩ : Time).IsZero = false ∧
    (⟨62135596800, 0, 0⟩ : Time).Format RFC3339 = "1970-01-01T00:00:00Z" ∧
    ({ args with Start := ⟨62135596800, 0, 0⟩ } : ForecastArgs).QueryParams.get "start_time"
      = some ["1970-01-01T00:00:00Z"] ∧
    ({ args with End := ⟨62135596800, 0, 0⟩ } : ForecastArgs).QueryParams.get "end_time"
      = some ["1970-01-01T00:00:00Z"] := by
  have e : (⟨62135596800, 0, 0⟩ : Time).Format RFC3339 = "1970-01-01T00:00:00Z" := by decide
  refine ⟨?_, ?_, ?_, ?_, by decide, e, ?_, ?_⟩
  · rw [QueryParams_get]
    cases h : args.Start.IsZero <;> simp
  · rw [QueryParams_get]
    cases h : args.End.IsZero <;> simp
  · rw [QueryParams_get]
    cases h : args.Start.IsZero <;> simp
  · rw [QueryParams_get]
    cases h : args.End.IsZero <;> simp
  · rw [QueryParams_get]
    simp [e, Time.IsZero]
  · rw [QueryParams_get]
    simp [e, Time.IsZero]

/-- C12: `QueryParams` holds the key `timestep` exactly when `Timestep > 0`, and then its one
value is `strconv.Itoa(Timestep)`, the base-10 text of the number, which `ParseInt` reads
back as `Timestep`; for zero and for a negative `Timestep` there is no such key. -/
theorem queryParams_timestep (args : ForecastArgs) :
    args.QueryParams.get "timestep"
      = (if 0 < args.Timestep then some [Itoa args.Timestep] else none) ∧
    (args.Timestep ≤ 0 → args.QueryParams.get "timestep" = none) ∧
    (-(2 : Int) ^ 63 ≤ args.Timestep → args.Timestep < (2 : Int) ^ 63 →
      ParseInt (Itoa args.Timestep) = some args.Timestep) := by
  have h : args.QueryParams.get "timestep"
      = (if 0 < args.Timestep then some [Itoa args.Timestep] else none) := by
    rw [QueryParams_get]
    simp
  refine ⟨h, fun hle => ?_, fun h1 h2 => ParseInt_Itoa _ h1 h2⟩
  rw [h, if_neg (by omega)]

/-- Witness of C12: the timesteps 5 and -5. -/
theorem queryParams_timestep_witness :
    ({ scenarioArgs with Timestep := 5 } : ForecastArgs).QueryParams.get "timestep" = some ["5"] ∧
    ({ scenarioArgs with Timestep := -5 } : ForecastArgs).QueryParams.get "timestep" = none ∧
    ParseInt (Itoa 5) = some 5 :=
  ⟨(queryParams_timestep { scenarioArgs with Timestep := 5 }).1,
    (queryParams_timestep { scenarioArgs with Timestep := -5 }).2.1 (by decide),
    (queryParams_timestep { scenarioArgs with Timestep := 5 }).2.2 (by decide) (by decide)⟩

/-- C13: `QueryParams` holds the key `fields` exactly when `Fields` is not empty, and then
its one value is the elements of `Fields`, in their order, joined by commas; the names
are not checked and not escaped. -/
theorem queryParams_fields (args : ForecastArgs) :
    args.QueryParams.get "fields"
      = (if args.Fields = [] then none else some [",".intercalate args.Fields]) ∧
    ({ args with Fields := ["temperature", "humidity"] } : ForecastArgs).QueryParams.get "fields"
      = some ["temperature,humidity"] ∧
    ({ args with Fields := ["a,b", "", "c d"] } : ForecastArgs).QueryParams.get "fields"
      = some ["a,b,,c d"] ∧
    ({ args with Fields := [] } : ForecastArgs).QueryParams.get "fields" = none := by
  refine ⟨?_, ?_, ?_, ?_⟩
  · rw [QueryParams_get]
    cases h : args.Fields <;> simp
  · rw [QueryParams_get]
    simp
    decide
  · rw [QueryParams_get]
    simp
    decide
  · rw [QueryParams_get]
    simp

/-- C14: `QueryParams` holds the key `unit_system` exactly when `UnitSystem` is not the
empty string, and then its one value is `UnitSystem` as it is, whatever the string. -/
theorem queryParams_unit_system (args : ForecastArgs) :
    args.QueryParams.get "unit_system"
      = (if args.UnitSystem = "" then none else some [args.UnitSystem]) ∧
    ({ args with UnitSystem := "" } : ForecastArgs).QueryParams.get "unit_system" = none ∧
    ({ args with UnitSystem := "kelvin please" } : ForecastArgs).QueryParams.get "unit_system"
      = some ["kelvin please"] := by
  refine ⟨?_, ?_, ?_⟩
  · rw [QueryParams_get]
    by_cases h : args.UnitSystem = "" <;> simp [h]
  · rw [QueryParams_get]
    simp
  · rw [QueryParams_get]
    simp

/-- C15: for every `LocationID` value `s`, the empty string included,
`LocationQueryParams` returns the map with the one key `location_id`, holding the one
value `s`; `QueryParams` of arguments with that location holds `location_id` with the
one value `s` and holds neither `lat` nor `lon`. -/
theorem locationID_queryParams (s : LocationID) (args : ForecastArgs) :
    LocationID.LocationQueryParams s = [("location_id", [s])] ∧
    (∀ k : String, (LocationID.LocationQueryParams s).get k
      = if k = "location_id" then some [s] else none) ∧
    ({ args with Location := some (.LocationID s) } : ForecastArgs).QueryParams.get "location_id"
      = some [s] ∧
    ({ args with Location := some (.LocationID s) } : ForecastArgs).QueryParams.get "lat" = none ∧
    ({ args with Location := some (.LocationID s) } : ForecastArgs).QueryParams.get "lon"
      = none := by
  refine ⟨rfl, fun k => ?_, ?_, ?_, ?_⟩
  · by_cases h : k = "location_id"
    · simp [LocationID.LocationQueryParams, Values.get, h]
    · have h2 : ¬ "location_id" = k := fun e => h e.symm
      simp [LocationID.LocationQueryParams, Values.get, h, h2]
  · rw [QueryParams_get]
    simp [locationValues_LocationID, Values.get]
  · rw [QueryParams_get]
    simp [locationValues_LocationID, Values.get]
  · rw [QueryParams_get]
    simp [locationValues_LocationID, Values.get]

/-- C16, as stated, fails for a coordinate that is no finite number: for the latitude `NaN`
(the bits of Go `math.NaN()`) and the longitude `+Inf`, `LocationQueryParams` holds the
values `NaN` and `+Inf`, and neither is a fixed-point decimal. -/
theorem latLon_nan_is_no_decimal :
    LatLon.LocationQueryParams ⟨⟨0x7FF8000000000001⟩, ⟨0x7FF0000000000000⟩⟩
      = [("lat", ["NaN"]), ("lon", ["+Inf"])] ∧
    ¬ isShortestFixedPoint ⟨0x7FF8000000000001⟩ "NaN" ∧
    ¬ isShortestFixedPoint ⟨0x7FF0000000000000⟩ "+Inf" := by
  refine ⟨by decide, ?_, ?_⟩
  · rintro ⟨neg, w, fr, hs, hw, hd, -⟩
    obtain ⟨c, rest, rfl⟩ := List.exists_cons_of_ne_nil hw
    have hc := hd c (List.mem_cons_self _ _)
    have hl := congrArg String.data hs
    cases neg
    · simp only [fixedPoint, Bool.false_eq_true, if_false, List.nil_append,
        List.cons_append] at hl
      injection hl with h1 _
      rw [← h1] at hc
      exact absurd hc (by decide)
    · simp only [fixedPoint, if_true, List.cons_append, List.nil_append] at hl
      injection hl with h1 _
      exact absurd h1 (by decide)
  · rintro ⟨neg, w, fr, hs, hw, hd, -⟩
    obtain ⟨c, rest, rfl⟩ := List.exists_cons_of_ne_nil hw
    have hc := hd c (List.mem_cons_self _ _)
    have hl := congrArg String.data hs
    cases neg
    · simp only [fixedPoint, Bool.false_eq_true, if_false, List.nil_append,
        List.cons_append] at hl
      injection hl with h1 _
      rw [← h1] at hc
      exact absurd hc (by decide)
    · simp only [fixedPoint, if_true, List.cons_append, List.nil_append] at hl
      injection hl with h1 _
      exact absurd h1 (by decide)

/-- C16, amended: for every `LatLon` whose coordinates are finite, `LocationQueryParams`
returns the map with exactly the two keys `lat` and `lon`, each with one value, which
is the rendering of the coordinate as a fixed-point decimal without exponent and
without a zero at the end of its fraction, which `ParseFloat` reads back as the same
`float64`, and than which no fixed-point decimal with fewer digits after the point is
read back as that `float64`; 35.816735 gives `35.816735` and -78.613375 gives
`-78.613375`. -/
theorem latLon_queryParams (l : LatLon) (hlat : l.Lat.isFinite = true)
    (hlon : l.Lon.isFinite = true) :
    LatLon.LocationQueryParams l = [("lat", [FormatFloat l.Lat]), ("lon", [FormatFloat l.Lon])] ∧
    (∀ k : String, (LatLon.LocationQueryParams l).get k
      = if k = "lat" then some [FormatFloat l.Lat]
        else if k = "lon" then some [FormatFloat l.Lon] else none) ∧
    isShortestFixedPoint l.Lat (FormatFloat l.Lat) ∧
    isShortestFixedPoint l.Lon (FormatFloat l.Lon) ∧
    ParseFloat (FormatFloat l.Lat) = some l.Lat ∧
    ParseFloat (FormatFloat l.Lon) = some l.Lon ∧
    ParseFloat "35.816735" = some ⟨0x4041E88AC5C13FD1⟩ ∧
    FormatFloat ⟨0x4041E88AC5C13FD1⟩ = "35.816735" ∧
    ParseFloat "-78.613375" = some ⟨0xC053A74189374BC7⟩ ∧
    FormatFloat ⟨0xC053A74189374BC7⟩ = "-78.613375" := by
  have h1 := FormatFloat_shortest l.Lat hlat
  have h2 := FormatFloat_shortest l.Lon hlon
  refine ⟨rfl, fun k => ?_, h1, h2, ?_, ?_, by decide, by decide, by decide, by decide⟩
  · by_cases c1 : k = "lat"
    · subst c1
      simp [LatLon.LocationQueryParams, Values.get]
    · by_cases c2 : k = "lon"
      · subst c2
        simp [LatLon.LocationQueryParams, Values.get]
      · have g1 : ¬ "lat" = k := fun e => c1 e.symm
        have g2 : ¬ "lon" = k := fun e => c2 e.symm
        simp [LatLon.LocationQueryParams, Values.get, c1, c2, g1, g2]
  · obtain ⟨_, _, _, _, _, _, _, _, h, _⟩ := h1
    exact h
  · obtain ⟨_, _, _, _, _, _, _, _, h, _⟩ := h2
    exact h

/-- Witness of C16, amended: the coordinates 35.816735 and -78.613375 of the scenario. -/
theorem latLon_queryParams_witness :
    LatLon.LocationQueryParams ⟨⟨0x4041E88AC5C13FD1⟩, ⟨0xC053A74189374BC7⟩⟩
      = [("lat", ["35.816735"]), ("lon", ["-78.613375"])] ∧
    isShortestFixedPoint ⟨0x4041E88AC5C13FD1⟩ (FormatFloat ⟨0x4041E88AC5C13FD1⟩) ∧
    ParseFloat (FormatFloat ⟨0xC053A74189374BC7⟩) = some ⟨0xC053A74189374BC7⟩ :=
  ⟨by decide,
    (latLon_queryParams ⟨⟨0x4041E88AC5C13FD1⟩, ⟨0xC053A74189374BC7⟩⟩ (by decide)
      (by decide)).2.2.1,
    (latLon_queryParams ⟨⟨0x4041E88AC5C13FD1⟩, ⟨0xC053A74189374BC7⟩⟩ (by decide)
      (by decide)).2.2.2.2.2.1⟩

/-- C17: the arguments with latitude 35.816735, longitude -78.613375, fields `temperature` and
`humidity`, unit system `us`, and `Start`, `End` and `Timestep` left at zero, encode to
exactly the four parameters `lat = 35.816735`, `lon = -78.613375`,
`unit_system = us` and `fields = temperature,humidity`, each with one value; the keys
`start_time`, `end_time` and `timestep` are missing, as is every other key. -/
theorem scenario_queryParams :
    scenarioArgs.QueryParams
      = [("lat", ["35.816735"]), ("lon", ["-78.613375"]), ("unit_system", ["us"]),
          ("fields", ["temperature,humidity"])] ∧
    (∀ k : String, scenarioArgs.QueryParams.get k
      = if k = "lat" then some ["35.816735"]
        else if k = "lon" then some ["-78.613375"]
        else if k = "unit_system" then some ["us"]
        else if k = "fields" then some ["temperature,humidity"]
        else none) ∧
    scenarioArgs.QueryParams.get "start_time" = none ∧
    scenarioArgs.QueryParams.get "end_time" = none ∧
    scenarioArgs.QueryParams.get "timestep" = none := by
  have e : scenarioArgs.QueryParams
      = [("lat", ["35.816735"]), ("lon", ["-78.613375"]), ("unit_system", ["us"]),
          ("fields", ["temperature,humidity"])] := by decide
  refine ⟨e, fun k => ?_, by decide, by decide, by decide⟩
  rw [e]
  by_cases h1 : k = "lat"
  · subst h1
    rfl
  · by_cases h2 : k = "lon"
    · subst h2
      rfl
    · by_cases h3 : k = "unit_system"
      · subst h3
        rfl
      · by_cases h4 : k = "fields"
        · subst h4
          rfl
        · have g1 : ¬ "lat" = k := fun e => h1 e.symm
          have g2 : ¬ "lon" = k := fun e => h2 e.symm
          have g3 : ¬ "unit_system" = k := fun e => h3 e.symm
          have g4 : ¬ "fields" = k := fun e => h4 e.symm
          simp [Values.get, h1, h2, h3, h4, g1, g2, g3, g4]

/-- C18: `QueryParams` of arguments whose `Location` is nil is defined; it holds none of the
keys `lat`, `lon` and `location_id`, and under every other key, `start_time`, `end_time`,
`timestep`, `unit_system` and `fields` among them, it holds what it holds when a location
is present. -/
theorem queryParams_without_location (args : ForecastArgs) (loc : Location) :
    ({ args with Location := none } : ForecastArgs).QueryParams.get "lat" = none ∧
    ({ args with Location := none } : ForecastArgs).QueryParams.get "lon" = none ∧
    ({ args with Location := none } : ForecastArgs).QueryParams.get "location_id" = none ∧
    (∀ k : String, k ≠ "lat" → k ≠ "lon" → k ≠ "location_id" →
      ({ args with Location := none } : ForecastArgs).QueryParams.get k
        = ({ args with Location := some loc } : ForecastArgs).QueryParams.get k) := by
  refine ⟨?_, ?_, ?_, fun k h1 h2 h3 => ?_⟩
  · rw [QueryParams_get]
    simp [locationValues, Values.get]
  · rw [QueryParams_get]
    simp [locationValues, Values.get]
  · rw [QueryParams_get]
    simp [locationValues, Values.get]
  · rw [QueryParams_get, QueryParams_get]
    simp only [locationValues_get_other _ k ⟨h1, h2, h3⟩]

/-- Witness of C18: the scenario request without its location, at the key `fields`. -/
theorem queryParams_without_location_witness :
    ({ scenarioArgs with Location := none } : ForecastArgs).QueryParams.get "fields"
      = scenarioArgs.QueryParams.get "fields" :=
  (queryParams_without_location scenarioArgs
    (.LatLon ⟨⟨0x4041E88AC5C13FD1⟩, ⟨0xC053A74189374BC7⟩⟩)).2.2.2 "fields"
    (by decide) (by decide) (by decide)


/-- C20: decoding an anchor timestamp is atomic on failure. Whenever `DateValue.UnmarshalJSON`
or `timeOrDate.UnmarshalJSON` returns an error, on any bytes (no JSON text at all, or the
text of any JSON value, with or without white space around it), the receiver holds the
value it held before the call; a call that changed the receiver returned no error. On
the bare text of a value the call is the one `encoding/json` makes while it decodes. -/
theorem anchor_decoding_is_atomic (d : DateValue) (t : Time) (b : Input) :
    ((DateValue.UnmarshalJSONRaw d b).err ≠ none → (DateValue.UnmarshalJSONRaw d b).val = d) ∧
    ((timeOrDate.UnmarshalJSONRaw t b).err ≠ none → (timeOrDate.UnmarshalJSONRaw t b).val = t) ∧
    ((DateValue.UnmarshalJSONRaw d b).val ≠ d → (DateValue.UnmarshalJSONRaw d b).err = none) ∧
    ((timeOrDate.UnmarshalJSONRaw t b).val ≠ t → (timeOrDate.UnmarshalJSONRaw t b).err = none) ∧
    (∀ j : JSON, DateValue.UnmarshalJSONRaw d (.text j true) = DateValue.UnmarshalJSON d j) ∧
    (∀ j : JSON, timeOrDate.UnmarshalJSONRaw t (.text j true) = timeOrDate.UnmarshalJSON t j) ∧
    (∀ j : JSON, (DateValue.UnmarshalJSON d j).err ≠ none → (DateValue.UnmarshalJSON d j).val = d) ∧
    (∀ j : JSON, (timeOrDate.UnmarshalJSON t j).err ≠ none →
      (timeOrDate.UnmarshalJSON t j).val = t) := by
  have hd : ∀ (d : DateValue) (b : Input), (DateValue.UnmarshalJSONRaw d b).err ≠ none →
      (DateValue.UnmarshalJSONRaw d b).val = d := by
    intro d b h
    unfold DateValue.UnmarshalJSONRaw at h ⊢
    by_cases hn : b.isNull = true
    · rw [if_pos hn]
    · rw [if_neg hn] at h ⊢
      cases b with
      | invalid msg => rfl
      | text j bare =>
        simp only at h ⊢
        split
        · rfl
        · rename_i he
          simp only [he] at h
          exact absurd rfl h
  have ht : ∀ (t : Time) (b : Input), (timeOrDate.UnmarshalJSONRaw t b).err ≠ none →
      (timeOrDate.UnmarshalJSONRaw t b).val = t := by
    intro t b h
    unfold timeOrDate.UnmarshalJSONRaw at h ⊢
    by_cases hn : b.isNull = true
    · rw [if_pos hn]
    · rw [if_neg hn] at h ⊢
      cases b with
      | invalid msg => rfl
      | text j bare =>
        simp only at h ⊢
        split
        · rfl
        · rename_i he
          simp only [he] at h ⊢
          split
          · rename_i h1
            simp only [h1] at h
            exact absurd rfl h
          · rename_i h1
            simp only [h1] at h ⊢
            split
            · rename_i h2
              simp only [h2] at h
              exact absurd rfl h
            · rfl
  have ed : ∀ (d : DateValue) (j : JSON),
      DateValue.UnmarshalJSONRaw d (.text j true) = DateValue.UnmarshalJSON d j := by
    intro d j
    cases j <;> rfl
  have et : ∀ (t : Time) (j : JSON),
      timeOrDate.UnmarshalJSONRaw t (.text j true) = timeOrDate.UnmarshalJSON t j := by
    intro t j
    cases j <;> rfl
  refine ⟨hd d b, ht t b, fun h => ?_, fun h => ?_, ed d, et t, fun j h => ?_, fun j h => ?_⟩
  · by_contra hc
    exact h (hd d b hc)
  · by_contra hc
    exact h (ht t b hc)
  · rw [← ed] at h ⊢
    exact hd d _ h
  · rw [← et] at h ⊢
    exact ht t _ h

/-- Witness of C20: a receiver holding the start of 1970, called on `{"value": "garbage"}`, on
the text ` null` and on bytes that are no JSON text; and the call on `{"value":
"2024-02-29"}`, which succeeds and writes the receiver. -/
theorem anchor_decoding_is_atomic_witness :
    (DateValue.UnmarshalJSONRaw ⟨⟨62135596800, 0, 0⟩⟩
      (.text (.obj [("value", .str "garbage")]) true)).val = ⟨⟨62135596800, 0, 0⟩⟩ ∧
    (timeOrDate.UnmarshalJSONRaw ⟨62135596800, 0, 0⟩ (.text .null false)).val
      = ⟨62135596800, 0, 0⟩ ∧
    (DateValue.UnmarshalJSONRaw ⟨⟨62135596800, 0, 0⟩⟩
      (.text (.obj [("value", .str "2024-02-29")]) true)).err = none ∧
    (timeOrDate.UnmarshalJSON ⟨62135596800, 0, 0⟩ (.num "5")).val = ⟨62135596800, 0, 0⟩ :=
  ⟨(anchor_decoding_is_atomic ⟨⟨62135596800, 0, 0⟩⟩ Time.zero
      (.text (.obj [("value", .str "garbage")]) true)).1 (by decide),
    (anchor_decoding_is_atomic ⟨Time.zero⟩ ⟨62135596800, 0, 0⟩ (.text .null false)).2.1
      (by decide),
    (anchor_decoding_is_atomic ⟨⟨62135596800, 0, 0⟩⟩ Time.zero
      (.text (.obj [("value", .str "2024-02-29")]) true)).2.2.1 (by decide),
    (anchor_decoding_is_atomic ⟨Time.zero⟩ ⟨62135596800, 0, 0⟩ (.invalid "")).2.2.2.2.2.2.2
      (.num "5") (by decide)⟩

/-- C19: a sample object fails to decode as a whole when one of its members, under a key that
selects an optional field, is an object whose `value` has the wrong JSON kind for the
field (a string, boolean, array or object for a `FloatValue` or `IntValue`; a number,
boolean, array or object for a `StringValue` or `TimeValue`), and when the `value` of its
`observation_time` is a string that parses under neither layout: `json.Unmarshal` returns
an error, whatever the other members are, and the caller receives that error and no
sample. -/
theorem sample_decode_fails_on_bad_field (ms : List (String × JSON)) (k : String)
    (vs : List (String × JSON)) (vk : String) (x : JSON) (hm : (k, .obj vs) ∈ ms)
    (hv : (vk, x) ∈ vs) (hvk : fieldMatch "value" vk = true) :
    (∀ f : OptionalField, fieldMatch f.name k = true → wrongKind f.kind x = true →
      (RealTime.Unmarshal (.obj ms)).err ≠ none ∧
      ∃ e, decodeResponse (.obj ms) = .error e ∧ (RealTime.Unmarshal (.obj ms)).err = some e) ∧
    (∀ (s : String) (e1 e2 : ParseError), fieldMatch "observation_time" k = true →
      x = .str s → Parse RFC3339 s = .error e1 → Parse dateLayout s = .error e2 →
      (RealTime.Unmarshal (.obj ms)).err ≠ none ∧
      ∃ e, decodeResponse (.obj ms) = .error e ∧ (RealTime.Unmarshal (.obj ms)).err = some e) := by
  refine ⟨fun f hk hx => ?_, fun s e1 e2 hk hs h1 h2 => ?_⟩
  · have h := RealTime_Unmarshal_fails ms (k, .obj vs) hm
      (fun cur => RealTime_setField_wrong f cur k vs vk x hk hvk hx hv)
    exact ⟨h, decodeResponse_error _ h⟩
  · subst hs
    have h := RealTime_Unmarshal_fails ms (k, .obj vs) hm
      (fun cur => RealTime_setField_badTime cur k vs vk s e1 e2 hk hvk h1 h2 hv)
    exact ⟨h, decodeResponse_error _ h⟩

/-- Witness of C19: a sample with a good `temperature` and with `"moonPhase": {"value": 4}`, and
a sample whose `observation_time` is `{"value": "yesterday"}` followed by a good
`temperature`. -/
theorem sample_decode_fails_on_bad_field_witness :
    (RealTime.Unmarshal (.obj [("temperature", .obj [("value", .num "72.5"), ("units", .str "F")]),
      ("moonPhase", .obj [("value", .num "4")])])).err ≠ none ∧
    (RealTime.Unmarshal (.obj [("observation_time", .obj [("value", .str "yesterday")]),
      ("temperature", .obj [("value", .num "72.5"), ("units", .str "F")])])).err ≠ none ∧
    (RealTime.Unmarshal (.obj [("temperature", .obj [("value", .num "72.5"), ("units", .str "F")]),
      ("moonPhase", .obj [("value", .num "4")])])).err
      = some (.unmarshalType "number" "string" "StringValue" "moonPhase.value") ∧
    decodeResponse (.obj [("temperature", .obj [("value", .num "72.5"), ("units", .str "F")]),
      ("moonPhase", .obj [("value", .num "4")])])
      = .error (.unmarshalType "number" "string" "StringValue" "moonPhase.value") :=
  ⟨((sample_decode_fails_on_bad_field
      [("temperature", .obj [("value", .num "72.5"), ("units", .str "F")]),
        ("moonPhase", .obj [("value", .num "4")])]
      "moonPhase" [("value", .num "4")] "value" (.num "4") (by simp) (by simp)
      (by decide)).1 (.weather .MoonPhase) (by decide) (by decide)).1,
    ((sample_decode_fails_on_bad_field
      [("observation_time", .obj [("value", .str "yesterday")]),
        ("temperature", .obj [("value", .num "72.5"), ("units", .str "F")])]
      "observation_time" [("value", .str "yesterday")] "value" (.str "yesterday") (by simp)
      (by simp) (by decide)).2 "yesterday"
      ⟨"2006-01-02T15:04:05Z07:00", "yesterday", "2006", "yesterday", ""⟩
      ⟨"2006-01-02", "yesterday", "2006", "yesterday", ""⟩ (by decide) rfl (by rfl) (by rfl)).1,
    by decide, by rfl⟩

/-- C21, as stated, fails for a zone offset of 25 hours: the start of 1970 UTC, shown at
`+25:00`, is not the zero time, lies in the year 1970 and has a whole-minute offset;
`QueryParams` emits `1970-01-02T01:00:00+25:00`, which `time.Parse` rejects under the
RFC 3339 layout because the hour of the offset is out of range, and under the date
layout too, so that `timeOrDate.UnmarshalJSON` returns an error and leaves the receiver
as it was. -/
theorem startTime_wide_offset_is_rejected :
    (⟨62135596800, 0, 90000⟩ : Time).IsZero = false ∧
    (⟨62135596800, 0, 90000⟩ : Time).Year = 1970 ∧
    (90000 : Int) % 60 = 0 ∧
    ({ scenarioArgs with Start := ⟨62135596800, 0, 90000⟩ } : ForecastArgs).QueryParams.get
      "start_time" = some ["1970-01-02T01:00:00+25:00"] ∧
    Parse RFC3339 "1970-01-02T01:00:00+25:00"
      = .error ⟨"2006-01-02T15:04:05Z07:00", "1970-01-02T01:00:00+25:00", "Z07:00", "",
          ": time zone offset hour out of range"⟩ ∧
    (timeOrDate.UnmarshalJSON Time.zero (.str "1970-01-02T01:00:00+25:00")).err ≠ none ∧
    (timeOrDate.UnmarshalJSON Time.zero (.str "1970-01-02T01:00:00+25:00")).val = Time.zero :=
  ⟨by decide, by decide, by decide, by decide, by rfl, by decide, by decide⟩

/-- C21, amended: for every time `t` that is not the zero time, whose year is in 1..9999 and
whose zone offset is a whole number of minutes and less than 25 hours east or west of
UTC, the `start_time` that `QueryParams` emits for `Start = t` is `t` in the RFC 3339
layout; `time.Parse` reads it under that layout, so that `timeOrDate.UnmarshalJSON` returns in
its first branch, without error, and the receiver becomes the instant of `t` cut to whole
seconds, at the offset of `t`. -/
theorem startTime_is_accepted (args : ForecastArgs) (t r : Time) (hz : t.IsZero = false)
    (hy : 1 ≤ t.Year ∧ t.Year ≤ 9999) (hm : t.offset % 60 = 0)
    (ho : -90000 < t.offset ∧ t.offset < 90000) :
    ({ args with Start := t } : ForecastArgs).QueryParams.get "start_time"
      = some [t.Format RFC3339] ∧
    Parse RFC3339 (t.Format RFC3339) = .ok ⟨t.sec, 0, t.offset⟩ ∧
    timeOrDate.UnmarshalJSON r (.str (t.Format RFC3339)) = ⟨⟨t.sec, 0, t.offset⟩, none⟩ := by
  have hp := Parse_Format_RFC3339 t hy.1 hy.2 hm ho.1 ho.2
  refine ⟨?_, hp, ?_⟩
  · rw [QueryParams_get]
    simp [hz]
  · simp only [timeOrDate.UnmarshalJSON, hp]

/-- Witness of C21, amended: March 4, 2021, 05:06:07 and 5 nanoseconds at `-07:30`, which
is written as `2021-03-04T05:06:07-07:30`. -/
theorem startTime_is_accepted_witness :
    (⟨63750458167, 5, -27000⟩ : Time).Format RFC3339 = "2021-03-04T05:06:07-07:30" ∧
    ({ scenarioArgs with Start := ⟨63750458167, 5, -27000⟩ } : ForecastArgs).QueryParams.get
      "start_time" = some [(⟨63750458167, 5, -27000⟩ : Time).Format RFC3339] ∧
    timeOrDate.UnmarshalJSON Time.zero (.str ((⟨63750458167, 5, -27000⟩ : Time).Format RFC3339))
      = ⟨⟨63750458167, 0, -27000⟩, none⟩ :=
  ⟨by decide,
    (startTime_is_accepted scenarioArgs ⟨63750458167, 5, -27000⟩ Time.zero (by decide)
      (by decide) (by decide) (by decide)).1,
    (startTime_is_accepted scenarioArgs ⟨63750458167, 5, -27000⟩ Time.zero (by decide)
      (by decide) (by decide) (by decide)).2.2⟩

end Climacell
